import Mathlib

/-!
# MPFA-O pressure solver with upwind mobilities (FVMPFAOPressure2PUpwind)

A shallow embedding of `dumux/new_decoupled/2p/diffusion/fvmpfa/fvmpfaopressure2pupwind.hh`
(`initializeMatrix`, `assemble`, `solve`, `updateMaterialLaws`), of the flux of
`dumux/boxmodels/2p/2plocalresidual.hh` and of the scalar product of
`ewoms/linear/overlappingscalarproduct.hh`.

Conventions of the embedding:

* `Scalar` (a C++ `double`) is the field `ℚ`: all statements are statements about the
  algorithm in exact arithmetic.  Division is the total division of `ℚ`.
* `Dune::FieldVector<Scalar, 2>` is `Fin 2 → ℚ`, `Dune::FieldMatrix<Scalar, r, c>` is
  `Matrix (Fin r) (Fin c) ℚ`; `a * b` on vectors is the dot product, `A.umv(x, y)` is
  `y += A x`, `B.leftmultiply(A)` is `B := A * B`, `C.rightmultiply(A)` is `C := C * A`.
* C++ exceptions are the error component of `Except Error`.
* an intersection iterator of a cell is a position in the list of its intersections:
  `ibegin` is `0`, `iend` is the length of the list, `++` adds one.
* cells are identified with their global index `Fin n`, where `n` is `gridSize()`.
-/

namespace Dumux

/-! ## Errors and configuration -/

/-- The exceptions the solver can raise: `Dune::NotImplemented`, the `Dune::FMatrixError`
of `FieldMatrix::invert` on a singular matrix, and the dereference of an iterator that
stands at the end position. -/
inductive Error where
  | notImplemented
  | matrixSingular
  | invalidIterator
deriving DecidableEq, Repr

/-- Equality of results is decidable (by a comparison that evaluates in the kernel). -/
instance instDecidableEqExcept {ε α : Type} [DecidableEq ε] [DecidableEq α] :
    DecidableEq (Except ε α)
  | Except.ok a, Except.ok b => decidable_of_iff (a = b) (by simp)
  | Except.error a, Except.error b => decidable_of_iff (a = b) (by simp)
  | Except.ok _, Except.error _ => isFalse (by simp)
  | Except.error _, Except.ok _ => isFalse (by simp)

/-- Modelled from the spec: the declaration of `GridTypeIndices` and of the property
`GridImplementation` is not among the sources.  There are three recognised grid kinds;
every other value of the property is `other`. -/
inductive GridImplementation where
  | sGrid
  | yaspGrid
  | ugGrid
  | other (tag : Nat)
deriving DecidableEq, Repr

/-! ## The next-face rule

The `switch` over the grid implementation is written out five times in the source.
`isItEnd` is the end position (the number of intersections of the cell), `isIt` the
current position; `isItBegin` is position `0`. -/

/-- The next-face switch of the first loop of `initializeMatrix`, which determines the row
sizes. -/
def initializeMatrix_nextisIt (gridImplementation : GridImplementation) (isItEnd isIt : Nat) :
    Except Error Nat :=
  let isItBegin := 0
  let tempisIt := isIt + 1
  let tempisItBegin := isItBegin + 1
  let nextisIt := tempisIt
  match gridImplementation with
  | .sGrid =>
    if nextisIt = isItEnd then pure isItBegin
    else
      let tempisIt := tempisIt + 1
      let nextisIt := tempisIt
      if nextisIt = isItEnd then pure tempisItBegin else pure nextisIt
  | .yaspGrid =>
    if nextisIt = isItEnd then pure isItBegin
    else
      let tempisIt := tempisIt + 1
      let nextisIt := tempisIt
      if nextisIt = isItEnd then pure tempisItBegin else pure nextisIt
  | .ugGrid =>
    if nextisIt = isItEnd then pure isItBegin else pure nextisIt
  | .other _ => throw Error.notImplemented

/-- The next-face switch of `assemble`. -/
def assemble_nextisIt (gridImplementation : GridImplementation) (isItEnd isIt : Nat) :
    Except Error Nat :=
  let isItBegin := 0
  let tempisIt := isIt + 1
  let tempisItBegin := isItBegin + 1
  let nextisIt := tempisIt
  match gridImplementation with
  | .sGrid =>
    if nextisIt = isItEnd then pure isItBegin
    else
      let tempisIt := tempisIt + 1
      let nextisIt := tempisIt
      if nextisIt = isItEnd then pure tempisItBegin else pure nextisIt
  | .yaspGrid =>
    if nextisIt = isItEnd then pure isItBegin
    else
      let tempisIt := tempisIt + 1
      let nextisIt := tempisIt
      if nextisIt = isItEnd then pure tempisItBegin else pure nextisIt
  | .ugGrid =>
    if nextisIt = isItEnd then pure isItBegin else pure nextisIt
  | .other _ => throw Error.notImplemented

/-- Iterating the next-face rule of `assemble`: `k` applications starting from `isIt`. -/
def assemble_nextisIt_iterate (gridImplementation : GridImplementation) (isItEnd : Nat) :
    Nat → Nat → Except Error Nat
  | 0, isIt => pure isIt
  | k + 1, isIt => do
    let nextisIt ← assemble_nextisIt gridImplementation isItEnd isIt
    assemble_nextisIt_iterate gridImplementation isItEnd k nextisIt

/-! ## Data model of the assembler -/

/-- The type `Dune::FieldVector<Scalar, dim>` for `dim = 2`; also `GlobalPosition`. -/
abbrev FieldVector := Fin 2 → ℚ

/-- The type `Dune::FieldVector<Scalar, dimWorld>` for `dimWorld = 2`. -/
abbrev GlobalPosition := Fin 2 → ℚ

/-- The type `Dune::FieldMatrix<Scalar, dim, dim>` for `dim = 2`. -/
abbrev FieldMatrix := Matrix (Fin 2) (Fin 2) ℚ

/-- Modelled from the spec: `BoundaryConditions::Flags` is declared outside the sources.
A boundary face carries the tag Dirichlet or Neumann; the enumeration has further values,
which the solver does not name, collected in `other`. -/
inductive BoundaryConditions where
  | neumann
  | dirichlet
  | other (flag : Int)
deriving DecidableEq, Repr

/-- A vector with one entry per phase, read at `wPhaseIdx` and `nPhaseIdx`
(the result of `problem_.source` and `problem_.neumannPress`). -/
structure PhaseVector where
  wPhase : ℚ
  nPhase : ℚ
deriving DecidableEq

/-- An intersection (face) of a cell, seen from that cell (its `inside()`).
`outside` is the neighbour across the face; following the data model of the spec a face
either has a neighbour or is a boundary face. -/
structure Intersection (n : Nat) where
  outside : Option (Fin n)
  indexInInside : Nat
  indexInOutside : Nat
  center : GlobalPosition
  volume : ℚ
  centerUnitOuterNormal : FieldVector
  corners : List GlobalPosition
deriving DecidableEq

/-- The query `neighbor()` of an intersection. -/
def Intersection.neighbor {n : Nat} (isIt : Intersection n) : Bool := isIt.outside.isSome

/-- The query `boundary()` of an intersection. -/
def Intersection.boundary {n : Nat} (isIt : Intersection n) : Bool := isIt.outside.isNone

/-- A cell (codimension 0 entity): centre, volume and its intersections in the order in
which the intersection iterator of the grid view visits them. -/
structure Element (n : Nat) where
  center : GlobalPosition
  volume : ℚ
  intersections : List (Intersection n)
deriving DecidableEq

/-- The collaborators of the solver: grid view, problem, spatial parameters and the
variables store, as far as `assemble` reads them.  Cell `i` is the element with
`problem_.variables().index(element) = i`. -/
structure Problem (n : Nat) where
  gridImplementation : GridImplementation
  element : Fin n → Element n
  source : GlobalPosition → Fin n → PhaseVector
  intrinsicPermeability : GlobalPosition → Fin n → FieldMatrix
  densityWetting : Fin n → ℚ
  densityNonwetting : Fin n → ℚ
  upwindMobilitiesWetting : Fin n → Nat → Nat → ℚ
  upwindMobilitiesNonwetting : Fin n → Nat → Nat → ℚ
  bctypePress : GlobalPosition → Intersection n → BoundaryConditions
  dirichletPress : GlobalPosition → Intersection n → ℚ
  neumannPress : GlobalPosition → Intersection n → PhaseVector

/-- The global system: the matrix `M_` and the right-hand side `f_`.  The sparsity pattern
of `M_` is not part of the embedding: every entry can be read and written. -/
structure System (n : Nat) where
  M_ : Matrix (Fin n) (Fin n) ℚ
  f_ : Fin n → ℚ

/-- Two systems are equal when their matrices and right-hand sides are. -/
instance instDecidableEqSystem {n : Nat} : DecidableEq (System n) := fun a b =>
  decidable_of_iff (a.M_ = b.M_ ∧ a.f_ = b.f_) (by cases a; cases b; simp)

/-- The update `M_[i][j] += v`. -/
def System.addM {n : Nat} (s : System n) (i j : Fin n) (v : ℚ) : System n :=
  { s with M_ := fun a b => if a = i ∧ b = j then s.M_ a b + v else s.M_ a b }

/-- The update `f_[i] += v`. -/
def System.addF {n : Nat} (s : System n) (i : Fin n) (v : ℚ) : System n :=
  { s with f_ := fun a => if a = i then s.f_ a + v else s.f_ a }

/-- The update `f_[i] -= v`. -/
def System.subF {n : Nat} (s : System n) (i : Fin n) (v : ℚ) : System n :=
  { s with f_ := fun a => if a = i then s.f_ a - v else s.f_ a }

/-- The assignment `f_[i] = v`. -/
def System.setF {n : Nat} (s : System n) (i : Fin n) (v : ℚ) : System n :=
  { s with f_ := fun a => if a = i then v else s.f_ a }

/-! ## Dense helpers -/

/-- The method `FieldMatrix::invert` in exact arithmetic: the inverse, or `FMatrixError`
when the matrix is singular.  (The Dune library is not part of the sources.) -/
def invert {k : Nat} (A : Matrix (Fin k) (Fin k) ℚ) : Except Error (Matrix (Fin k) (Fin k) ℚ) :=
  if A.det = 0 then throw Error.matrixSingular else pure (A.det⁻¹ • A.adjugate)

/-- The call `A.umv(x, y)`: `y += A x`. -/
def umv {r c : Nat} (A : Matrix (Fin r) (Fin c) ℚ) (x : Fin c → ℚ) (y : Fin r → ℚ) : Fin r → ℚ :=
  y + A.mulVec x

/-- The rotation matrix `R` of `assemble`: `R[0][1] = 1`, `R[1][0] = -1`. -/
def R : FieldMatrix := !![0, 1; -1, 0]

/-- Dereferencing the iterator at position `isIt` of a cell's intersections. -/
def deref {n : Nat} (intersections : List (Intersection n)) (isIt : Nat) :
    Except Error (Intersection n) :=
  match intersections[isIt]? with
  | some i => pure i
  | none => throw Error.invalidIterator

/-- Dereferencing an iterator that is either a valid intersection or the end position. -/
def derefOption {n : Nat} (isIt : Option (Intersection n)) : Except Error (Intersection n) :=
  match isIt with
  | some i => pure i
  | none => throw Error.invalidIterator

/-- The search for the intersection node `corner1234` of `isIt` and `nextisIt`:
every pair of equal corners overwrites the result, which starts at the origin. -/
def corner1234 {n : Nat} (isIt nextisIt : Intersection n) : GlobalPosition :=
  isIt.corners.foldl
    (fun c isItcorner =>
      nextisIt.corners.foldl
        (fun c nextisItcorner => if nextisItcorner = isItcorner then isItcorner else c) c)
    0

/-- The search for `isIt24` / `isIt34` in the four-cell case: the last intersection of the
neighbour that is interior, does not lead back to cell 1 and has `corner1234` as a corner;
the begin iterator when there is none. -/
def findInteriorFace {n : Nat} (intersections : List (Intersection n)) (inside : Fin n)
    (corner : GlobalPosition) : Option (Intersection n) :=
  intersections.foldl
    (fun isIt24 innerisIt =>
      if innerisIt.neighbor then
        if innerisIt.outside ≠ some inside then
          innerisIt.corners.foldl
            (fun isIt24 innerisItcorner =>
              if innerisItcorner = corner then some innerisIt else isIt24) isIt24
        else isIt24
      else isIt24)
    intersections.head?

/-- The search for `isIt24` / `isIt34` next to the boundary: the last boundary intersection
of the neighbour that has `corner1234` as a corner; the begin iterator when there is none. -/
def findBoundaryFace {n : Nat} (intersections : List (Intersection n))
    (corner : GlobalPosition) : Option (Intersection n) :=
  intersections.foldl
    (fun isIt24 innerisIt =>
      if innerisIt.boundary then
        innerisIt.corners.foldl
          (fun isIt24 innerisItcorner =>
            if innerisItcorner = corner then some innerisIt else isIt24) isIt24
      else isIt24)
    intersections.head?

/-- The data of neighbour cell 4 gathered by the search for the common neighbour of
cell 2 and cell 3. -/
structure Cell4 (n : Nat) where
  globalPos4 : GlobalPosition
  K4 : FieldMatrix
  lambda4 : ℚ
  globalIdx4 : Fin n

/-- The double loop over the intersections of cell 2 and cell 3 that looks for their
common neighbour other than cell 1.  Initially `globalPos4(0)`, `K4(0)`, `lambda4 = 0`,
`globalIdx4 = 0`; every hit overwrites position, mobility and index and adds the
permeability of the hit to `K4`. -/
def findCell4 {n : Nat} (P : Problem n) (globalIdx1 : Fin n) (indexInInside : Nat)
    (outsideFaces nextisItoutsideFaces : List (Intersection n)) : Cell4 n :=
  outsideFaces.foldl
    (fun c innerisIt =>
      nextisItoutsideFaces.foldl
        (fun c innernextisIt =>
          match innerisIt.outside, innernextisIt.outside with
          | some innerisItoutside, some innernextisItoutside =>
            if innerisItoutside = innernextisItoutside ∧ innerisItoutside ≠ globalIdx1 then
              let globalPos4 := (P.element innerisItoutside).center
              { globalIdx4 := innerisItoutside
                globalPos4 := globalPos4
                K4 := c.K4 + P.intrinsicPermeability globalPos4 innerisItoutside
                lambda4 := P.upwindMobilitiesWetting globalIdx1 indexInInside 3
                  + P.upwindMobilitiesNonwetting globalIdx1 indexInInside 3 }
            else c
          | _, _ => c)
        c)
    { globalPos4 := 0, K4 := 0, lambda4 := 0, globalIdx4 := ⟨0, Fin.pos globalIdx1⟩ }

/-- The area normaliser: `R.umv(nuB, RnuB); dF = fabs(nuA * RnuB)`. -/
def dF (nuA nuB : FieldVector) : ℚ := abs (Matrix.dotProduct nuA (umv R nuB 0))

/-- A flux coefficient: `K.umv(nu, Knu); g = lambda * (normal * Knu) / dF`. -/
def gCoefficient (lambda : ℚ) (normal : FieldVector) (K : FieldMatrix) (nu : FieldVector)
    (dF : ℚ) : ℚ :=
  lambda * (Matrix.dotProduct normal (umv K nu 0)) / dF

/-! ## The local systems of `assemble`

Each definition takes the flux coefficients under the names they have in the source
(`g111`, `g121`, ...), builds the local matrices and performs the updates of `M_` and `f_`
of one branch of the case analysis. -/

/-- The four-cell case: the transmissibility matrix `T = C A^{-1} B + F`. -/
def fourCellT (g111 g121 g211 g221 g112 g122 g212 g222 g113 g123 g213 g223
    g114 g124 g214 g224 : ℚ) : Except Error (Matrix (Fin 4) (Fin 4) ℚ) := do
  let C : Matrix (Fin 4) (Fin 4) ℚ :=
    !![-g111, 0, -g121, 0; 0, g114, 0, g124; 0, -g213, g223, 0; g212, 0, 0, -g222]
  let F : Matrix (Fin 4) (Fin 4) ℚ :=
    !![g111 + g121, 0, 0, 0; 0, 0, 0, -g114 - g124; 0, 0, g213 - g223, 0;
       0, -g212 + g222, 0, 0]
  let A : Matrix (Fin 4) (Fin 4) ℚ :=
    !![g111 + g112, 0, g121, -g122; 0, g114 + g113, -g123, g124;
       g211, -g213, g223 + g221, 0; -g212, g214, 0, g222 + g224]
  let B : Matrix (Fin 4) (Fin 4) ℚ :=
    !![g111 + g121, g112 - g122, 0, 0; 0, 0, g113 - g123, g114 + g124;
       g211 + g221, 0, -g213 + g223, 0; 0, -g212 + g222, 0, g214 + g224]
  let A ← invert A
  let C := C * A
  let B := C * B
  let F := F + B
  pure F

/-- The four-cell case, from the geometry to `T`: the vectors `nu12` ... `nu24`, the area
normalisers `dF2`, `dF3`, `dF4`, the flux coefficients of the cells 2, 3 and 4 and the
transmissibility matrix.  The coefficients of cell 1 come from the prelude. -/
def fourCellTransmissibility (g111 g121 g211 g221 lambda2 lambda3 lambda4 : ℚ)
    (integrationOuterNormaln1 integrationOuterNormaln2 integrationOuterNormaln3
      integrationOuterNormaln4 : FieldVector)
    (K2 K3 K4 : FieldMatrix)
    (globalPos2 globalPos3 globalPos4 globalPosFace12 globalPosFace13 globalPosFace24
      globalPosFace34 : GlobalPosition) : Except Error (Matrix (Fin 4) (Fin 4) ℚ) :=
  let nu12 := umv R (globalPosFace24 - globalPos2) 0
  let nu22 := umv R (globalPosFace12 - globalPos2) 0
  let nu13 := umv R (globalPos3 - globalPosFace13) 0
  let nu23 := umv R (globalPos3 - globalPosFace34) 0
  let nu14 := umv R (globalPos4 - globalPosFace24) 0
  let nu24 := umv R (globalPosFace34 - globalPos4) 0
  let dF2 := dF nu12 nu22
  let dF3 := dF nu13 nu23
  let dF4 := dF nu14 nu24
  let g112 := gCoefficient lambda2 integrationOuterNormaln1 K2 nu12 dF2
  let g122 := gCoefficient lambda2 integrationOuterNormaln1 K2 nu22 dF2
  let g212 := gCoefficient lambda2 integrationOuterNormaln4 K2 nu12 dF2
  let g222 := gCoefficient lambda2 integrationOuterNormaln4 K2 nu22 dF2
  let g113 := gCoefficient lambda3 integrationOuterNormaln2 K3 nu13 dF3
  let g123 := gCoefficient lambda3 integrationOuterNormaln2 K3 nu23 dF3
  let g213 := gCoefficient lambda3 integrationOuterNormaln3 K3 nu13 dF3
  let g223 := gCoefficient lambda3 integrationOuterNormaln3 K3 nu23 dF3
  let g114 := gCoefficient lambda4 integrationOuterNormaln2 K4 nu14 dF4
  let g124 := gCoefficient lambda4 integrationOuterNormaln2 K4 nu24 dF4
  let g214 := gCoefficient lambda4 integrationOuterNormaln4 K4 nu14 dF4
  let g224 := gCoefficient lambda4 integrationOuterNormaln4 K4 nu24 dF4
  fourCellT g111 g121 g211 g221 g112 g122 g212 g222 g113 g123 g213 g223 g114 g124 g214 g224

/-- The four-cell case: the updates of row `globalIdx1` of `M_` with the rows 0 and 2
of `T`. -/
def fourCellScatter {n : Nat} (s : System n) (globalIdx1 globalIdx2 globalIdx3 globalIdx4 : Fin n)
    (T : Matrix (Fin 4) (Fin 4) ℚ) : System n :=
  let s := s.addM globalIdx1 globalIdx1 (T 0 0 + T 2 0)
  let s := s.addM globalIdx1 globalIdx2 (T 0 1 + T 2 1)
  let s := s.addM globalIdx1 globalIdx3 (T 0 2 + T 2 2)
  let s := s.addM globalIdx1 globalIdx4 (T 0 3 + T 2 3)
  s

/-- Interior `isIt`, `nextisIt` on a Neumann boundary, `isIt24` on a Neumann boundary. -/
def interiorNeumannNeumann {n : Nat} (s : System n) (globalIdx1 globalIdx2 : Fin n)
    (g111 g121 g211 g221 g112 g122 g212 g222 J3 J4 face13vol face24vol : ℚ) :
    Except Error (System n) := do
  let A : Matrix (Fin 3) (Fin 3) ℚ :=
    !![g111 + g112, g121, -g122; g211, g221, 0; -g212, 0, g222]
  let B : Matrix (Fin 3) (Fin 2) ℚ :=
    !![g111 + g121, g112 - g122; g211 + g221, 0; 0, g222 - g212]
  let r1 : Fin 3 → ℚ := ![0, -J3 * face13vol / 2, -J4 * face24vol / 2]
  let A ← invert A
  let T := A * B
  let r := umv A r1 0
  let s := s.addM globalIdx1 globalIdx1 (g111 + g121 - g111 * T 0 0 - g121 * T 1 0)
  let s := s.addM globalIdx1 globalIdx2 (-g111 * T 0 1 - g121 * T 1 1)
  let s := s.addF globalIdx1 (g111 * r 0 + g121 * r 1)
  pure s

/-- Interior `isIt`, `nextisIt` on a Neumann boundary, `isIt24` on a Dirichlet boundary. -/
def interiorNeumannDirichlet {n : Nat} (s : System n) (globalIdx1 globalIdx2 : Fin n)
    (g111 g121 g211 g221 g112 g122 J3 g4 face13vol : ℚ) : Except Error (System n) := do
  let A : Matrix (Fin 2) (Fin 2) ℚ := !![g111 + g112, g121; g211, g221]
  let B : Matrix (Fin 2) (Fin 2) ℚ := !![g111 + g121, g112 - g122; g211 + g221, 0]
  let r1 : Fin 2 → ℚ := ![g122 * g4, -J3 * face13vol / 2]
  let A ← invert A
  let T := A * B
  let r := umv A r1 0
  let s := s.addM globalIdx1 globalIdx1 (g111 + g121 - g111 * T 0 0 - g121 * T 1 0)
  let s := s.addM globalIdx1 globalIdx2 (-g111 * T 0 1 - g121 * T 1 1)
  let s := s.addF globalIdx1 (g111 * r 0 + g121 * r 1)
  pure s

/-- Interior `isIt`, `nextisIt` on a Dirichlet boundary, `isIt24` on a Neumann boundary. -/
def interiorDirichletNeumann {n : Nat} (s : System n) (globalIdx1 globalIdx2 : Fin n)
    (g111 g121 g211 g221 g112 g122 g212 g222 g3 J4 face24vol : ℚ) :
    Except Error (System n) := do
  let A : Matrix (Fin 2) (Fin 2) ℚ := !![g111 + g112, -g122; -g212, g222]
  let B : Matrix (Fin 2) (Fin 2) ℚ := !![g111 + g121, g112 - g122; 0, g222 - g212]
  let r1 : Fin 2 → ℚ := ![-g121 * g3, -J4 * face24vol / 2]
  let A ← invert A
  let T := A * B
  let r := umv A r1 0
  let s := s.addM globalIdx1 globalIdx1
    ((g111 + g121 - g111 * T 0 0) + (g211 + g221 - g211 * T 0 0))
  let s := s.addM globalIdx1 globalIdx2 (-g111 * T 0 1 - g211 * T 0 1)
  let s := s.addF globalIdx1 ((g121 + g221) * g3 + (g111 + g211) * r 0)
  pure s

/-- Interior `isIt`, `nextisIt` on a Dirichlet boundary, `isIt24` on a Dirichlet boundary. -/
def interiorDirichletDirichlet {n : Nat} (s : System n) (globalIdx1 globalIdx2 : Fin n)
    (g111 g121 g211 g221 g112 g122 g3 g4 : ℚ) : Except Error (System n) := do
  let coe := g111 + g112
  let T : Matrix (Fin 2) (Fin 2) ℚ :=
    !![g112 * (g111 + g121) / coe, -g111 * (g112 - g122) / coe;
       g221 + g211 * (g112 - g121) / coe, -g211 * (g112 - g122) / coe]
  let r : Fin 2 → ℚ :=
    ![-(g4 * g122 * g111 + g3 * g112 * g121) / coe,
      -g221 * g3 + (g3 * g211 * g121 - g4 * g211 * g122) / coe]
  let s := s.addM globalIdx1 globalIdx1 (T 0 0 + T 1 0)
  let s := s.addM globalIdx1 globalIdx2 (T 0 1 + T 1 1)
  let s := s.subF globalIdx1 (r 0 + r 1)
  pure s

/-- Neumann `isIt`, `nextisIt` on a Dirichlet boundary. -/
def neumannBoundaryDirichlet {n : Nat} (s : System n) (globalIdx1 : Fin n)
    (g111 g121 g211 g221 g3 J1 face12vol : ℚ) : Except Error (System n) := do
  let s := s.addM globalIdx1 globalIdx1 (g221 - g211 * g121 / g111)
  let s := s.subF globalIdx1
    ((g211 * g121 / g111 - g221) * g3 - (g211 * (-J1) * face12vol) / (2 * g111))
  pure s

/-- Neumann `isIt`, interior `nextisIt`, `isIt34` on a Neumann boundary. -/
def neumannInteriorNeumann {n : Nat} (s : System n) (globalIdx1 globalIdx3 : Fin n)
    (g111 g121 g211 g221 g113 g123 g213 g223 J1 J2 face12vol face34vol : ℚ) :
    Except Error (System n) := do
  let C : Matrix (Fin 3) (Fin 3) ℚ := !![-g111, 0, -g121; 0, -g113, g123; 0, -g213, g223]
  let F : Matrix (Fin 3) (Fin 2) ℚ := !![g111 + g121, 0; 0, g113 - g123; 0, g213 - g223]
  let A : Matrix (Fin 3) (Fin 3) ℚ :=
    !![g111, 0, g121; 0, g113, -g123; g211, -g213, g223 + g221]
  let B : Matrix (Fin 3) (Fin 2) ℚ :=
    !![g111 + g121, 0; 0, g113 - g123; g211 + g221, g223 - g213]
  let A ← invert A
  let CAinv := C * A
  let B := CAinv * B
  let F := F + B
  let T := F
  let r1 : Fin 3 → ℚ := ![-J1 * face12vol / 2, -J2 * face34vol / 2, 0]
  let r := umv CAinv r1 0
  let s := s.addM globalIdx1 globalIdx1 (T 2 0)
  let s := s.addM globalIdx1 globalIdx3 (T 2 1)
  let s := s.subF globalIdx1 (r 2)
  pure s

/-- Neumann `isIt`, interior `nextisIt`, `isIt34` not on a Neumann boundary (taken as
Dirichlet). -/
def neumannInteriorDirichlet {n : Nat} (s : System n) (globalIdx1 globalIdx3 : Fin n)
    (g111 g121 g211 g221 g213 g223 J1 g2 face12vol : ℚ) : Except Error (System n) := do
  let C : Matrix (Fin 2) (Fin 2) ℚ := !![-g111, -g121; 0, g223]
  let F : Matrix (Fin 2) (Fin 2) ℚ := !![g111 + g121, 0; 0, g213 - g223]
  let A : Matrix (Fin 2) (Fin 2) ℚ := !![g111, g121; g211, g223 + g221]
  let B : Matrix (Fin 2) (Fin 2) ℚ := !![g111 + g121, 0; g211 + g221, g223 - g213]
  let A ← invert A
  let CAinv := C * A
  let B := CAinv * B
  let F := F + B
  let T := F
  let r1 : Fin 2 → ℚ := ![0, -g213 * g2]
  let r2 : Fin 2 → ℚ := ![-J1 * face12vol / 2, g213 * g2]
  let r := umv CAinv r2 0
  let r := r + r1
  let s := s.addM globalIdx1 globalIdx1 (T 1 0)
  let s := s.addM globalIdx1 globalIdx3 (T 1 1)
  let s := s.subF globalIdx1 (r 1)
  pure s

/-- Dirichlet `isIt`, `nextisIt` on a Dirichlet boundary. -/
def dirichletBoundaryDirichlet {n : Nat} (s : System n) (globalIdx1 : Fin n)
    (g111 g121 g211 g221 g1 g3 : ℚ) : Except Error (System n) := do
  let T1 := g111 + g121
  let T3 := g211 + g221
  let r1 := g111 * g1 + g121 * g3
  let r3 := g211 * g1 + g221 * g3
  let s := s.addM globalIdx1 globalIdx1 (T1 + T3)
  let s := s.addF globalIdx1 (r1 + r3)
  pure s

/-- Dirichlet `isIt`, `nextisIt` on a boundary that is not Dirichlet (taken as Neumann). -/
def dirichletBoundaryNeumann {n : Nat} (s : System n) (globalIdx1 : Fin n)
    (g111 g121 g211 g221 g1 J3 face13vol : ℚ) : Except Error (System n) := do
  let T := g111 - g211 * g121 / g221
  let r := -T * g1 - g121 * (-J3) * face13vol / (2 * g221)
  let s := s.addM globalIdx1 globalIdx1 T
  let s := s.subF globalIdx1 r
  pure s

/-- Dirichlet `isIt`, interior `nextisIt`, `isIt34` on a Dirichlet boundary. -/
def dirichletInteriorDirichlet {n : Nat} (s : System n) (globalIdx1 globalIdx3 : Fin n)
    (g111 g121 g211 g221 g213 g223 g1 g2 : ℚ) : Except Error (System n) := do
  let coe := g221 + g223
  let T : Matrix (Fin 2) (Fin 2) ℚ :=
    !![g111 + g121 * (g223 - g211) / coe, -g121 * (g223 - g213) / coe;
       g223 * (g211 + g221) / coe, -g221 * (g223 - g213) / coe]
  let r : Fin 2 → ℚ :=
    ![-g111 * g1 + (g1 * g121 * g211 - g2 * g213 * g121) / coe,
      -(g1 * g211 * g223 + g2 * g221 * g213) / coe]
  let s := s.addM globalIdx1 globalIdx1 (T 0 0 + T 1 0)
  let s := s.addM globalIdx1 globalIdx3 (T 0 1 + T 1 1)
  let s := s.subF globalIdx1 (r 0 + r 1)
  pure s

/-- Dirichlet `isIt`, interior `nextisIt`, `isIt34` not on a Dirichlet boundary (taken as
Neumann). -/
def dirichletInteriorNeumann {n : Nat} (s : System n) (globalIdx1 globalIdx3 : Fin n)
    (g111 g121 g211 g221 g113 g123 g213 g223 g1 J2 face34vol : ℚ) :
    Except Error (System n) := do
  let A : Matrix (Fin 2) (Fin 2) ℚ := !![g113, -g123; -g213, g221 + g223]
  let B : Matrix (Fin 2) (Fin 2) ℚ := !![0, g113 - g123; g211 + g221, g223 - g213]
  let r1 : Fin 2 → ℚ := ![-J2 * face34vol / 2, -g211 * g1]
  let A ← invert A
  let T := A * B
  let r := umv A r1 0
  let s := s.addM globalIdx1 globalIdx1
    ((g111 + g121 - g121 * T 1 0) + (g211 + g221 - g221 * T 1 0))
  let s := s.addM globalIdx1 globalIdx3 (-g121 * T 1 1 - g221 * T 1 1)
  let s := s.addF globalIdx1 ((g111 + g211) * g1 + (g121 + g221) * r 1)
  pure s

/-! ## The assembler -/

/-- What `assemble` has computed for one pair (`isIt`, `nextisIt`) of cell 1 before it
branches on the kind of the two faces. -/
structure FaceData (n : Nat) where
  globalIdx1 : Fin n
  globalPos1 : GlobalPosition
  densityW : ℚ
  densityNW : ℚ
  isIt : Intersection n
  nextisIt : Intersection n
  indexInInside : Nat
  lambda2 : ℚ
  lambda3 : ℚ
  globalPosFace12 : GlobalPosition
  face12vol : ℚ
  integrationOuterNormaln1 : FieldVector
  globalPosFace13 : GlobalPosition
  integrationOuterNormaln3 : FieldVector
  corner1234 : GlobalPosition
  g111 : ℚ
  g121 : ℚ
  g211 : ℚ
  g221 : ℚ

/-- The common prelude of one pass of the intersection loop of `assemble`: the next-face
switch, the geometry of `isIt` and `nextisIt`, the mobilities and the coefficients of
cell 1 (`nu11`, `nu21`, `dF1`, `g111`, `g121`, `g211`, `g221`, which every branch computes
by the same text). -/
def faceData {n : Nat} (P : Problem n) (globalIdx1 : Fin n) (isIt : Nat) :
    Except Error (FaceData n) := do
  let eIt := P.element globalIdx1
  let globalPos1 := eIt.center
  let K1 := P.intrinsicPermeability globalPos1 globalIdx1
  let nextisIt ← assemble_nextisIt P.gridImplementation eIt.intersections.length isIt
  let isIt ← deref eIt.intersections isIt
  let nextisIt ← deref eIt.intersections nextisIt
  let indexInInside := isIt.indexInInside
  let lambda1 := P.upwindMobilitiesWetting globalIdx1 indexInInside 0
    + P.upwindMobilitiesNonwetting globalIdx1 indexInInside 0
  let globalPosFace12 := isIt.center
  let face12vol := isIt.volume
  let integrationOuterNormaln1 := (face12vol / 2) • isIt.centerUnitOuterNormal
  let globalPosFace13 := nextisIt.center
  let face13vol := nextisIt.volume
  let integrationOuterNormaln3 := (face13vol / 2) • nextisIt.centerUnitOuterNormal
  let lambda2 := P.upwindMobilitiesWetting globalIdx1 indexInInside 1
    + P.upwindMobilitiesNonwetting globalIdx1 indexInInside 1
  let lambda3 := P.upwindMobilitiesWetting globalIdx1 indexInInside 2
    + P.upwindMobilitiesNonwetting globalIdx1 indexInInside 2
  let nu11 := umv R (globalPosFace13 - globalPos1) 0
  let nu21 := umv R (globalPos1 - globalPosFace12) 0
  let dF1 := dF nu11 nu21
  pure
    { globalIdx1 := globalIdx1
      globalPos1 := globalPos1
      densityW := P.densityWetting globalIdx1
      densityNW := P.densityNonwetting globalIdx1
      isIt := isIt
      nextisIt := nextisIt
      indexInInside := indexInInside
      lambda2 := lambda2
      lambda3 := lambda3
      globalPosFace12 := globalPosFace12
      face12vol := face12vol
      integrationOuterNormaln1 := integrationOuterNormaln1
      globalPosFace13 := globalPosFace13
      integrationOuterNormaln3 := integrationOuterNormaln3
      corner1234 := corner1234 isIt nextisIt
      g111 := gCoefficient lambda1 integrationOuterNormaln1 K1 nu11 dF1
      g121 := gCoefficient lambda1 integrationOuterNormaln1 K1 nu21 dF1
      g211 := gCoefficient lambda1 integrationOuterNormaln3 K1 nu11 dF1
      g221 := gCoefficient lambda1 integrationOuterNormaln3 K1 nu21 dF1 }

/-- The total Neumann flux `J[wPhaseIdx] / densityW + J[nPhaseIdx] / densityNW`. -/
def neumannFlux {n : Nat} (d : FaceData n) (J : PhaseVector) : ℚ :=
  J.wPhase / d.densityW + J.nPhase / d.densityNW

/-- Both `isIt` (towards cell 2) and `nextisIt` (towards cell 3) are interior faces. -/
def assembleInteriorInterior {n : Nat} (P : Problem n) (d : FaceData n)
    (globalIdx2 globalIdx3 : Fin n) (s : System n) : Except Error (System n) := do
  let outside := P.element globalIdx2
  let globalPos2 := outside.center
  let K2 := P.intrinsicPermeability globalPos2 globalIdx2
  let nextisItoutside := P.element globalIdx3
  let globalPos3 := nextisItoutside.center
  let K3 := P.intrinsicPermeability globalPos3 globalIdx3
  let cell4 := findCell4 P d.globalIdx1 d.indexInInside outside.intersections
    nextisItoutside.intersections
  let globalPos4 := cell4.globalPos4
  let K4 := cell4.K4
  let lambda4 := cell4.lambda4
  let globalIdx4 := cell4.globalIdx4
  let isIt24 ← derefOption (findInteriorFace outside.intersections d.globalIdx1 d.corner1234)
  let globalPosFace24 := isIt24.center
  let integrationOuterNormaln4 := (isIt24.volume / 2) • isIt24.centerUnitOuterNormal
  let isIt34 ← derefOption
    (findInteriorFace nextisItoutside.intersections d.globalIdx1 d.corner1234)
  let globalPosFace34 := isIt34.center
  let integrationOuterNormaln2 := (isIt34.volume / 2) • isIt34.centerUnitOuterNormal
  let T ← fourCellTransmissibility d.g111 d.g121 d.g211 d.g221 d.lambda2 d.lambda3 lambda4
    d.integrationOuterNormaln1 integrationOuterNormaln2 d.integrationOuterNormaln3
    integrationOuterNormaln4 K2 K3 K4 globalPos2 globalPos3 globalPos4 d.globalPosFace12
    d.globalPosFace13 globalPosFace24 globalPosFace34
  pure (fourCellScatter s d.globalIdx1 globalIdx2 globalIdx3 globalIdx4 T)

/-- The face `isIt` (towards cell 2) is interior, `nextisIt` is on the boundary. -/
def assembleInteriorBoundary {n : Nat} (P : Problem n) (d : FaceData n)
    (globalIdx2 : Fin n) (s : System n) : Except Error (System n) := do
  let outside := P.element globalIdx2
  let globalPos2 := outside.center
  let K2 := P.intrinsicPermeability globalPos2 globalIdx2
  let isIt24 ← derefOption (findBoundaryFace outside.intersections d.corner1234)
  let globalPosFace24 := isIt24.center
  let integrationOuterNormaln4 := (isIt24.volume / 2) • isIt24.centerUnitOuterNormal
  let nu12 := umv R (globalPosFace24 - globalPos2) 0
  let nu22 := umv R (d.globalPosFace12 - globalPos2) 0
  let dF2 := dF nu12 nu22
  let g112 := gCoefficient d.lambda2 d.integrationOuterNormaln1 K2 nu12 dF2
  let g122 := gCoefficient d.lambda2 d.integrationOuterNormaln1 K2 nu22 dF2
  let g212 := gCoefficient d.lambda2 integrationOuterNormaln4 K2 nu12 dF2
  let g222 := gCoefficient d.lambda2 integrationOuterNormaln4 K2 nu22 dF2
  let nextisItbctype := P.bctypePress d.globalPosFace13 d.nextisIt
  if nextisItbctype = BoundaryConditions.neumann then
    let J3 := neumannFlux d (P.neumannPress d.globalPosFace13 d.nextisIt)
    let isIt24bctype := P.bctypePress globalPosFace24 isIt24
    if isIt24bctype = BoundaryConditions.neumann then
      let J4 := neumannFlux d (P.neumannPress globalPosFace24 isIt24)
      interiorNeumannNeumann s d.globalIdx1 globalIdx2 d.g111 d.g121 d.g211 d.g221
        g112 g122 g212 g222 J3 J4 d.nextisIt.volume isIt24.volume
    else
      let g4 := P.dirichletPress globalPosFace24 isIt24
      interiorNeumannDirichlet s d.globalIdx1 globalIdx2 d.g111 d.g121 d.g211 d.g221
        g112 g122 J3 g4 d.nextisIt.volume
  else
    let g3 := P.dirichletPress d.globalPosFace13 d.nextisIt
    let isIt24bctype := P.bctypePress globalPosFace24 isIt24
    if isIt24bctype = BoundaryConditions.neumann then
      let J4 := neumannFlux d (P.neumannPress globalPosFace24 isIt24)
      interiorDirichletNeumann s d.globalIdx1 globalIdx2 d.g111 d.g121 d.g211 d.g221
        g112 g122 g212 g222 g3 J4 isIt24.volume
    else
      let g4 := P.dirichletPress globalPosFace24 isIt24
      interiorDirichletDirichlet s d.globalIdx1 globalIdx2 d.g111 d.g121 d.g211 d.g221
        g112 g122 g3 g4

/-- The coefficients of cell 3 and the face `isIt34` when `isIt` is a boundary face and
`nextisIt` (towards cell 3) is interior. -/
structure Cell3Data (n : Nat) where
  isIt34 : Intersection n
  globalPosFace34 : GlobalPosition
  g113 : ℚ
  g123 : ℚ
  g213 : ℚ
  g223 : ℚ

/-- The search for `isIt34` on the boundary of cell 3 and the coefficients of cell 3. -/
def cell3Data {n : Nat} (P : Problem n) (d : FaceData n) (globalIdx3 : Fin n) :
    Except Error (Cell3Data n) := do
  let nextisItoutside := P.element globalIdx3
  let globalPos3 := nextisItoutside.center
  let K3 := P.intrinsicPermeability globalPos3 globalIdx3
  let isIt34 ← derefOption (findBoundaryFace nextisItoutside.intersections d.corner1234)
  let globalPosFace34 := isIt34.center
  let integrationOuterNormaln2 := (isIt34.volume / 2) • isIt34.centerUnitOuterNormal
  let nu13 := umv R (globalPos3 - d.globalPosFace13) 0
  let nu23 := umv R (globalPos3 - globalPosFace34) 0
  let dF3 := dF nu13 nu23
  pure
    { isIt34 := isIt34
      globalPosFace34 := globalPosFace34
      g113 := gCoefficient d.lambda3 integrationOuterNormaln2 K3 nu13 dF3
      g123 := gCoefficient d.lambda3 integrationOuterNormaln2 K3 nu23 dF3
      g213 := gCoefficient d.lambda3 d.integrationOuterNormaln3 K3 nu13 dF3
      g223 := gCoefficient d.lambda3 d.integrationOuterNormaln3 K3 nu23 dF3 }

/-- The face `isIt` is on a Neumann boundary. -/
def assembleNeumann {n : Nat} (P : Problem n) (d : FaceData n) (s : System n) :
    Except Error (System n) := do
  let J1 := neumannFlux d (P.neumannPress d.globalPosFace12 d.isIt)
  let s := s.subF d.globalIdx1 (d.face12vol * J1)
  match d.nextisIt.outside with
  | none =>
    let nextisItbctype := P.bctypePress d.globalPosFace13 d.nextisIt
    if nextisItbctype = BoundaryConditions.dirichlet then
      let g3 := P.dirichletPress d.globalPosFace13 d.nextisIt
      neumannBoundaryDirichlet s d.globalIdx1 d.g111 d.g121 d.g211 d.g221 g3 J1 d.face12vol
    else pure s
  | some globalIdx3 =>
    let c ← cell3Data P d globalIdx3
    let isIt34bctype := P.bctypePress c.globalPosFace34 c.isIt34
    if isIt34bctype = BoundaryConditions.neumann then
      let J2 := neumannFlux d (P.neumannPress c.globalPosFace34 c.isIt34)
      neumannInteriorNeumann s d.globalIdx1 globalIdx3 d.g111 d.g121 d.g211 d.g221
        c.g113 c.g123 c.g213 c.g223 J1 J2 d.face12vol c.isIt34.volume
    else
      let g2 := P.dirichletPress c.globalPosFace34 c.isIt34
      neumannInteriorDirichlet s d.globalIdx1 globalIdx3 d.g111 d.g121 d.g211 d.g221
        c.g213 c.g223 J1 g2 d.face12vol

/-- The face `isIt` is on a boundary that is not Neumann: the `else` branch, which the
source comments as the Dirichlet boundary. -/
def assembleDirichlet {n : Nat} (P : Problem n) (d : FaceData n) (s : System n) :
    Except Error (System n) := do
  let g1 := P.dirichletPress d.globalPosFace12 d.isIt
  match d.nextisIt.outside with
  | none =>
    let nextisItbctype := P.bctypePress d.globalPosFace13 d.nextisIt
    if nextisItbctype = BoundaryConditions.dirichlet then
      let g3 := P.dirichletPress d.globalPosFace13 d.nextisIt
      dirichletBoundaryDirichlet s d.globalIdx1 d.g111 d.g121 d.g211 d.g221 g1 g3
    else
      let J3 := neumannFlux d (P.neumannPress d.globalPosFace13 d.nextisIt)
      dirichletBoundaryNeumann s d.globalIdx1 d.g111 d.g121 d.g211 d.g221 g1 J3
        d.nextisIt.volume
  | some globalIdx3 =>
    let c ← cell3Data P d globalIdx3
    let isIt34bctype := P.bctypePress c.globalPosFace34 c.isIt34
    if isIt34bctype = BoundaryConditions.dirichlet then
      let g2 := P.dirichletPress c.globalPosFace34 c.isIt34
      dirichletInteriorDirichlet s d.globalIdx1 globalIdx3 d.g111 d.g121 d.g211 d.g221
        c.g213 c.g223 g1 g2
    else
      let J2 := neumannFlux d (P.neumannPress c.globalPosFace34 c.isIt34)
      dirichletInteriorNeumann s d.globalIdx1 globalIdx3 d.g111 d.g121 d.g211 d.g221
        c.g113 c.g123 c.g213 c.g223 g1 J2 c.isIt34.volume

/-- One pass of the intersection loop of `assemble` for cell `globalIdx1` and the
intersection at position `isIt`. -/
def assembleFace {n : Nat} (P : Problem n) (globalIdx1 : Fin n) (s : System n) (isIt : Nat) :
    Except Error (System n) := do
  let d ← faceData P globalIdx1 isIt
  match d.isIt.outside with
  | some globalIdx2 =>
    match d.nextisIt.outside with
    | some globalIdx3 => assembleInteriorInterior P d globalIdx2 globalIdx3 s
    | none => assembleInteriorBoundary P d globalIdx2 s
  | none =>
    let isItbctype := P.bctypePress d.globalPosFace12 d.isIt
    if isItbctype = BoundaryConditions.neumann then assembleNeumann P d s
    else assembleDirichlet P d s

/-- One pass of the element loop of `assemble`: the right-hand side is set to the source
term, a cell with zero permeability gets `M_[i][i] += 1` and is left (`continue`), every
other cell runs through its intersections. -/
def assembleElement {n : Nat} (P : Problem n) (s : System n) (globalIdx1 : Fin n) :
    Except Error (System n) :=
  let eIt := P.element globalIdx1
  let globalPos1 := eIt.center
  let volume1 := eIt.volume
  let source := P.source globalPos1 globalIdx1
  let s := s.setF globalIdx1 (volume1 * (source.wPhase + source.nPhase))
  let K1 := P.intrinsicPermeability globalPos1 globalIdx1
  if K1 0 0 = 0 ∧ K1 0 1 = 0 ∧ K1 1 0 = 0 ∧ K1 1 1 = 0 then
    pure (s.addM globalIdx1 globalIdx1 1)
  else
    (List.range eIt.intersections.length).foldlM (assembleFace P globalIdx1) s

/-- The next-face switch of the loop of `assemble` that counts the nonzero entries. -/
def assemble_count_nextisIt (gridImplementation : GridImplementation) (isItEnd isIt : Nat) :
    Except Error Nat :=
  let isItBegin := 0
  let tempisIt := isIt + 1
  let tempisItBegin := isItBegin + 1
  let nextisIt := tempisIt
  match gridImplementation with
  | .sGrid =>
    if nextisIt = isItEnd then pure isItBegin
    else
      let tempisIt := tempisIt + 1
      let nextisIt := tempisIt
      if nextisIt = isItEnd then pure tempisItBegin else pure nextisIt
  | .yaspGrid =>
    if nextisIt = isItEnd then pure isItBegin
    else
      let tempisIt := tempisIt + 1
      let nextisIt := tempisIt
      if nextisIt = isItEnd then pure tempisItBegin else pure nextisIt
  | .ugGrid =>
    if nextisIt = isItEnd then pure isItBegin else pure nextisIt
  | .other _ => throw Error.notImplemented

/-- The count of one intersection in the last loop of `assemble`: the entry of the face
neighbour and the entries of the common neighbours of cell 2 and cell 3. -/
def countFace {n : Nat} (P : Problem n) (M_ : Matrix (Fin n) (Fin n) ℚ) (globalIdxI : Fin n)
    (num_nonzero : ℚ) (isIt : Nat) : Except Error ℚ := do
  let eIt := P.element globalIdxI
  let nextisIt ← assemble_count_nextisIt P.gridImplementation eIt.intersections.length isIt
  let isIt ← deref eIt.intersections isIt
  let num_nonzero :=
    match isIt.outside with
    | some globalIdxJ => if M_ globalIdxI globalIdxJ ≠ 0 then num_nonzero + 1 else num_nonzero
    | none => num_nonzero
  match isIt.outside with
  | none => pure num_nonzero
  | some outside =>
    let nextisIt ← deref eIt.intersections nextisIt
    match nextisIt.outside with
    | none => pure num_nonzero
    | some nextisItoutside =>
      pure ((P.element outside).intersections.foldl
        (fun num innerisIt =>
          (P.element nextisItoutside).intersections.foldl
            (fun num innernextisIt =>
              match innerisIt.outside, innernextisIt.outside with
              | some innerisItoutside, some innernextisItoutside =>
                if innerisItoutside = innernextisItoutside ∧ innerisItoutside ≠ globalIdxI then
                  if M_ globalIdxI innerisItoutside ≠ 0 then num + 1 else num
                else num
              | _, _ => num)
            num)
        num_nonzero)

/-- The last loop of `assemble`: `num_nonzero`, the number written to the diagnostic
stream. -/
def countNonzero {n : Nat} (P : Problem n) (M_ : Matrix (Fin n) (Fin n) ℚ) : Except Error ℚ :=
  (List.finRange n).foldlM
    (fun num_nonzero globalIdxI =>
      let num_nonzero := if M_ globalIdxI globalIdxI ≠ 0 then num_nonzero + 1 else num_nonzero
      (List.range (P.element globalIdxI).intersections.length).foldlM
        (countFace P M_ globalIdxI) num_nonzero)
    0

/-- The method `assemble`: `M_ = 0`, the element loop in the order of the global cell
index, then the count of the nonzero entries (whose result only goes to the diagnostic
stream).  The argument `s` is the content of `M_` and `f_` before the call. -/
def assemble {n : Nat} (P : Problem n) (s : System n) : Except Error (System n) := do
  let s ← (List.finRange n).foldlM (assembleElement P) { s with M_ := 0 }
  let _ ← countNonzero P s.M_
  pure s

/-! ## The upwind selection of `updateMaterialLaws` -/

/-- The first chain of comparisons in the neighbour branch of the selection of `satUpw1`:
`if (minPot == potentialDiag1) ... else if (minPot == potential11) ... else if
(minPot == potential21) ...`; `satUpw1` is the value before the chain. -/
def satUpw1Chain (minPot potential11 potential21 potentialDiag1 : ℚ)
    (saturation2 saturation3 saturation4 satUpw1 : ℚ) : ℚ :=
  if minPot = potentialDiag1 then saturation4
  else if minPot = potential11 then saturation3
  else if minPot = potential21 then saturation2
  else satUpw1

/-- The second chain of comparisons in the neighbour branch of the selection of `satUpw1`,
which overrides the result of the first chain when two potentials are equal. -/
def satUpw1Ties (minPot potential11 potential21 potentialDiag1 : ℚ)
    (saturation2 saturation3 saturation4 satUpw1 : ℚ) : ℚ :=
  if minPot = potentialDiag1 ∧ potentialDiag1 = potential11
      ∧ potentialDiag1 ≠ potential21 then saturation3
  else if minPot = potentialDiag1 ∧ potentialDiag1 = potential21
      ∧ potentialDiag1 ≠ potential11 then saturation2
  else if minPot = potential21 ∧ potential21 = potential11 then saturation4
  else satUpw1

/-- The selection of `satUpw1` in the four-cell case of `updateMaterialLaws`, from the three
potentials.  The arguments `saturation1` ... `saturation4` are
`problem_.variables().saturation()` at `globalIdx`, `globalIdx2`, `globalIdx3` and
`globalIdx4`. -/
def satUpw1FromPotentials (potential11 potential21 potentialDiag1 : ℚ)
    (saturation1 saturation2 saturation3 saturation4 : ℚ) : ℚ :=
  let satUpw1 : ℚ := 0
  let maxPot := max (max potential11 potential21) potentialDiag1
  let minPot := min (min potential11 potential21) potentialDiag1
  if |maxPot| ≥ |minPot| then saturation1
  else
    let satUpw1 := satUpw1Chain minPot potential11 potential21 potentialDiag1
      saturation2 saturation3 saturation4 satUpw1
    let satUpw1 := satUpw1Ties minPot potential11 potential21 potentialDiag1
      saturation2 saturation3 saturation4 satUpw1
    satUpw1

/-- The three potentials of cell 1 and the selection of `satUpw1`:
`potential11 = velocityInteractionVol * unitOuterNormal11`,
`potential21 = velocityInteractionVol * unitOuterNormal21` and
`potentialDiag1 = velocityInteractionVol * (unitOuterNormal11 + unitOuterNormal21)`. -/
def satUpw1 (velocityInteractionVol unitOuterNormal11 unitOuterNormal21 : FieldVector)
    (saturation1 saturation2 saturation3 saturation4 : ℚ) : ℚ :=
  let potential11 := Matrix.dotProduct velocityInteractionVol unitOuterNormal11
  let potential21 := Matrix.dotProduct velocityInteractionVol unitOuterNormal21
  let potentialDiag1 :=
    Matrix.dotProduct velocityInteractionVol (unitOuterNormal11 + unitOuterNormal21)
  satUpw1FromPotentials potential11 potential21 potentialDiag1
    saturation1 saturation2 saturation3 saturation4

/-! ## The linear solve driver -/

/-- The preconditioners `solve` can construct. -/
inductive Preconditioner where
  | seqILU0
  | seqPardiso
deriving DecidableEq, Repr

/-- The Krylov / loop solvers `solve` can construct. -/
inductive Solver where
  | cg
  | biCGSTAB
  | loop
deriving DecidableEq, Repr

/-- The dispatch of `solve` on `(preconditionerName_, solverName_)`: which preconditioner
and solver are constructed and applied, or `Dune::NotImplemented`.  The linear solve itself
belongs to the linear-algebra back end and is not part of the embedding. -/
def solve (preconditionerName_ solverName_ : String) : Except Error (Preconditioner × Solver) :=
  if preconditionerName_ = "SeqILU0" then
    if solverName_ = "CG" then pure (Preconditioner.seqILU0, Solver.cg)
    else if solverName_ = "BiCGSTAB" then pure (Preconditioner.seqILU0, Solver.biCGSTAB)
    else throw Error.notImplemented
  else if preconditionerName_ = "SeqPardiso" then
    if solverName_ = "Loop" then pure (Preconditioner.seqPardiso, Solver.loop)
    else if solverName_ = "BiCGSTAB" then pure (Preconditioner.seqPardiso, Solver.biCGSTAB)
    else throw Error.notImplemented
  else throw Error.notImplemented

/-- The names the one-argument constructor stores: `solverName_("BiCGSTAB")` and
`preconditionerName_("SeqILU0")`. -/
def defaultSolverName : String := "BiCGSTAB"

/-- See `defaultSolverName`. -/
def defaultPreconditionerName : String := "SeqILU0"

end Dumux
namespace Dumux

/-! ## The remaining copies of the next-face rule -/

/-- The next-face switch of the second loop of `initializeMatrix`, which registers the
column indices (the switch of its first loop, which determines the row sizes, is
`initializeMatrix_nextisIt`). -/
def initializeMatrix_addindex_nextisIt (gridImplementation : GridImplementation)
    (isItEnd isIt : Nat) : Except Error Nat :=
  let isItBegin := 0
  let tempisIt := isIt + 1
  let tempisItBegin := isItBegin + 1
  let nextisIt := tempisIt
  match gridImplementation with
  | .sGrid =>
    if nextisIt = isItEnd then pure isItBegin
    else
      let tempisIt := tempisIt + 1
      let nextisIt := tempisIt
      if nextisIt = isItEnd then pure tempisItBegin else pure nextisIt
  | .yaspGrid =>
    if nextisIt = isItEnd then pure isItBegin
    else
      let tempisIt := tempisIt + 1
      let nextisIt := tempisIt
      if nextisIt = isItEnd then pure tempisItBegin else pure nextisIt
  | .ugGrid =>
    if nextisIt = isItEnd then pure isItBegin else pure nextisIt
  | .other _ => throw Error.notImplemented

/-- The next-face switch of `updateMaterialLaws` (there the iterators are called
`tempIsIt`, `tempIsItBegin` and `nextIsIt`). -/
def updateMaterialLaws_nextIsIt (gridImplementation : GridImplementation)
    (isItEnd isIt : Nat) : Except Error Nat :=
  let isItBegin := 0
  let tempIsIt := isIt + 1
  let tempIsItBegin := isItBegin + 1
  let nextIsIt := tempIsIt
  match gridImplementation with
  | .sGrid =>
    if nextIsIt = isItEnd then pure isItBegin
    else
      let tempIsIt := tempIsIt + 1
      let nextIsIt := tempIsIt
      if nextIsIt = isItEnd then pure tempIsItBegin else pure nextIsIt
  | .yaspGrid =>
    if nextIsIt = isItEnd then pure isItBegin
    else
      let tempIsIt := tempIsIt + 1
      let nextIsIt := tempIsIt
      if nextIsIt = isItEnd then pure tempIsItBegin else pure nextIsIt
  | .ugGrid =>
    if nextIsIt = isItEnd then pure isItBegin else pure nextIsIt
  | .other _ => throw Error.notImplemented

end Dumux
namespace Dumux

/-! ## The sparsity pattern: `initializeMatrix`

The calls into the matrix library are the result of the embedding: the row size passed to
`M_.setrowsize(globalIdxI, rowSize)` and, for every row, the list of the column indices
passed to `M_.addindex(globalIdxI, ·)` in the order of the calls. -/

/-- The space dimension `dim` of the two-dimensional solver. -/
def dim : Nat := 2

/-- The number of nonzero entries the constructor reserves for `M_`:
`(4 * dim + (dim - 1)) * gridSize`. -/
def constructorNnz (gridSize : Nat) : Nat := (4 * dim + (dim - 1)) * gridSize

/-- One pass of the intersection loop of the first element loop of `initializeMatrix`:
`rowSize` grows by one for an interior `isIt` and by one more when `nextisIt` is interior
as well. -/
def initializeMatrix_rowSizeFace {n : Nat} (P : Problem n) (globalIdxI : Fin n) (rowSize : Nat)
    (isIt : Nat) : Except Error Nat := do
  let eIt := P.element globalIdxI
  let nextisIt ← initializeMatrix_nextisIt P.gridImplementation eIt.intersections.length isIt
  let isIt ← deref eIt.intersections isIt
  let rowSize := if isIt.neighbor then rowSize + 1 else rowSize
  if isIt.neighbor then
    let nextisIt ← deref eIt.intersections nextisIt
    if nextisIt.neighbor then pure (rowSize + 1) else pure rowSize
  else pure rowSize

/-- The row size that the first element loop of `initializeMatrix` computes for the cell
`globalIdxI` and passes to `setrowsize`. -/
def initializeMatrix_rowSize {n : Nat} (P : Problem n) (globalIdxI : Fin n) : Except Error Nat :=
  (List.range (P.element globalIdxI).intersections.length).foldlM
    (initializeMatrix_rowSizeFace P globalIdxI) 1

/-- The double loop over the intersections of the two neighbours `outside` and
`nextisItoutside`: every pair of interior intersections that lead to the same cell other
than `globalIdxI` registers that cell; `cols` are the columns registered so far. -/
def initializeMatrix_commonNeighbours {n : Nat} (P : Problem n)
    (globalIdxI outside nextisItoutside : Fin n) (cols : List (Fin n)) : List (Fin n) :=
  (P.element outside).intersections.foldl
    (fun cols innerisIt =>
      (P.element nextisItoutside).intersections.foldl
        (fun cols innernextisIt =>
          match innerisIt.outside, innernextisIt.outside with
          | some innerisItoutside, some innernextisItoutside =>
            if innerisItoutside = innernextisItoutside ∧ innerisItoutside ≠ globalIdxI then
              cols ++ [innerisItoutside]
            else cols
          | _, _ => cols)
        cols)
    cols

/-- One pass of the intersection loop of the second element loop of `initializeMatrix`:
the neighbour across an interior `isIt` is registered, and when `nextisIt` is interior as
well the common neighbours of the two neighbours. -/
def initializeMatrix_addindexFace {n : Nat} (P : Problem n) (globalIdxI : Fin n)
    (cols : List (Fin n)) (isIt : Nat) : Except Error (List (Fin n)) := do
  let eIt := P.element globalIdxI
  let nextisIt ←
    initializeMatrix_addindex_nextisIt P.gridImplementation eIt.intersections.length isIt
  let isIt ← deref eIt.intersections isIt
  let cols :=
    match isIt.outside with
    | some globalIdxJ => cols ++ [globalIdxJ]
    | none => cols
  match isIt.outside with
  | none => pure cols
  | some outside =>
    let nextisIt ← deref eIt.intersections nextisIt
    match nextisIt.outside with
    | none => pure cols
    | some nextisItoutside =>
      pure (initializeMatrix_commonNeighbours P globalIdxI outside nextisItoutside cols)

/-- The column indices that the second element loop of `initializeMatrix` registers in the
row of the cell `globalIdxI`, in the order of the calls of `addindex`; the first one is the
diagonal index. -/
def initializeMatrix_addindex {n : Nat} (P : Problem n) (globalIdxI : Fin n) :
    Except Error (List (Fin n)) :=
  (List.range (P.element globalIdxI).intersections.length).foldlM
    (initializeMatrix_addindexFace P globalIdxI) [globalIdxI]

/-- The method `initializeMatrix`: the row sizes of all cells, then the registered column
indices of all cells, both in the order of the global cell index. -/
def initializeMatrix {n : Nat} (P : Problem n) :
    Except Error (List Nat × List (List (Fin n))) := do
  let rowSizes ← (List.finRange n).mapM (initializeMatrix_rowSize P)
  let indices ← (List.finRange n).mapM (initializeMatrix_addindex P)
  pure (rowSizes, indices)

/-! ## Quantities used in the statements about `initializeMatrix` -/

/-- The faces `isIt` and `nextisIt` of the pass of the intersection loop of cell `i` at
position `p`, when the next-face rule returns and both positions are valid. -/
def facePair {n : Nat} (P : Problem n) (i : Fin n) (p : Nat) :
    Option (Intersection n × Intersection n) :=
  match initializeMatrix_nextisIt P.gridImplementation (P.element i).intersections.length p with
  | Except.ok q =>
    match (P.element i).intersections[p]?, (P.element i).intersections[q]? with
    | some isIt, some nextisIt => some (isIt, nextisIt)
    | _, _ => none
  | Except.error _ => none

/-- The face at position `p` of cell `i` is interior. -/
def interiorFaceAt {n : Nat} (P : Problem n) (i : Fin n) (p : Nat) : Bool :=
  ((P.element i).intersections[p]?).elim false (fun isIt => isIt.neighbor)

/-- The face at position `p` of cell `i` and its next face are both interior. -/
def interiorPairAt {n : Nat} (P : Problem n) (i : Fin n) (p : Nat) : Bool :=
  match facePair P i p with
  | some (isIt, nextisIt) => isIt.neighbor && nextisIt.neighbor
  | none => false

/-- The number of interior faces of cell `i`. -/
def interiorFaces {n : Nat} (P : Problem n) (i : Fin n) : Nat :=
  (P.element i).intersections.countP (fun isIt => isIt.neighbor)

/-- The number of faces `f` of cell `i` such that `f` and its next face are both
interior. -/
def interiorPairs {n : Nat} (P : Problem n) (i : Fin n) : Nat :=
  (List.range (P.element i).intersections.length).countP (interiorPairAt P i)

/-- The cell `c` is a common neighbour, other than `i`, of the neighbours across a face of
cell `i` and across its next face. -/
def IsDiagonalNeighbour {n : Nat} (P : Problem n) (i c : Fin n) : Prop :=
  ∃ p isIt nextisIt j k, p < (P.element i).intersections.length
    ∧ facePair P i p = some (isIt, nextisIt)
    ∧ isIt.outside = some j ∧ nextisIt.outside = some k ∧ c ≠ i
    ∧ (∃ f ∈ (P.element j).intersections, f.outside = some c)
    ∧ (∃ f ∈ (P.element k).intersections, f.outside = some c)

/-- Every pair of interior faces (`isIt`, `nextisIt`) of cell `i` has exactly one common
fourth cell: the double loop over the intersections of the two neighbours registers exactly
one column. -/
def UniqueFourthCell {n : Nat} (P : Problem n) (i : Fin n) : Prop :=
  ∀ p isIt nextisIt j k, p < (P.element i).intersections.length →
    facePair P i p = some (isIt, nextisIt) →
    isIt.outside = some j → nextisIt.outside = some k →
    (initializeMatrix_commonNeighbours P i j k []).length = 1

/-- The columns that the pass of the column-index loop of cell `i` at position `p`
registers: the neighbour across an interior `isIt` and, when `nextisIt` is interior as well,
the common neighbours found by the double loop. -/
def faceCols {n : Nat} (P : Problem n) (i : Fin n) (p : Nat) : List (Fin n) :=
  match facePair P i p with
  | some (isIt, nextisIt) =>
    match isIt.outside with
    | some j =>
      j :: (match nextisIt.outside with
        | some k => initializeMatrix_commonNeighbours P i j k []
        | none => [])
    | none => []
  | none => []

/-- The columns registered in the row of cell `i`, in the order of the calls of `addindex`:
the diagonal index, then the columns of the passes of the intersection loop. -/
def registeredColumns {n : Nat} (P : Problem n) (i : Fin n) : List (Fin n) :=
  i :: (List.range (P.element i).intersections.length).flatMap (faceCols P i)

end Dumux
namespace Dumux

/-! ## The material-law update `updateMaterialLaws`: data model -/

/-- Modelled from the spec: the property `SaturationFormulation` and the constants `Sw`,
`Sn` of the index class are declared outside the sources.  The primary saturation variable
is the wetting (`Sw`) or the non-wetting (`Sn`) saturation; the `switch` over it has no
default case, so every other value is collected in `other`. -/
inductive SaturationType where
  | Sw
  | Sn
  | other (tag : Nat)
deriving DecidableEq, Repr

/-- Modelled from the spec: the property `VelocityFormulation` and the constants `vw`,
`vn`, `vt` of the index class are declared outside the sources.  The velocity type selects
among wetting, non-wetting and total velocity; the `switch` over it has no default case, so
every other value is collected in `other`. -/
inductive VelocityType where
  | vw
  | vn
  | vt
  | other (tag : Nat)
deriving DecidableEq, Repr

/-- The collaborators of `updateMaterialLaws` that it only reads: grid view, problem,
spatial parameters with the material law, and the fluid system.  `pC`, `krw` and `krn`
take the arguments of `materialLawParams` (a position and a cell) and the saturation;
the fluid-system functions take temperature, reference pressure and the wetting saturation
from which `fluidState.update` builds the fluid state. -/
structure UpwindProblem (n : Nat) where
  gridImplementation : GridImplementation
  saturationType : SaturationType
  velocityType_ : VelocityType
  element : Fin n → Element n
  temperature : GlobalPosition → Fin n → ℚ
  referencePressure : GlobalPosition → Fin n → ℚ
  pC : GlobalPosition → Fin n → ℚ → ℚ
  krw : GlobalPosition → Fin n → ℚ → ℚ
  krn : GlobalPosition → Fin n → ℚ → ℚ
  phaseDensityW : ℚ → ℚ → ℚ → ℚ
  phaseDensityNW : ℚ → ℚ → ℚ → ℚ
  phaseViscosityW : ℚ → ℚ → ℚ → ℚ
  phaseViscosityNW : ℚ → ℚ → ℚ → ℚ
  bctypeSat : GlobalPosition → Intersection n → BoundaryConditions
  dirichletSat : GlobalPosition → Intersection n → ℚ

/-- The variables store `problem_.variables()` as far as `updateMaterialLaws` reads or
writes it.  Face-indexed fields take the cell and the local face index; the upwind
mobility tables take the cell, the local face index and the slot. -/
structure Variables (n : Nat) where
  saturation : Fin n → ℚ
  velocity : Fin n → Nat → FieldVector
  velocitySecondPhase : Fin n → Nat → FieldVector
  potentialWetting : Fin n → Nat → ℚ
  capillaryPressure : Fin n → ℚ
  mobilityWetting : Fin n → ℚ
  mobilityNonwetting : Fin n → ℚ
  upwindMobilitiesWetting : Fin n → Nat → Nat → ℚ
  upwindMobilitiesNonwetting : Fin n → Nat → Nat → ℚ
  densityWetting : Fin n → ℚ
  densityNonwetting : Fin n → ℚ
  viscosityWetting : Fin n → ℚ
  viscosityNonwetting : Fin n → ℚ
  fracFlowFuncWetting : Fin n → ℚ
  fracFlowFuncNonwetting : Fin n → ℚ

/-- The assignment `upwindMobilitiesWetting(globalIdx, i, j) = value`. -/
def Variables.setUpwindMobilitiesWetting {n : Nat} (v : Variables n) (globalIdx : Fin n)
    (i j : Nat) (value : ℚ) : Variables n :=
  { v with upwindMobilitiesWetting := fun a b c =>
      if a = globalIdx ∧ b = i ∧ c = j then value else v.upwindMobilitiesWetting a b c }

/-- The assignment `upwindMobilitiesNonwetting(globalIdx, i, j) = value`. -/
def Variables.setUpwindMobilitiesNonwetting {n : Nat} (v : Variables n) (globalIdx : Fin n)
    (i j : Nat) (value : ℚ) : Variables n :=
  { v with upwindMobilitiesNonwetting := fun a b c =>
      if a = globalIdx ∧ b = i ∧ c = j then value else v.upwindMobilitiesNonwetting a b c }

/-- The assignment of one cell entry of a cell-indexed field of the variables store. -/
def setCell {n : Nat} (field : Fin n → ℚ) (globalIdx : Fin n) (value : ℚ) : Fin n → ℚ :=
  fun a => if a = globalIdx then value else field a

/-- The pair of slot writes that ends every upwind branch:
`upwindMobilitiesWetting(globalIdx, indexInInside, slot) = krw(materialLawParams(globalPosK,
cellK), satUpw) / viscosityW` and the same for the non-wetting phase with `krn` and
`viscosityNW`. -/
def writeUpwindMobilities {n : Nat} (P : UpwindProblem n) (v : Variables n) (globalIdx : Fin n)
    (indexInInside slot : Nat) (globalPosK : GlobalPosition) (cellK : Fin n)
    (satUpw viscosityW viscosityNW : ℚ) : Variables n :=
  let v := v.setUpwindMobilitiesWetting globalIdx indexInInside slot
    (P.krw globalPosK cellK satUpw / viscosityW)
  v.setUpwindMobilitiesNonwetting globalIdx indexInInside slot
    (P.krn globalPosK cellK satUpw / viscosityNW)

/-- The locals of one pass of the element loop of `updateMaterialLaws` that its
intersection loop reads. -/
structure CellLaws where
  globalPos : GlobalPosition
  viscosityW : ℚ
  viscosityNW : ℚ
  mobilityW : ℚ
  mobilityNW : ℚ

/-! ## The material-law update: velocities, potentials and selections -/

/-- The `switch (velocityType_)` that reads one face velocity: for `vw` and for `vn` the sum
`velocity()[globalIdx][index] + velocitySecondPhase()[globalIdx][index]`, for `vt` the
entry `velocity()[globalIdx][index]`; otherwise the vector keeps its initial value zero. -/
def faceVelocity {n : Nat} (velocityType_ : VelocityType) (v : Variables n) (globalIdx : Fin n)
    (index : Nat) : FieldVector :=
  match velocityType_ with
  | .vw => v.velocity globalIdx index + v.velocitySecondPhase globalIdx index
  | .vn => v.velocity globalIdx index + v.velocitySecondPhase globalIdx index
  | .vt => v.velocity globalIdx index
  | .other _ => 0

/-- The reconstruction of `velocityInteractionVol` in the four-cell case. -/
def velocityInteractionVol_fourCell (unitOuterNormal21 : FieldVector)
    (faceArea11 faceArea21 faceArea14 faceArea24 : ℚ)
    (velocity12 velocity13 velocity42 velocity43 : FieldVector) : FieldVector :=
  let velocityInteractionVol : FieldVector := 0
  if unitOuterNormal21 0 ≠ 0 then
    let x := velocityInteractionVol 0 + (faceArea21 * velocity12 0 + faceArea24 * velocity43 0)
    let y := velocityInteractionVol 1 + (faceArea11 * velocity13 1 + faceArea14 * velocity42 1)
    ![x / (faceArea21 + faceArea24), y / (faceArea11 + faceArea14)]
  else
    let x := velocityInteractionVol 0 + (faceArea11 * velocity13 0 + faceArea14 * velocity42 0)
    let y := velocityInteractionVol 1 + (faceArea21 * velocity12 1 + faceArea24 * velocity43 1)
    ![x / (faceArea11 + faceArea14), y / (faceArea21 + faceArea24)]

/-- The reconstruction of `velocityInteractionVol` when `isIt` is interior and `nextIsIt`
is on the boundary (the same text in each of the three branches that compute it). -/
def velocityInteractionVol_interiorBoundary (unitOuterNormal21 : FieldVector)
    (faceArea11 faceArea21 faceArea12 : ℚ)
    (velocity12 velocity13 velocity24 : FieldVector) : FieldVector :=
  let velocityInteractionVol : FieldVector := 0
  if unitOuterNormal21 0 ≠ 0 then
    let x := velocityInteractionVol 0 + faceArea21 * velocity12 0
    let y := velocityInteractionVol 1 + (faceArea11 * velocity13 1 + faceArea12 * velocity24 1)
    ![x / faceArea21, y / (faceArea11 + faceArea12)]
  else
    let x := velocityInteractionVol 0 + (faceArea11 * velocity13 0 + faceArea12 * velocity24 0)
    let y := velocityInteractionVol 1 + faceArea21 * velocity12 1
    ![x / (faceArea11 + faceArea12), y / faceArea21]

/-- The reconstruction of `velocityInteractionVol` when `isIt` is on the boundary and
`nextIsIt` is interior (the same text in each of the three branches that compute it). -/
def velocityInteractionVol_boundaryInterior (unitOuterNormal21 : FieldVector)
    (faceArea11 faceArea21 faceArea23 : ℚ)
    (velocity12 velocity13 velocity34 : FieldVector) : FieldVector :=
  let velocityInteractionVol : FieldVector := 0
  if unitOuterNormal21 0 ≠ 0 then
    let x := velocityInteractionVol 0 + (faceArea21 * velocity12 0 + faceArea23 * velocity34 0)
    let y := velocityInteractionVol 1 + faceArea11 * velocity13 1
    ![x / (faceArea21 + faceArea23), y / faceArea11]
  else
    let x := velocityInteractionVol 0 + faceArea11 * velocity13 0
    let y := velocityInteractionVol 1 + (faceArea21 * velocity12 1 + faceArea23 * velocity34 0)
    ![x / faceArea11, y / (faceArea21 + faceArea23)]

/-- The first chain of comparisons in the neighbour branch of the selections of `satUpw2`,
`satUpw3` and `satUpw4`, which test the two face potentials before the diagonal one:
`if (minPot == potential12) ... else if (minPot == potential22) ... else if
(minPot == potentialDiag2) ...`; `satUpw2` is the value before the chain. -/
def satUpw2Chain (minPot potential12 potential22 potentialDiag2 : ℚ)
    (saturation12 saturation22 saturationDiag2 satUpw2 : ℚ) : ℚ :=
  if minPot = potential12 then saturation12
  else if minPot = potential22 then saturation22
  else if minPot = potentialDiag2 then saturationDiag2
  else satUpw2

/-- The second chain of comparisons in the neighbour branch of the selections of `satUpw2`,
`satUpw3` and `satUpw4`. -/
def satUpw2Ties (minPot potential12 potential22 potentialDiag2 : ℚ)
    (saturation12 saturation22 saturationDiag2 satUpw2 : ℚ) : ℚ :=
  if minPot = potentialDiag2 ∧ potentialDiag2 = potential12
      ∧ potentialDiag2 ≠ potential22 then saturation12
  else if minPot = potentialDiag2 ∧ potentialDiag2 = potential22
      ∧ potentialDiag2 ≠ potential12 then saturation22
  else if minPot = potential22 ∧ potential22 = potential12 then saturationDiag2
  else satUpw2

/-- The selection of the upwind saturation of a neighbour cell (`satUpw2`, `satUpw3`,
`satUpw4`) from its three potentials.  `saturationOwn` is the value assigned when
`|maxPot| >= |minPot|`; `saturation12`, `saturation22` and `saturationDiag2` are the values
assigned where the source compares `minPot` with the first face potential, the second
face potential and the diagonal potential. -/
def satUpw2FromPotentials (potential12 potential22 potentialDiag2 : ℚ)
    (saturationOwn saturation12 saturation22 saturationDiag2 : ℚ) : ℚ :=
  let satUpw2 : ℚ := 0
  let maxPot := max (max potential12 potential22) potentialDiag2
  let minPot := min (min potential12 potential22) potentialDiag2
  if |maxPot| ≥ |minPot| then saturationOwn
  else
    let satUpw2 := satUpw2Chain minPot potential12 potential22 potentialDiag2
      saturation12 saturation22 saturationDiag2 satUpw2
    let satUpw2 := satUpw2Ties minPot potential12 potential22 potentialDiag2
      saturation12 saturation22 saturationDiag2 satUpw2
    satUpw2

/-- The three potentials of a neighbour cell and the selection of its upwind saturation:
`potential12 = velocityInteractionVol * unitOuterNormal12`,
`potential22 = velocityInteractionVol * unitOuterNormal22` and
`potentialDiag2 = velocityInteractionVol * (unitOuterNormal12 + unitOuterNormal22)`. -/
def satUpw2 (velocityInteractionVol unitOuterNormal12 unitOuterNormal22 : FieldVector)
    (saturationOwn saturation12 saturation22 saturationDiag2 : ℚ) : ℚ :=
  let potential12 := Matrix.dotProduct velocityInteractionVol unitOuterNormal12
  let potential22 := Matrix.dotProduct velocityInteractionVol unitOuterNormal22
  let potentialDiag2 :=
    Matrix.dotProduct velocityInteractionVol (unitOuterNormal12 + unitOuterNormal22)
  satUpw2FromPotentials potential12 potential22 potentialDiag2
    saturationOwn saturation12 saturation22 saturationDiag2

/-- The chain of comparisons in a corner with two boundary faces:
`if (minPot == potential11) ... else if (minPot == potential21) ... else if
(minPot == potential21 && potential21 == potential11) ...`; `satUpw` is the value before
the chain. -/
def satUpwBoundaryChain (minPot potential11 potential21 : ℚ)
    (saturation11 saturation21 saturationTie satUpw : ℚ) : ℚ :=
  if minPot = potential11 then saturation11
  else if minPot = potential21 then saturation21
  else if minPot = potential21 ∧ potential21 = potential11 then saturationTie
  else satUpw

/-- The selection of `satUpw` in a corner with two boundary faces from the stored wetting
potentials `potential11` (of `nextIsIt`) and `potential21` (of `isIt`).  `saturationOwn`
is the value assigned when `|maxPot| >= |minPot|`, the other three are the values assigned
in the three arms of the chain. -/
def satUpwBoundary (potential11 potential21 : ℚ)
    (saturationOwn saturation11 saturation21 saturationTie : ℚ) : ℚ :=
  let satUpw : ℚ := 0
  let maxPot := max potential11 potential21
  let minPot := min potential11 potential21
  if |maxPot| ≥ |minPot| then saturationOwn
  else satUpwBoundaryChain minPot potential11 potential21
    saturation11 saturation21 saturationTie satUpw

end Dumux
namespace Dumux

/-! ## The material-law update: the branches of the intersection loop -/

/-- The body of the four-cell case for one hit (`isItTwo`, `isItThree`) of the search for
the common neighbour `globalIdx4` of cell 2 and cell 3: the interaction-volume velocity,
the four upwind saturations and the eight slot writes. -/
def updateFourCellHit {n : Nat} (P : UpwindProblem n) (c : CellLaws)
    (globalIdx globalIdx2 globalIdx3 globalIdx4 : Fin n)
    (isIt nextIsIt isItTwo isItThree : Intersection n) (v : Variables n) : Variables n :=
  let indexInInside := isIt.indexInInside
  let nextIndexInInside := nextIsIt.indexInInside
  let globalPos2 := (P.element globalIdx2).center
  let globalPos3 := (P.element globalIdx3).center
  let indexIn42 := isItTwo.indexInOutside
  let indexIn43 := isItThree.indexInOutside
  let globalPos4 := (P.element globalIdx4).center
  let faceArea11 := (1/2 : ℚ) * nextIsIt.volume
  let faceArea21 := (1/2 : ℚ) * isIt.volume
  let faceArea14 := (1/2 : ℚ) * isItTwo.volume
  let faceArea24 := (1/2 : ℚ) * isItThree.volume
  let unitOuterNormal11 := nextIsIt.centerUnitOuterNormal
  let unitOuterNormal21 := isIt.centerUnitOuterNormal
  let unitOuterNormal12 := isItTwo.centerUnitOuterNormal
  let unitOuterNormal22 := (-1 : ℚ) • isIt.centerUnitOuterNormal
  let unitOuterNormal13 := (-1 : ℚ) • nextIsIt.centerUnitOuterNormal
  let unitOuterNormal23 := isItThree.centerUnitOuterNormal
  let unitOuterNormal14 := (-1 : ℚ) • isItTwo.centerUnitOuterNormal
  let unitOuterNormal24 := (-1 : ℚ) • isItThree.centerUnitOuterNormal
  let velocity12 := faceVelocity P.velocityType_ v globalIdx indexInInside
  let velocity13 := faceVelocity P.velocityType_ v globalIdx nextIndexInInside
  let velocity42 := faceVelocity P.velocityType_ v globalIdx4 indexIn42
  let velocity43 := faceVelocity P.velocityType_ v globalIdx4 indexIn43
  let velocityInteractionVol := velocityInteractionVol_fourCell unitOuterNormal21
    faceArea11 faceArea21 faceArea14 faceArea24 velocity12 velocity13 velocity42 velocity43
  let satUpw1 := satUpw1 velocityInteractionVol unitOuterNormal11 unitOuterNormal21
    (v.saturation globalIdx) (v.saturation globalIdx2) (v.saturation globalIdx3)
    (v.saturation globalIdx4)
  let satUpw2 := satUpw2 velocityInteractionVol unitOuterNormal12 unitOuterNormal22
    (v.saturation globalIdx2) (v.saturation globalIdx4) (v.saturation globalIdx)
    (v.saturation globalIdx3)
  let satUpw3 := Dumux.satUpw2 velocityInteractionVol unitOuterNormal13 unitOuterNormal23
    (v.saturation globalIdx3) (v.saturation globalIdx) (v.saturation globalIdx4)
    (v.saturation globalIdx2)
  let satUpw4 := Dumux.satUpw2 velocityInteractionVol unitOuterNormal14 unitOuterNormal24
    (v.saturation globalIdx4) (v.saturation globalIdx2) (v.saturation globalIdx3)
    (v.saturation globalIdx)
  let v := writeUpwindMobilities P v globalIdx indexInInside 0 c.globalPos globalIdx
    satUpw1 c.viscosityW c.viscosityNW
  let v := writeUpwindMobilities P v globalIdx indexInInside 1 globalPos2 globalIdx2
    satUpw2 c.viscosityW c.viscosityNW
  let v := writeUpwindMobilities P v globalIdx indexInInside 2 globalPos3 globalIdx3
    satUpw3 c.viscosityW c.viscosityNW
  writeUpwindMobilities P v globalIdx indexInInside 3 globalPos4 globalIdx4
    satUpw4 c.viscosityW c.viscosityNW

/-- The four-cell case (`isIt` and `nextIsIt` interior): the double loop over the
intersections of cell 2 and cell 3; every pair that leads to a common neighbour other than
cell 1 runs the body. -/
def updateFourCell {n : Nat} (P : UpwindProblem n) (c : CellLaws)
    (globalIdx globalIdx2 globalIdx3 : Fin n) (isIt nextIsIt : Intersection n)
    (v : Variables n) : Variables n :=
  (P.element globalIdx2).intersections.foldl
    (fun v isItTwo =>
      (P.element globalIdx3).intersections.foldl
        (fun v isItThree =>
          match isItTwo.outside, isItThree.outside with
          | some cellTwoNeighbor, some cellThreeNeighbor =>
            if cellTwoNeighbor = cellThreeNeighbor ∧ cellTwoNeighbor ≠ globalIdx then
              updateFourCellHit P c globalIdx globalIdx2 globalIdx3 cellTwoNeighbor
                isIt nextIsIt isItTwo isItThree v
            else v
          | _, _ => v)
        v)
    v

/-- The common text of the three branches with interior `isIt`, boundary `nextIsIt` and a
saturation selection from the interaction-volume velocity.  The branches differ only in
the values they assign: `sat1Diag`, `sat111`, `sat121` are assigned to `satUpw1` where
`minPot` is compared with `potentialDiag1`, `potential11`, `potential21`;
`sat212`, `sat222`, `sat2Diag` are assigned to `satUpw2` where `minPot` is compared with
`potential12`, `potential22`, `potentialDiag2`. -/
def updateInteriorBoundaryBody {n : Nat} (P : UpwindProblem n) (c : CellLaws)
    (globalIdx globalIdx2 : Fin n) (isIt nextIsIt isIt24 : Intersection n)
    (sat1Diag sat111 sat121 sat212 sat222 sat2Diag : ℚ) (v : Variables n) : Variables n :=
  let indexInInside := isIt.indexInInside
  let nextIndexInInside := nextIsIt.indexInInside
  let globalPos2 := (P.element globalIdx2).center
  let indexIn24 := isIt24.indexInInside
  let faceArea11 := (1/2 : ℚ) * nextIsIt.volume
  let faceArea21 := (1/2 : ℚ) * isIt.volume
  let faceArea12 := (1/2 : ℚ) * isIt24.volume
  let unitOuterNormal11 := nextIsIt.centerUnitOuterNormal
  let unitOuterNormal21 := isIt.centerUnitOuterNormal
  let unitOuterNormal12 := isIt24.centerUnitOuterNormal
  let unitOuterNormal22 := (-1 : ℚ) • isIt.centerUnitOuterNormal
  let velocity12 := faceVelocity P.velocityType_ v globalIdx indexInInside
  let velocity13 := faceVelocity P.velocityType_ v globalIdx nextIndexInInside
  let velocity24 := faceVelocity P.velocityType_ v globalIdx2 indexIn24
  let velocityInteractionVol := velocityInteractionVol_interiorBoundary unitOuterNormal21
    faceArea11 faceArea21 faceArea12 velocity12 velocity13 velocity24
  let satUpw1 := satUpw1 velocityInteractionVol unitOuterNormal11 unitOuterNormal21
    (v.saturation globalIdx) sat121 sat111 sat1Diag
  let satUpw2 := satUpw2 velocityInteractionVol unitOuterNormal12 unitOuterNormal22
    (v.saturation globalIdx2) sat212 sat222 sat2Diag
  let v := writeUpwindMobilities P v globalIdx indexInInside 0 c.globalPos globalIdx
    satUpw1 c.viscosityW c.viscosityNW
  writeUpwindMobilities P v globalIdx indexInInside 1 globalPos2 globalIdx2
    satUpw2 c.viscosityW c.viscosityNW

/-- The branch with two Neumann faces next to the corner, where no boundary saturation is
given: the sign of the stored wetting potential `potential` decides between the cell's own
mobilities and those for the saturation of the neighbour `globalIdxK`, whose entry goes to
slot `slot` (1 for cell 2, 2 for cell 3). -/
def updateNeumannNeumann {n : Nat} (P : UpwindProblem n) (c : CellLaws)
    (globalIdx globalIdxK : Fin n) (indexInInside slot : Nat) (potential : ℚ)
    (v : Variables n) : Variables n :=
  let globalPosK := (P.element globalIdxK).center
  if potential ≥ 0 then
    let satUpw := v.saturation globalIdx
    let v := v.setUpwindMobilitiesWetting globalIdx indexInInside 0 c.mobilityW
    let v := v.setUpwindMobilitiesNonwetting globalIdx indexInInside 0 c.mobilityNW
    writeUpwindMobilities P v globalIdx indexInInside slot globalPosK globalIdxK
      satUpw c.viscosityW c.viscosityNW
  else
    let satUpw := v.saturation globalIdxK
    let v := writeUpwindMobilities P v globalIdx indexInInside 0 c.globalPos globalIdx
      satUpw c.viscosityW c.viscosityNW
    writeUpwindMobilities P v globalIdx indexInInside slot globalPosK globalIdxK
      satUpw c.viscosityW c.viscosityNW

/-- The case of an interior `isIt` and a boundary `nextIsIt`: the search for the boundary
face `isIt24` of cell 2 through `corner1234`, then the dispatch on the saturation boundary
types of `nextIsIt` and `isIt24`. -/
def updateInteriorBoundary {n : Nat} (P : UpwindProblem n) (c : CellLaws)
    (globalIdx globalIdx2 : Fin n) (isIt nextIsIt : Intersection n) (corner : GlobalPosition)
    (v : Variables n) : Except Error (Variables n) := do
  let isIt24 ← derefOption (findBoundaryFace (P.element globalIdx2).intersections corner)
  let globalPosFace13 := nextIsIt.center
  let globalPosFace24 := isIt24.center
  let nextIsItBCType := P.bctypeSat globalPosFace13 nextIsIt
  let isIt24BCType := P.bctypeSat globalPosFace24 isIt24
  let sat := v.saturation globalIdx
  let sat2 := v.saturation globalIdx2
  if nextIsItBCType = BoundaryConditions.dirichlet then
    let v :=
      if isIt24BCType = BoundaryConditions.neumann then
        updateInteriorBoundaryBody P c globalIdx globalIdx2 isIt nextIsIt isIt24
          sat2 (P.dirichletSat globalPosFace13 nextIsIt) sat2
          sat2 sat (P.dirichletSat globalPosFace13 nextIsIt) v
      else v
    let v :=
      if isIt24BCType = BoundaryConditions.dirichlet then
        updateInteriorBoundaryBody P c globalIdx globalIdx2 isIt nextIsIt isIt24
          (P.dirichletSat globalPosFace24 isIt24) (P.dirichletSat globalPosFace13 nextIsIt) sat2
          (P.dirichletSat globalPosFace24 isIt24) sat (P.dirichletSat globalPosFace13 nextIsIt) v
      else v
    pure v
  else if nextIsItBCType = BoundaryConditions.neumann then
    let v :=
      if isIt24BCType = BoundaryConditions.dirichlet then
        updateInteriorBoundaryBody P c globalIdx globalIdx2 isIt nextIsIt isIt24
          (P.dirichletSat globalPosFace24 isIt24) sat sat2
          (P.dirichletSat globalPosFace24 isIt24) sat sat v
      else v
    let v :=
      if isIt24BCType = BoundaryConditions.neumann then
        updateNeumannNeumann P c globalIdx globalIdx2 isIt.indexInInside 1
          (v.potentialWetting globalIdx isIt.indexInInside) v
      else v
    pure v
  else pure v

/-- The common text of the three branches with boundary `isIt`, interior `nextIsIt` and a
saturation selection from the interaction-volume velocity.  The branches differ only in
the values they assign: `sat1Diag`, `sat111`, `sat121` are assigned to `satUpw1` where
`minPot` is compared with `potentialDiag1`, `potential11`, `potential21`;
`sat313`, `sat323`, `sat3Diag` are assigned to `satUpw3` where `minPot` is compared with
`potential13`, `potential23`, `potentialDiag3`. -/
def updateBoundaryInteriorBody {n : Nat} (P : UpwindProblem n) (c : CellLaws)
    (globalIdx globalIdx3 : Fin n) (isIt nextIsIt isIt34 : Intersection n)
    (sat1Diag sat111 sat121 sat313 sat323 sat3Diag : ℚ) (v : Variables n) : Variables n :=
  let indexInInside := isIt.indexInInside
  let nextIndexInInside := nextIsIt.indexInInside
  let globalPos3 := (P.element globalIdx3).center
  let indexIn34 := isIt34.indexInInside
  let faceArea11 := (1/2 : ℚ) * nextIsIt.volume
  let faceArea21 := (1/2 : ℚ) * isIt.volume
  let faceArea23 := (1/2 : ℚ) * isIt34.volume
  let unitOuterNormal11 := nextIsIt.centerUnitOuterNormal
  let unitOuterNormal21 := isIt.centerUnitOuterNormal
  let unitOuterNormal13 := (-1 : ℚ) • nextIsIt.centerUnitOuterNormal
  let unitOuterNormal23 := isIt34.centerUnitOuterNormal
  let velocity12 := faceVelocity P.velocityType_ v globalIdx indexInInside
  let velocity13 := faceVelocity P.velocityType_ v globalIdx nextIndexInInside
  let velocity34 := faceVelocity P.velocityType_ v globalIdx3 indexIn34
  let velocityInteractionVol := velocityInteractionVol_boundaryInterior unitOuterNormal21
    faceArea11 faceArea21 faceArea23 velocity12 velocity13 velocity34
  let satUpw1 := satUpw1 velocityInteractionVol unitOuterNormal11 unitOuterNormal21
    (v.saturation globalIdx) sat121 sat111 sat1Diag
  let satUpw3 := Dumux.satUpw2 velocityInteractionVol unitOuterNormal13 unitOuterNormal23
    (v.saturation globalIdx3) sat313 sat323 sat3Diag
  let v := writeUpwindMobilities P v globalIdx indexInInside 0 c.globalPos globalIdx
    satUpw1 c.viscosityW c.viscosityNW
  writeUpwindMobilities P v globalIdx indexInInside 2 globalPos3 globalIdx3
    satUpw3 c.viscosityW c.viscosityNW

/-- The case of a boundary `isIt` and an interior `nextIsIt`: the search for the boundary
face `isIt34` of cell 3 through `corner1234`, then the dispatch on the saturation boundary
types of `isIt` and `isIt34`. -/
def updateBoundaryInterior {n : Nat} (P : UpwindProblem n) (c : CellLaws)
    (globalIdx globalIdx3 : Fin n) (isIt nextIsIt : Intersection n) (corner : GlobalPosition)
    (isItBCType : BoundaryConditions) (v : Variables n) : Except Error (Variables n) := do
  let globalPosFace12 := isIt.center
  let isIt34 ← derefOption (findBoundaryFace (P.element globalIdx3).intersections corner)
  let globalPosFace34 := isIt34.center
  let isIt34BCType := P.bctypeSat globalPosFace34 isIt34
  let sat := v.saturation globalIdx
  let sat3 := v.saturation globalIdx3
  if isItBCType = BoundaryConditions.neumann then
    let v :=
      if isIt34BCType = BoundaryConditions.dirichlet then
        updateBoundaryInteriorBody P c globalIdx globalIdx3 isIt nextIsIt isIt34
          (P.dirichletSat globalPosFace34 isIt34) sat3 sat
          sat (P.dirichletSat globalPosFace34 isIt34) sat v
      else v
    let v :=
      if isIt34BCType = BoundaryConditions.neumann then
        updateNeumannNeumann P c globalIdx globalIdx3 isIt.indexInInside 2
          (v.potentialWetting globalIdx nextIsIt.indexInInside) v
      else v
    pure v
  else if isItBCType = BoundaryConditions.dirichlet then
    let v :=
      if isIt34BCType = BoundaryConditions.neumann then
        updateBoundaryInteriorBody P c globalIdx globalIdx3 isIt nextIsIt isIt34
          sat3 sat3 (P.dirichletSat globalPosFace12 isIt)
          sat sat3 (P.dirichletSat globalPosFace12 isIt) v
      else v
    let v :=
      if isIt34BCType = BoundaryConditions.dirichlet then
        updateBoundaryInteriorBody P c globalIdx globalIdx3 isIt nextIsIt isIt34
          (P.dirichletSat globalPosFace34 isIt34) sat3 (P.dirichletSat globalPosFace12 isIt)
          sat (P.dirichletSat globalPosFace34 isIt34) (P.dirichletSat globalPosFace12 isIt) v
      else v
    pure v
  else pure v

/-- The case of a corner with two boundary faces: the dispatch on the saturation boundary
types of `isIt` and `nextIsIt`.  `potential11` and `potential21` are the stored wetting
potentials of `nextIsIt` and of `isIt`; only slot 0 is written. -/
def updateBoundaryBoundary {n : Nat} (P : UpwindProblem n) (c : CellLaws) (globalIdx : Fin n)
    (isIt nextIsIt : Intersection n) (isItBCType : BoundaryConditions) (v : Variables n) :
    Variables n :=
  let indexInInside := isIt.indexInInside
  let nextIndexInInside := nextIsIt.indexInInside
  let globalPosFace12 := isIt.center
  let globalPosFace13 := nextIsIt.center
  let nextIsItBCType := P.bctypeSat globalPosFace13 nextIsIt
  let potential11 := v.potentialWetting globalIdx nextIndexInInside
  let potential21 := v.potentialWetting globalIdx indexInInside
  let sat := v.saturation globalIdx
  let v :=
    if isItBCType = BoundaryConditions.dirichlet then
      let v :=
        if nextIsItBCType = BoundaryConditions.dirichlet then
          let satUpw := satUpwBoundary potential11 potential21 sat
            (P.dirichletSat globalPosFace13 nextIsIt) (P.dirichletSat globalPosFace12 isIt) sat
          writeUpwindMobilities P v globalIdx indexInInside 0 c.globalPos globalIdx
            satUpw c.viscosityW c.viscosityNW
        else v
      if nextIsItBCType = BoundaryConditions.neumann then
        let satUpw := satUpwBoundary potential11 potential21 sat
          sat (P.dirichletSat globalPosFace12 isIt) (P.dirichletSat globalPosFace12 isIt)
        writeUpwindMobilities P v globalIdx indexInInside 0 c.globalPos globalIdx
          satUpw c.viscosityW c.viscosityNW
      else v
    else v
  if isItBCType = BoundaryConditions.neumann then
    let v :=
      if nextIsItBCType = BoundaryConditions.dirichlet then
        let satUpw := satUpwBoundary potential11 potential21 sat
          (P.dirichletSat globalPosFace13 nextIsIt) sat (P.dirichletSat globalPosFace13 nextIsIt)
        writeUpwindMobilities P v globalIdx indexInInside 0 c.globalPos globalIdx
          satUpw c.viscosityW c.viscosityNW
      else v
    if nextIsItBCType = BoundaryConditions.neumann then
      let v := v.setUpwindMobilitiesWetting globalIdx indexInInside 0 c.mobilityW
      v.setUpwindMobilitiesNonwetting globalIdx indexInInside 0 c.mobilityNW
    else v
  else v

/-- One pass of the intersection loop of `updateMaterialLaws` (the branch `first = false`)
for cell `globalIdx` and the intersection at position `isIt`: the next-face switch, the
corner search and the dispatch on the kind of the two faces. -/
def updateFace {n : Nat} (P : UpwindProblem n) (c : CellLaws) (globalIdx : Fin n)
    (v : Variables n) (isIt : Nat) : Except Error (Variables n) := do
  let eIt := P.element globalIdx
  let nextIsIt ← updateMaterialLaws_nextIsIt P.gridImplementation eIt.intersections.length isIt
  let isIt ← deref eIt.intersections isIt
  let nextIsIt ← deref eIt.intersections nextIsIt
  let corner := corner1234 isIt nextIsIt
  match isIt.outside with
  | some globalIdx2 =>
    match nextIsIt.outside with
    | some globalIdx3 => pure (updateFourCell P c globalIdx globalIdx2 globalIdx3 isIt nextIsIt v)
    | none => updateInteriorBoundary P c globalIdx globalIdx2 isIt nextIsIt corner v
  | none =>
    let globalPosFace12 := isIt.center
    let isItBCType := P.bctypeSat globalPosFace12 isIt
    match nextIsIt.outside with
    | some globalIdx3 =>
      updateBoundaryInterior P c globalIdx globalIdx3 isIt nextIsIt corner isItBCType v
    | none => pure (updateBoundaryBoundary P c globalIdx isIt nextIsIt isItBCType v)

/-- The seeding loops of the first pass: for `i, j < 2 * dim` the slots `(globalIdx, i, j)`
of both tables are set to the cell's own mobilities. -/
def seedUpwindMobilities {n : Nat} (v : Variables n) (globalIdx : Fin n)
    (mobilityW mobilityNW : ℚ) : Variables n :=
  (List.range (2 * dim)).foldl
    (fun v i =>
      (List.range (2 * dim)).foldl
        (fun v j =>
          let v := v.setUpwindMobilitiesWetting globalIdx i j mobilityW
          v.setUpwindMobilitiesNonwetting globalIdx i j mobilityNW)
        v)
    v

/-- The wetting saturation of a cell from the primary saturation variable:
the `switch (saturationType)` of `updateMaterialLaws`, whose result starts at zero. -/
def satWOf (saturationType : SaturationType) (saturation : ℚ) : ℚ :=
  match saturationType with
  | .Sw => saturation
  | .Sn => 1 - saturation
  | .other _ => 0

/-- One pass of the element loop of `updateMaterialLaws`.  The final call
`problem_.spatialParameters().update(satW, *eIt)` acts on the spatial parameters only and
is not part of the embedding. -/
def updateElement {n : Nat} (P : UpwindProblem n) (first : Bool) (v : Variables n)
    (globalIdx : Fin n) : Except Error (Variables n) := do
  let eIt := P.element globalIdx
  let globalPos := eIt.center
  let temperature := P.temperature globalPos globalIdx
  let referencePressure := P.referencePressure globalPos globalIdx
  let satW := satWOf P.saturationType (v.saturation globalIdx)
  let capillaryPressure := P.pC globalPos globalIdx satW
  let v := { v with capillaryPressure := setCell v.capillaryPressure globalIdx capillaryPressure }
  let densityW := P.phaseDensityW temperature referencePressure satW
  let densityNW := P.phaseDensityNW temperature referencePressure satW
  let viscosityW := P.phaseViscosityW temperature referencePressure satW
  let viscosityNW := P.phaseViscosityNW temperature referencePressure satW
  let relPermW := P.krw globalPos globalIdx satW
  let relPermNW := P.krn globalPos globalIdx satW
  let mobilityW := relPermW / viscosityW
  let mobilityNW := relPermNW / viscosityNW
  let v := { v with
    mobilityWetting := setCell v.mobilityWetting globalIdx mobilityW,
    mobilityNonwetting := setCell v.mobilityNonwetting globalIdx mobilityNW }
  let v ←
    if first then
      pure (seedUpwindMobilities v globalIdx mobilityW mobilityNW)
    else
      (List.range eIt.intersections.length).foldlM
        (updateFace P
          { globalPos := globalPos, viscosityW := viscosityW, viscosityNW := viscosityNW,
            mobilityW := mobilityW, mobilityNW := mobilityNW } globalIdx) v
  pure { v with
    densityWetting := setCell v.densityWetting globalIdx densityW,
    densityNonwetting := setCell v.densityNonwetting globalIdx densityNW,
    viscosityWetting := setCell v.viscosityWetting globalIdx viscosityW,
    viscosityNonwetting := setCell v.viscosityNonwetting globalIdx viscosityNW,
    fracFlowFuncWetting :=
      setCell v.fracFlowFuncWetting globalIdx (mobilityW / (mobilityW + mobilityNW)),
    fracFlowFuncNonwetting :=
      setCell v.fracFlowFuncNonwetting globalIdx (mobilityNW / (mobilityW + mobilityNW)) }

/-- The method `updateMaterialLaws(first)`: the element loop in the order of the global
cell index.  The argument `v` is the variables store before the call. -/
def updateMaterialLaws {n : Nat} (P : UpwindProblem n) (first : Bool) (v : Variables n) :
    Except Error (Variables n) :=
  (List.finRange n).foldlM (updateElement P first) v

end Dumux
namespace Dumux

/-! ## The overlap-aware scalar product (`ewoms/linear/overlappingscalarproduct.hh`)

An `OverlappingBlockVector` is a map from the local index to a block with `b` scalar
entries; `x[i] * y[i]` is the scalar product of two blocks. -/

/-- The overlap as far as `dot` queries it: `numLocal()` and `iAmMasterOf(int)`. -/
structure Overlap where
  numLocal : Nat
  iAmMasterOf : Int → Bool

/-- The conversion `static_cast<int>(localIdx)` of the 32-bit `unsigned` loop counter to a
32-bit `int` (two's complement). -/
def static_cast_int (localIdx : Nat) : Int :=
  let u : Nat := localIdx % 2 ^ 32
  if u < 2 ^ 31 then (u : Int) else (u : Int) - 2 ^ 32

/-- The method `OverlappingScalarProduct::dot` in a build without MPI
(`sumGlobal = sum`).  The loop counter is an `unsigned`, which wraps around at `2 ^ 32`:
for `numLocal >= 2 ^ 32` the loop does not terminate and the result is `none`. -/
def OverlappingScalarProduct.dot {b : Nat} (overlap_ : Overlap) (x y : Nat → Fin b → ℚ) :
    Option ℚ :=
  let numLocal := overlap_.numLocal
  if numLocal < 2 ^ 32 then
    let sum := (List.range numLocal).foldl
      (fun sum localIdx =>
        if overlap_.iAmMasterOf (static_cast_int localIdx) then
          sum + Matrix.dotProduct (x localIdx) (y localIdx)
        else sum)
      (0 : ℚ)
    let sumGlobal := sum
    some sumGlobal
  else none

/-! ## The local residual of the two-phase box model (`dumux/boxmodels/2p/2plocalresidual.hh`) -/

/-- The constants of the index class `TwoPIndices` and the properties `NumEq`, `NumPhases`
and `MobilityUpwindAlpha`, which are declared outside the sources and are parameters of the
embedding. -/
structure TwoPIndices where
  numEq : Nat
  numPhases : Nat
  wPhaseIdx : Nat
  nPhaseIdx : Nat
  contiWEqIdx : Nat
  contiNEqIdx : Nat
  mobilityUpwindAlpha : ℚ

/-- The secondary variables of a vertex as far as the flux reads them. -/
structure SecondaryVars where
  density : Nat → ℚ
  mobility : Nat → ℚ

/-- The flux variables of a sub-control-volume face as far as the flux reads them. -/
structure FluxVars where
  upstreamIdx : Nat → Nat
  downstreamIdx : Nat → Nat
  KmvpNormal : Nat → ℚ

/-- The type `PrimaryVarVector`: one entry per equation index. -/
abbrev PrimaryVarVector := Nat → ℚ

/-- The method `TwoPLocalResidual::computeAdvectiveFlux`; `curSecVars_` maps a vertex index
to its secondary variables. -/
def computeAdvectiveFlux (I : TwoPIndices) (curSecVars_ : Nat → SecondaryVars)
    (flux : PrimaryVarVector) (vars : FluxVars) : PrimaryVarVector :=
  (List.range I.numPhases).foldl
    (fun flux phaseIdx =>
      let up := curSecVars_ (vars.upstreamIdx phaseIdx)
      let dn := curSecVars_ (vars.downstreamIdx phaseIdx)
      let eqIdx := if phaseIdx = I.wPhaseIdx then I.contiWEqIdx else I.contiNEqIdx
      Function.update flux eqIdx
        (flux eqIdx + vars.KmvpNormal phaseIdx
          * (I.mobilityUpwindAlpha * (up.density phaseIdx * up.mobility phaseIdx)
            + (1 - I.mobilityUpwindAlpha) * (dn.density phaseIdx * dn.mobility phaseIdx))))
    flux

/-- The method `TwoPLocalResidual::computeDiffusiveFlux`: `flux += 0.0`. -/
def computeDiffusiveFlux (flux : PrimaryVarVector) (_fluxData : FluxVars) : PrimaryVarVector :=
  fun eqIdx => flux eqIdx + 0

/-- The method `TwoPLocalResidual::computeFlux` for the implementation `TwoPLocalResidual`
itself; `vars` is the `FluxVars` object it constructs for the face `faceIdx`. -/
def computeFlux (I : TwoPIndices) (curSecVars_ : Nat → SecondaryVars) (vars : FluxVars) :
    PrimaryVarVector :=
  let flux : PrimaryVarVector := fun _ => 0
  let flux := computeAdvectiveFlux I curSecVars_ flux vars
  let flux := computeDiffusiveFlux flux vars
  fun eqIdx => flux eqIdx * -1

end Dumux
namespace Dumux

/-! ## Row sums -/

/-- The sum of the entries of row `i` of `M_`. -/
def System.rowSum {n : Nat} (s : System n) (i : Fin n) : ℚ := ∑ j, s.M_ i j


/-! ## Relations between systems used in the statements -/

/-- The systems `s` and `s'` agree outside row `i`: every row of `M_` other than row `i`
and every entry of `f_` other than entry `i` is the same. -/
def System.AgreesOffRow {n : Nat} (i : Fin n) (s s' : System n) : Prop :=
  (∀ a b, a ≠ i → s'.M_ a b = s.M_ a b) ∧ (∀ a, a ≠ i → s'.f_ a = s.f_ a)

/-- The entrywise sum of two systems. -/
def System.add {n : Nat} (s t : System n) : System n :=
  { M_ := s.M_ + t.M_, f_ := s.f_ + t.f_ }

/-- The problem imposes a Neumann condition with zero flux for both phases on the face
`isIt`. -/
def Problem.NeumannZeroFlux {n : Nat} (P : Problem n) (isIt : Intersection n) : Prop :=
  P.bctypePress isIt.center isIt = BoundaryConditions.neumann
  ∧ P.neumannPress isIt.center isIt = ⟨0, 0⟩

/-- A closed domain: every boundary face of every cell carries a Neumann condition with
zero flux for both phases. -/
def Problem.ClosedDomain {n : Nat} (P : Problem n) : Prop :=
  ∀ (c : Fin n) (isIt : Intersection n), isIt ∈ (P.element c).intersections →
    isIt.outside = none → P.NeumannZeroFlux isIt

/-- The face that the search for `isIt24` (respectively `isIt34`) returns in the pass of
the intersection loop of cell `c` at position `isIt`, when exactly one of `isIt` and
`nextisIt` is interior, so that the neighbour across it is searched for a boundary face
through `corner1234`. -/
def searchedBoundaryFace {n : Nat} (P : Problem n) (c : Fin n) (isIt : Nat) :
    Option (Intersection n) :=
  match faceData P c isIt with
  | Except.ok d =>
    match d.isIt.outside, d.nextisIt.outside with
    | some globalIdx2, none => findBoundaryFace (P.element globalIdx2).intersections d.corner1234
    | none, some globalIdx3 => findBoundaryFace (P.element globalIdx3).intersections d.corner1234
    | _, _ => none
  | Except.error _ => none

/-- The faces that the boundary-face searches of `assemble` return are covered by the
closed-domain condition: whenever one face of a pair (`isIt`, `nextisIt`) of a cell is
interior and the other one is on the boundary, the face returned by the search in the
neighbour across the interior face is a boundary face (the neighbour has a boundary face
through the shared corner), or else (the search found none and returns the begin iterator
it starts from) the problem imposes the zero-flux Neumann condition on that face too. -/
def Problem.BoundarySearchClosed {n : Nat} (P : Problem n) : Prop :=
  ∀ c : Fin n, ∀ isIt ∈ List.range (P.element c).intersections.length,
    ∀ found ∈ searchedBoundaryFace P c isIt, found.outside = none ∨ P.NeumannZeroFlux found

/-- A single-cell grid all of whose faces are boundary faces that carry a Dirichlet
condition with the same pressure value `g`. -/
def Problem.AllDirichlet (P : Problem 1) (g : ℚ) : Prop :=
  ∀ isIt ∈ (P.element 0).intersections,
    isIt.outside = none
    ∧ P.bctypePress isIt.center isIt = BoundaryConditions.dirichlet
    ∧ P.dirichletPress isIt.center isIt = g

/-! ## Concrete grids -/

/-- The unit square cell with lower left corner `(x0, y0)` in the face order of YaspGrid
(left, right, bottom, top), with the given neighbours across these faces. -/
def yaspUnitSquare {n : Nat} (x0 y0 : ℚ) (left right bottom top : Option (Fin n)) : Element n :=
  { center := ![x0 + 1/2, y0 + 1/2]
    volume := 1
    intersections :=
      [ { outside := left, indexInInside := 0, indexInOutside := 1
          center := ![x0, y0 + 1/2], volume := 1, centerUnitOuterNormal := ![-1, 0]
          corners := [![x0, y0], ![x0, y0 + 1]] },
        { outside := right, indexInInside := 1, indexInOutside := 0
          center := ![x0 + 1, y0 + 1/2], volume := 1, centerUnitOuterNormal := ![1, 0]
          corners := [![x0 + 1, y0], ![x0 + 1, y0 + 1]] },
        { outside := bottom, indexInInside := 2, indexInOutside := 3
          center := ![x0 + 1/2, y0], volume := 1, centerUnitOuterNormal := ![0, -1]
          corners := [![x0, y0], ![x0 + 1, y0]] },
        { outside := top, indexInInside := 3, indexInOutside := 2
          center := ![x0 + 1/2, y0 + 1], volume := 1, centerUnitOuterNormal := ![0, 1]
          corners := [![x0, y0 + 1], ![x0 + 1, y0 + 1]] } ] }

/-- The system with `M_ = 0` and `f_ = 0`. -/
def zeroSystem (n : Nat) : System n := { M_ := 0, f_ := 0 }

/-- The 2x1 grid of unit squares `[0,1]x[0,1]` and `[1,2]x[0,1]` on YaspGrid with identity
permeability, total upwind mobility 1 in every slot, zero source, Dirichlet pressure 2 on
the left face (`x = 0`), Dirichlet pressure 0 on the right face (`x = 2`) and zero-flux
Neumann conditions on the top and bottom faces. -/
def twoCellProblem : Problem 2 :=
  { gridImplementation := GridImplementation.yaspGrid
    element := ![yaspUnitSquare 0 0 none (some 1) none none,
                 yaspUnitSquare 1 0 (some 0) none none none]
    source := fun _ _ => ⟨0, 0⟩
    intrinsicPermeability := fun _ _ => 1
    densityWetting := fun _ => 1
    densityNonwetting := fun _ => 1
    upwindMobilitiesWetting := fun _ _ _ => 1/2
    upwindMobilitiesNonwetting := fun _ _ _ => 1/2
    bctypePress := fun globalPos _ =>
      if globalPos 0 = 0 ∨ globalPos 0 = 2 then BoundaryConditions.dirichlet
      else BoundaryConditions.neumann
    dirichletPress := fun globalPos _ => if globalPos 0 = 0 then 2 else 0
    neumannPress := fun _ _ => ⟨0, 0⟩ }

/-- The 2x1 grid of `twoCellProblem` as a closed domain: zero-flux Neumann conditions on
every boundary face, and the source `(1, 2)` in every cell. -/
def twoCellClosedProblem : Problem 2 :=
  { twoCellProblem with
    source := fun _ _ => ⟨1, 2⟩
    bctypePress := fun _ _ => BoundaryConditions.neumann }

/-- The 2x1 grid of `twoCellProblem` with Dirichlet pressure 1 on every boundary face, the
source `(1, 2)` in every cell, identity permeability in cell 0 and the zero permeability
tensor in cell 1. -/
def twoCellZeroPermeabilityProblem : Problem 2 :=
  { twoCellProblem with
    source := fun _ _ => ⟨1, 2⟩
    intrinsicPermeability := fun _ c => if c = 0 then 1 else 0
    bctypePress := fun _ _ => BoundaryConditions.dirichlet
    dirichletPress := fun _ _ => 1 }

/-- The single unit square cell on YaspGrid with permeability `K`, source `source`, total
upwind mobility 1 in every slot and Dirichlet pressure `g` on all four faces. -/
def oneCellProblem (K : FieldMatrix) (source : PhaseVector) (g : ℚ) : Problem 1 :=
  { gridImplementation := GridImplementation.yaspGrid
    element := fun _ => yaspUnitSquare 0 0 none none none none
    source := fun _ _ => source
    intrinsicPermeability := fun _ _ => K
    densityWetting := fun _ => 1
    densityNonwetting := fun _ => 1
    upwindMobilitiesWetting := fun _ _ _ => 1/2
    upwindMobilitiesNonwetting := fun _ _ _ => 1/2
    bctypePress := fun _ _ => BoundaryConditions.dirichlet
    dirichletPress := fun _ _ => g
    neumannPress := fun _ _ => ⟨0, 0⟩ }

/-- What one corner of the unit square of `oneCellProblem 1 source g` adds to the system:
`2` to `M_[0][0]` and `2 g` to `f_[0]`. -/
def oneCellCorner (g : ℚ) (s : System 1) : System 1 := (s.addM 0 0 2).addF 0 (g * 2)

end Dumux
namespace Dumux

/-! ## A 2x2 grid -/

/-- The 2x2 grid of unit squares on YaspGrid, cells numbered row by row (cell 0 at the
origin, cell 1 to its right, cells 2 and 3 above them), with identity permeability, total
upwind mobility 1 in every slot, zero source and Dirichlet pressure 1 on the whole
boundary. -/
def twoByTwoProblem : Problem 4 :=
  { gridImplementation := GridImplementation.yaspGrid
    element := ![yaspUnitSquare 0 0 none (some 1) none (some 2),
                 yaspUnitSquare 1 0 (some 0) none none (some 3),
                 yaspUnitSquare 0 1 none (some 3) (some 0) none,
                 yaspUnitSquare 1 1 (some 2) none (some 1) none]
    source := fun _ _ => ⟨0, 0⟩
    intrinsicPermeability := fun _ _ => 1
    densityWetting := fun _ => 1
    densityNonwetting := fun _ => 1
    upwindMobilitiesWetting := fun _ _ _ => 1/2
    upwindMobilitiesNonwetting := fun _ _ _ => 1/2
    bctypePress := fun _ _ => BoundaryConditions.dirichlet
    dirichletPress := fun _ _ => 1
    neumannPress := fun _ _ => ⟨0, 0⟩ }

end Dumux
namespace Dumux

/-! ## A 2x1 grid with one Dirichlet face -/

/-- The 2x1 grid of `twoCellProblem` with zero Neumann flux on every boundary face except
the top face of cell 1 (centre `(3/2, 1)`), which carries the Dirichlet pressure 3; the
Dirichlet value is 3 wherever it is asked for. -/
def twoCellMixedProblem : Problem 2 :=
  { twoCellProblem with
    bctypePress := fun globalPos _ =>
      if globalPos 0 = 3/2 ∧ globalPos 1 = 1 then BoundaryConditions.dirichlet
      else BoundaryConditions.neumann
    dirichletPress := fun _ _ => 3 }

end Dumux
namespace Dumux

/-! ## Quantities used in the statements about `updateMaterialLaws` -/

/-- The wetting saturation `satW` of cell `c` for the primary saturation field
`saturation`. -/
def UpwindProblem.satW {n : Nat} (P : UpwindProblem n) (saturation : Fin n → ℚ) (c : Fin n) : ℚ :=
  satWOf P.saturationType (saturation c)

/-- The wetting viscosity of cell `c`: the fluid system at the temperature and reference
pressure of the cell centre and the fluid state built from `satW`. -/
def UpwindProblem.viscosityW {n : Nat} (P : UpwindProblem n) (saturation : Fin n → ℚ)
    (c : Fin n) : ℚ :=
  P.phaseViscosityW (P.temperature (P.element c).center c)
    (P.referencePressure (P.element c).center c) (P.satW saturation c)

/-- The non-wetting viscosity of cell `c`. -/
def UpwindProblem.viscosityNW {n : Nat} (P : UpwindProblem n) (saturation : Fin n → ℚ)
    (c : Fin n) : ℚ :=
  P.phaseViscosityNW (P.temperature (P.element c).center c)
    (P.referencePressure (P.element c).center c) (P.satW saturation c)

/-- The cell's own (non-upwinded) wetting mobility `krw(satW) / viscosityW`. -/
def UpwindProblem.mobilityW {n : Nat} (P : UpwindProblem n) (saturation : Fin n → ℚ)
    (c : Fin n) : ℚ :=
  P.krw (P.element c).center c (P.satW saturation c) / P.viscosityW saturation c

/-- The cell's own (non-upwinded) non-wetting mobility `krn(satW) / viscosityNW`. -/
def UpwindProblem.mobilityNW {n : Nat} (P : UpwindProblem n) (saturation : Fin n → ℚ)
    (c : Fin n) : ℚ :=
  P.krn (P.element c).center c (P.satW saturation c) / P.viscosityNW saturation c


/-- The saturation that a boundary face supplies to the upwind selection: its Dirichlet
saturation when it carries the Dirichlet saturation condition, the value `own` (the cell's
own saturation) otherwise. -/
def UpwindProblem.boundaryFaceSaturation {n : Nat} (P : UpwindProblem n)
    (face : Intersection n) (own : ℚ) : ℚ :=
  if P.bctypeSat face.center face = BoundaryConditions.dirichlet then
    P.dirichletSat face.center face
  else own


/-! ## Concrete problems for `updateMaterialLaws` -/

/-- The single unit square cell on YaspGrid for the material-law update: wetting saturation
as primary variable, total velocity, the linear relative permeabilities `krw(S) = S` and
`krn(S) = 1 - S`, viscosities 1 and 2, and on all four faces the saturation boundary type
`bctypeSat` with Dirichlet saturation 1. -/
def oneCellUpwindProblem (bctypeSat : BoundaryConditions) : UpwindProblem 1 :=
  { gridImplementation := GridImplementation.yaspGrid
    saturationType := SaturationType.Sw
    velocityType_ := VelocityType.vt
    element := fun _ => yaspUnitSquare 0 0 none none none none
    temperature := fun _ _ => 0
    referencePressure := fun _ _ => 0
    pC := fun _ _ _ => 0
    krw := fun _ _ s => s
    krn := fun _ _ s => 1 - s
    phaseDensityW := fun _ _ _ => 1
    phaseDensityNW := fun _ _ _ => 1
    phaseViscosityW := fun _ _ _ => 1
    phaseViscosityNW := fun _ _ _ => 2
    bctypeSat := fun _ _ => bctypeSat
    dirichletSat := fun _ _ => 1 }

/-- The variables store with the saturation `saturation` in every cell, the wetting
potential `potentialWetting` on every face and zero in every other field. -/
def constantVariables (n : Nat) (saturation potentialWetting : ℚ) : Variables n :=
  { saturation := fun _ => saturation
    velocity := fun _ _ => 0
    velocitySecondPhase := fun _ _ => 0
    potentialWetting := fun _ _ => potentialWetting
    capillaryPressure := fun _ => 0
    mobilityWetting := fun _ => 0
    mobilityNonwetting := fun _ => 0
    upwindMobilitiesWetting := fun _ _ _ => 0
    upwindMobilitiesNonwetting := fun _ _ _ => 0
    densityWetting := fun _ => 0
    densityNonwetting := fun _ => 0
    viscosityWetting := fun _ => 0
    viscosityNonwetting := fun _ => 0
    fracFlowFuncWetting := fun _ => 0
    fracFlowFuncNonwetting := fun _ => 0 }

/-- The locals of the element loop used in the concrete statements: cell centre
`(1/2, 1/2)`, viscosities 1 and 2, mobilities `1/2` and `1/4`. -/
def unitCellLaws : CellLaws :=
  { globalPos := ![1/2, 1/2], viscosityW := 1, viscosityNW := 2, mobilityW := 1/2,
    mobilityNW := 1/4 }

/-- The single-cell problem of `oneCellProblem` with identity permeability, zero source and
Dirichlet value 1, whose boundary faces all report the pressure boundary type `other 0`,
which is neither Dirichlet nor Neumann. -/
def oneCellOtherFlagProblem : Problem 1 :=
  { oneCellProblem 1 ⟨0, 0⟩ 1 with bctypePress := fun _ _ => BoundaryConditions.other 0 }


/-! ## Concrete data for the scalar product and the local residual -/

/-- An overlap with three local indices of which index 1 is not a master index. -/
def threeIndexOverlap : Overlap :=
  { numLocal := 3, iAmMasterOf := fun i => decide (i ≠ 1) }

/-- The block vector with the single-entry blocks `1, 2, 3, ...` at the indices
`0, 1, 2, ...`. -/
def countingVector : Nat → Fin 1 → ℚ := fun i _ => (i : ℚ) + 1

/-- The block vector with the single-entry block `2` at every index. -/
def constantVector : Nat → Fin 1 → ℚ := fun _ _ => 2

/-- The usual indices of the two-phase model: wetting phase 0, non-wetting phase 1, their
continuity equations 0 and 1, and full upwinding. -/
def standardIndices : TwoPIndices :=
  { numEq := 2, numPhases := 2, wPhaseIdx := 0, nPhaseIdx := 1, contiWEqIdx := 0,
    contiNEqIdx := 1, mobilityUpwindAlpha := 1 }

/-- Secondary variables of two vertices: vertex 0 has densities `(1, 2)` and mobilities
`(3, 4)`, every other vertex densities `(5, 6)` and mobilities `(7, 8)`. -/
def twoVertexSecVars : Nat → SecondaryVars := fun vertex =>
  if vertex = 0 then { density := fun phase => if phase = 0 then 1 else 2
                       mobility := fun phase => if phase = 0 then 3 else 4 }
  else { density := fun phase => if phase = 0 then 5 else 6
         mobility := fun phase => if phase = 0 then 7 else 8 }

/-- Flux variables of a face between vertex 0 and vertex 1: vertex 0 is upstream for the
wetting phase and downstream for the non-wetting phase; `KmvpNormal` is `(2, -3)`. -/
def twoVertexFluxVars : FluxVars :=
  { upstreamIdx := fun phase => if phase = 0 then 0 else 1
    downstreamIdx := fun phase => if phase = 0 then 1 else 0
    KmvpNormal := fun phase => if phase = 0 then 2 else -3 }


/-- The left face of the unit square cell of `oneCellUpwindProblem` (position 0, local
index 0), a boundary face. -/
def unitSquareLeftFace : Intersection 1 :=
  { outside := none, indexInInside := 0, indexInOutside := 1
    center := ![0, 0 + 1/2], volume := 1, centerUnitOuterNormal := ![-1, 0]
    corners := [![0, 0], ![0, 0 + 1]] }

/-- The bottom face of the unit square cell of `oneCellUpwindProblem` (position 2, local
index 2), the next face of the left face on YaspGrid. -/
def unitSquareBottomFace : Intersection 1 :=
  { outside := none, indexInInside := 2, indexInOutside := 3
    center := ![0 + 1/2, 0], volume := 1, centerUnitOuterNormal := ![0, -1]
    corners := [![0, 0], ![0 + 1, 0]] }

/-- The variables store with saturation `1/2` in every cell, the wetting potential `-2` on
the faces with local index 0 and `1` on all other faces. -/
def inflowVariables : Variables 1 :=
  { constantVariables 1 (1/2) 1 with potentialWetting := fun _ i => if i = 0 then -2 else 1 }


/-! ## The next-face rule -/

/-- C1: for each of the three supported grid kinds and every face position `i` of a
four-faced cell, four applications of the next-face rule of `assemble` starting from `i`
return `i`; for sGrid and yaspGrid the rule is the cycle 0 -> 2 -> 1 -> 3 -> 0, for ugGrid
it is `i -> (i + 1) mod 4`. -/
theorem assemble_nextisIt_four_times (i : Fin 4) :
    assemble_nextisIt_iterate GridImplementation.sGrid 4 4 i.val = Except.ok i.val
    ∧ assemble_nextisIt_iterate GridImplementation.yaspGrid 4 4 i.val = Except.ok i.val
    ∧ assemble_nextisIt_iterate GridImplementation.ugGrid 4 4 i.val = Except.ok i.val
    ∧ assemble_nextisIt GridImplementation.sGrid 4 i.val = Except.ok (![2, 3, 1, 0] i)
    ∧ assemble_nextisIt GridImplementation.yaspGrid 4 i.val = Except.ok (![2, 3, 1, 0] i)
    ∧ assemble_nextisIt GridImplementation.ugGrid 4 i.val = Except.ok ((i.val + 1) % 4) := by
  revert i
  decide

/-- C10: the next-face computation of `initializeMatrix` raises `NotImplemented` exactly
when the grid implementation is none of sGrid, yaspGrid and ugGrid; for each of the three
recognised kinds it returns a position, and from a position of the cell (`isIt < isItEnd`)
it returns a position of the same cell, never the end position. -/
theorem initializeMatrix_nextisIt_notImplemented_iff (gridImplementation : GridImplementation)
    (isItEnd isIt : Nat) :
    (initializeMatrix_nextisIt gridImplementation isItEnd isIt = Except.error Error.notImplemented
      ↔ gridImplementation ≠ GridImplementation.sGrid
        ∧ gridImplementation ≠ GridImplementation.yaspGrid
        ∧ gridImplementation ≠ GridImplementation.ugGrid)
    ∧ (gridImplementation = GridImplementation.sGrid
        ∨ gridImplementation = GridImplementation.yaspGrid
        ∨ gridImplementation = GridImplementation.ugGrid →
      ∃ nextisIt, initializeMatrix_nextisIt gridImplementation isItEnd isIt = Except.ok nextisIt
        ∧ (isIt < isItEnd → nextisIt < isItEnd)) := by
  constructor
  · cases gridImplementation <;> simp only [initializeMatrix_nextisIt] <;>
      (try split_ifs) <;> simp [pure, Except.pure, throw, throwThe, MonadExceptOf.throw]
  · rintro (h | h | h) <;> subst h <;> simp only [initializeMatrix_nextisIt] <;> split_ifs <;>
      simp [pure, Except.pure] <;> omega

/-- A supported grid kind at a position of a four-faced cell, for C10. -/
theorem initializeMatrix_nextisIt_notImplemented_iff_witness :
    ∃ nextisIt, initializeMatrix_nextisIt GridImplementation.yaspGrid 4 2 = Except.ok nextisIt
      ∧ (2 < 4 → nextisIt < 4) :=
  (initializeMatrix_nextisIt_notImplemented_iff GridImplementation.yaspGrid 4 2).2
    (Or.inr (Or.inl rfl))

/-! ## The linear solve driver -/

/-- C9: `solve` raises `NotImplemented` if and only if the pair
(`preconditionerName_`, `solverName_`) is not one of (SeqILU0, CG), (SeqILU0, BiCGSTAB),
(SeqPardiso, Loop), (SeqPardiso, BiCGSTAB); the names stored by the one-argument
constructor (SeqILU0 with BiCGSTAB) are accepted. -/
theorem solve_notImplemented_iff (preconditionerName_ solverName_ : String) :
    (solve preconditionerName_ solverName_ = Except.error Error.notImplemented
      ↔ ¬ ((preconditionerName_ = "SeqILU0" ∧ solverName_ = "CG")
          ∨ (preconditionerName_ = "SeqILU0" ∧ solverName_ = "BiCGSTAB")
          ∨ (preconditionerName_ = "SeqPardiso" ∧ solverName_ = "Loop")
          ∨ (preconditionerName_ = "SeqPardiso" ∧ solverName_ = "BiCGSTAB")))
    ∧ solve defaultPreconditionerName defaultSolverName
        = Except.ok (Preconditioner.seqILU0, Solver.biCGSTAB) := by
  constructor
  · unfold solve
    by_cases hp : preconditionerName_ = "SeqILU0"
    · by_cases h1 : solverName_ = "CG"
      · simp [hp, h1, pure, Except.pure]
      · by_cases h2 : solverName_ = "BiCGSTAB"
        · simp [hp, h2, pure, Except.pure]
        · simp [hp, h1, h2, throw, throwThe, MonadExceptOf.throw]
    · by_cases hq : preconditionerName_ = "SeqPardiso"
      · by_cases h1 : solverName_ = "Loop"
        · simp [hq, h1, pure, Except.pure]
        · by_cases h2 : solverName_ = "BiCGSTAB"
          · simp [hq, h2, pure, Except.pure]
          · simp [hq, h1, h2, throw, throwThe, MonadExceptOf.throw]
      · simp [hp, hq, throw, throwThe, MonadExceptOf.throw]
  · decide


/-! ## The upwind selection -/

/-- C8, as stated, fails: for the interaction-volume velocity `(-1, 0)` and the unit
normals `(1, 0)` of `nextIsIt` and `(0, 1)` of `isIt` the potentials are
`potential11 = -1`, `potential21 = 0` and `potentialDiag1 = -1`; the neighbour branch is
entered (`|minPot| = 1 > 0 = |maxPot|`), the diagonal potential ties with `potential11`
at the minimum, and the selected saturation is the one of cell 3 (across `nextIsIt`),
not the one of the diagonal cell 4. -/
theorem satUpw1_diagonal_tie_selects_cell3 :
    Matrix.dotProduct (![-1, 0] : FieldVector) ![1, 0] = -1
    ∧ Matrix.dotProduct (![-1, 0] : FieldVector) ![0, 1] = 0
    ∧ Matrix.dotProduct (![-1, 0] : FieldVector) (![1, 0] + ![0, 1]) = -1
    ∧ |min (min (-1 : ℚ) 0) (-1)| > |max (max (-1 : ℚ) 0) (-1)|
    ∧ satUpw1 ![-1, 0] ![1, 0] ![0, 1] 10 20 30 40 = 30
    ∧ satUpw1 ![-1, 0] ![1, 0] ![0, 1] 10 20 30 40 ≠ 40 := by
  decide!

/-- C8, amended: in the neighbour branch (`|minPot| > |maxPot|`) a tie at the minimum
between the diagonal potential and exactly one face potential selects the saturation of
that face's neighbour (cell 3 for `potential11`, cell 2 for `potential21`), and a tie at
the minimum of the two face potentials selects the saturation of the diagonal cell 4. -/
theorem satUpw1FromPotentials_ties (potential11 potential21 potentialDiag1 : ℚ)
    (saturation1 saturation2 saturation3 saturation4 : ℚ)
    (hbranch : |min (min potential11 potential21) potentialDiag1|
      > |max (max potential11 potential21) potentialDiag1|) :
    (potentialDiag1 = min (min potential11 potential21) potentialDiag1
        ∧ potential11 = potentialDiag1 ∧ potential21 ≠ potentialDiag1 →
      satUpw1FromPotentials potential11 potential21 potentialDiag1
        saturation1 saturation2 saturation3 saturation4 = saturation3)
    ∧ (potentialDiag1 = min (min potential11 potential21) potentialDiag1
        ∧ potential21 = potentialDiag1 ∧ potential11 ≠ potentialDiag1 →
      satUpw1FromPotentials potential11 potential21 potentialDiag1
        saturation1 saturation2 saturation3 saturation4 = saturation2)
    ∧ (potential11 = min (min potential11 potential21) potentialDiag1
        ∧ potential21 = potential11 →
      satUpw1FromPotentials potential11 potential21 potentialDiag1
        saturation1 saturation2 saturation3 saturation4 = saturation4) := by
  have hb : ¬ (|max (max potential11 potential21) potentialDiag1|
      ≥ |min (min potential11 potential21) potentialDiag1|) := not_le.mpr hbranch
  refine ⟨?_, ?_, ?_⟩
  · rintro ⟨hmin, h11, h21⟩
    have h21' : ¬ potentialDiag1 = potential21 := fun h => h21 h.symm
    simp only [satUpw1FromPotentials, if_neg hb, satUpw1Ties]
    rw [if_pos ⟨hmin.symm, h11.symm, h21'⟩]
  · rintro ⟨hmin, h21, h11⟩
    have h11' : ¬ potentialDiag1 = potential11 := fun h => h11 h.symm
    simp only [satUpw1FromPotentials, if_neg hb, satUpw1Ties]
    rw [if_neg (fun h => h11' h.2.1), if_pos ⟨hmin.symm, h21.symm, h11'⟩]
  · rintro ⟨hmin, h21⟩
    simp only [satUpw1FromPotentials, if_neg hb, satUpw1Ties]
    rw [if_neg (fun h => h.2.2 (h.2.1.trans h21.symm)),
      if_neg (fun h => h.2.2 (h.2.1.trans h21)),
      if_pos ⟨hmin.symm.trans h21.symm, h21⟩]

/-- The amended C8 at the potentials `-1`, `0`, `-1` of the counterexample: the tie of the
diagonal potential with `potential11` selects the saturation of cell 3. -/
theorem satUpw1FromPotentials_ties_witness :
    |min (min (-1 : ℚ) 0) (-1)| > |max (max (-1 : ℚ) 0) (-1)|
    ∧ ((-1 : ℚ) = min (min (-1 : ℚ) 0) (-1) ∧ (-1 : ℚ) = -1 ∧ (0 : ℚ) ≠ -1)
    ∧ satUpw1FromPotentials (-1) 0 (-1) 10 20 30 40 = 30 :=
  ⟨by decide!, by decide!,
    (satUpw1FromPotentials_ties (-1) 0 (-1) 10 20 30 40 (by decide!)).1 (by decide!)⟩


/-! ## Frame lemmas: what one pass of the loops of `assemble` can change -/

theorem System.AgreesOffRow.refl {n : Nat} (i : Fin n) (s : System n) :
    System.AgreesOffRow i s s :=
  ⟨fun _ _ _ => rfl, fun _ _ => rfl⟩

theorem System.AgreesOffRow.trans {n : Nat} {i : Fin n} {s s' s'' : System n}
    (h : System.AgreesOffRow i s s') (h' : System.AgreesOffRow i s' s'') :
    System.AgreesOffRow i s s'' :=
  ⟨fun a b hab => (h'.1 a b hab).trans (h.1 a b hab), fun a ha => (h'.2 a ha).trans (h.2 a ha)⟩

theorem System.agreesOffRow_addM {n : Nat} (s : System n) (i j : Fin n) (v : ℚ) :
    System.AgreesOffRow i s (s.addM i j v) := by
  refine ⟨fun a b ha => ?_, fun a _ => rfl⟩
  simp [System.addM, ha]

theorem System.agreesOffRow_addF {n : Nat} (s : System n) (i : Fin n) (v : ℚ) :
    System.AgreesOffRow i s (s.addF i v) := by
  refine ⟨fun a b _ => rfl, fun a ha => ?_⟩
  simp [System.addF, ha]

theorem System.agreesOffRow_subF {n : Nat} (s : System n) (i : Fin n) (v : ℚ) :
    System.AgreesOffRow i s (s.subF i v) := by
  refine ⟨fun a b _ => rfl, fun a ha => ?_⟩
  simp [System.subF, ha]

theorem System.agreesOffRow_setF {n : Nat} (s : System n) (i : Fin n) (v : ℚ) :
    System.AgreesOffRow i s (s.setF i v) := by
  refine ⟨fun a b _ => rfl, fun a ha => ?_⟩
  simp [System.setF, ha]

theorem interiorNeumannNeumann_agreesOffRow {n : Nat} {s s' : System n} {i j : Fin n}
    {g111 g121 g211 g221 g112 g122 g212 g222 J3 J4 v13 v24 : ℚ}
    (h : interiorNeumannNeumann s i j g111 g121 g211 g221 g112 g122 g212 g222 J3 J4 v13 v24 = Except.ok s') :
    System.AgreesOffRow i s s' := by
  unfold interiorNeumannNeumann at h
  simp only [bind, Except.bind, pure, Except.pure] at h
  split at h
  · cases h
  · cases h
    exact (((System.agreesOffRow_addM _ _ _ _).trans (System.agreesOffRow_addM _ _ _ _)).trans (System.agreesOffRow_addF _ _ _))

theorem interiorNeumannDirichlet_agreesOffRow {n : Nat} {s s' : System n} {i j : Fin n}
    {g111 g121 g211 g221 g112 g122 J3 g4 v13 : ℚ}
    (h : interiorNeumannDirichlet s i j g111 g121 g211 g221 g112 g122 J3 g4 v13 = Except.ok s') :
    System.AgreesOffRow i s s' := by
  unfold interiorNeumannDirichlet at h
  simp only [bind, Except.bind, pure, Except.pure] at h
  split at h
  · cases h
  · cases h
    exact (((System.agreesOffRow_addM _ _ _ _).trans (System.agreesOffRow_addM _ _ _ _)).trans (System.agreesOffRow_addF _ _ _))

theorem interiorDirichletNeumann_agreesOffRow {n : Nat} {s s' : System n} {i j : Fin n}
    {g111 g121 g211 g221 g112 g122 g212 g222 g3 J4 v24 : ℚ}
    (h : interiorDirichletNeumann s i j g111 g121 g211 g221 g112 g122 g212 g222 g3 J4 v24 = Except.ok s') :
    System.AgreesOffRow i s s' := by
  unfold interiorDirichletNeumann at h
  simp only [bind, Except.bind, pure, Except.pure] at h
  split at h
  · cases h
  · cases h
    exact (((System.agreesOffRow_addM _ _ _ _).trans (System.agreesOffRow_addM _ _ _ _)).trans (System.agreesOffRow_addF _ _ _))

theorem interiorDirichletDirichlet_agreesOffRow {n : Nat} {s s' : System n} {i j : Fin n}
    {g111 g121 g211 g221 g112 g122 g3 g4 : ℚ}
    (h : interiorDirichletDirichlet s i j g111 g121 g211 g221 g112 g122 g3 g4 = Except.ok s') :
    System.AgreesOffRow i s s' := by
  unfold interiorDirichletDirichlet at h
  simp only [bind, Except.bind, pure, Except.pure] at h
  cases h
  exact (((System.agreesOffRow_addM _ _ _ _).trans (System.agreesOffRow_addM _ _ _ _)).trans (System.agreesOffRow_subF _ _ _))

theorem neumannBoundaryDirichlet_agreesOffRow {n : Nat} {s s' : System n} {i : Fin n}
    {g111 g121 g211 g221 g3 J1 v12 : ℚ}
    (h : neumannBoundaryDirichlet s i g111 g121 g211 g221 g3 J1 v12 = Except.ok s') :
    System.AgreesOffRow i s s' := by
  unfold neumannBoundaryDirichlet at h
  simp only [bind, Except.bind, pure, Except.pure] at h
  cases h
  exact ((System.agreesOffRow_addM _ _ _ _).trans (System.agreesOffRow_subF _ _ _))

theorem neumannInteriorNeumann_agreesOffRow {n : Nat} {s s' : System n} {i j : Fin n}
    {g111 g121 g211 g221 g113 g123 g213 g223 J1 J2 v12 v34 : ℚ}
    (h : neumannInteriorNeumann s i j g111 g121 g211 g221 g113 g123 g213 g223 J1 J2 v12 v34 = Except.ok s') :
    System.AgreesOffRow i s s' := by
  unfold neumannInteriorNeumann at h
  simp only [bind, Except.bind, pure, Except.pure] at h
  split at h
  · cases h
  · cases h
    exact (((System.agreesOffRow_addM _ _ _ _).trans (System.agreesOffRow_addM _ _ _ _)).trans (System.agreesOffRow_subF _ _ _))

theorem neumannInteriorDirichlet_agreesOffRow {n : Nat} {s s' : System n} {i j : Fin n}
    {g111 g121 g211 g221 g213 g223 J1 g2 v12 : ℚ}
    (h : neumannInteriorDirichlet s i j g111 g121 g211 g221 g213 g223 J1 g2 v12 = Except.ok s') :
    System.AgreesOffRow i s s' := by
  unfold neumannInteriorDirichlet at h
  simp only [bind, Except.bind, pure, Except.pure] at h
  split at h
  · cases h
  · cases h
    exact (((System.agreesOffRow_addM _ _ _ _).trans (System.agreesOffRow_addM _ _ _ _)).trans (System.agreesOffRow_subF _ _ _))

theorem dirichletBoundaryDirichlet_agreesOffRow {n : Nat} {s s' : System n} {i : Fin n}
    {g111 g121 g211 g221 g1 g3 : ℚ}
    (h : dirichletBoundaryDirichlet s i g111 g121 g211 g221 g1 g3 = Except.ok s') :
    System.AgreesOffRow i s s' := by
  unfold dirichletBoundaryDirichlet at h
  simp only [bind, Except.bind, pure, Except.pure] at h
  cases h
  exact ((System.agreesOffRow_addM _ _ _ _).trans (System.agreesOffRow_addF _ _ _))

theorem dirichletBoundaryNeumann_agreesOffRow {n : Nat} {s s' : System n} {i : Fin n}
    {g111 g121 g211 g221 g1 J3 v13 : ℚ}
    (h : dirichletBoundaryNeumann s i g111 g121 g211 g221 g1 J3 v13 = Except.ok s') :
    System.AgreesOffRow i s s' := by
  unfold dirichletBoundaryNeumann at h
  simp only [bind, Except.bind, pure, Except.pure] at h
  cases h
  exact ((System.agreesOffRow_addM _ _ _ _).trans (System.agreesOffRow_subF _ _ _))

theorem dirichletInteriorDirichlet_agreesOffRow {n : Nat} {s s' : System n} {i j : Fin n}
    {g111 g121 g211 g221 g213 g223 g1 g2 : ℚ}
    (h : dirichletInteriorDirichlet s i j g111 g121 g211 g221 g213 g223 g1 g2 = Except.ok s') :
    System.AgreesOffRow i s s' := by
  unfold dirichletInteriorDirichlet at h
  simp only [bind, Except.bind, pure, Except.pure] at h
  cases h
  exact (((System.agreesOffRow_addM _ _ _ _).trans (System.agreesOffRow_addM _ _ _ _)).trans (System.agreesOffRow_subF _ _ _))

theorem dirichletInteriorNeumann_agreesOffRow {n : Nat} {s s' : System n} {i j : Fin n}
    {g111 g121 g211 g221 g113 g123 g213 g223 g1 J2 v34 : ℚ}
    (h : dirichletInteriorNeumann s i j g111 g121 g211 g221 g113 g123 g213 g223 g1 J2 v34 = Except.ok s') :
    System.AgreesOffRow i s s' := by
  unfold dirichletInteriorNeumann at h
  simp only [bind, Except.bind, pure, Except.pure] at h
  split at h
  · cases h
  · cases h
    exact (((System.agreesOffRow_addM _ _ _ _).trans (System.agreesOffRow_addM _ _ _ _)).trans (System.agreesOffRow_addF _ _ _))

theorem fourCellScatter_agreesOffRow {n : Nat} (s : System n) (i j k l : Fin n)
    (T : Matrix (Fin 4) (Fin 4) ℚ) : System.AgreesOffRow i s (fourCellScatter s i j k l T) :=
  (((System.agreesOffRow_addM _ _ _ _).trans (System.agreesOffRow_addM _ _ _ _)).trans
    (System.agreesOffRow_addM _ _ _ _)).trans (System.agreesOffRow_addM _ _ _ _)

theorem Except.bind_eq_ok_iff {ε α β : Type} (x : Except ε α) (f : α → Except ε β) (b : β) :
    x >>= f = Except.ok b ↔ ∃ a, x = Except.ok a ∧ f a = Except.ok b := by
  cases x with
  | error e => simp [bind, Except.bind]
  | ok a => simp [bind, Except.bind]

theorem assembleInteriorInterior_agreesOffRow {n : Nat} {P : Problem n} {d : FaceData n}
    {j k : Fin n} {s s' : System n}
    (h : assembleInteriorInterior P d j k s = Except.ok s') :
    System.AgreesOffRow d.globalIdx1 s s' := by
  unfold assembleInteriorInterior at h
  simp only [Except.bind_eq_ok_iff] at h
  obtain ⟨_, _, _, _, T, _, h⟩ := h
  cases h
  exact fourCellScatter_agreesOffRow _ _ _ _ _ _

theorem assembleInteriorBoundary_agreesOffRow {n : Nat} {P : Problem n} {d : FaceData n}
    {j : Fin n} {s s' : System n}
    (h : assembleInteriorBoundary P d j s = Except.ok s') :
    System.AgreesOffRow d.globalIdx1 s s' := by
  unfold assembleInteriorBoundary at h
  simp only [Except.bind_eq_ok_iff] at h
  obtain ⟨_, _, h⟩ := h
  split_ifs at h
  · exact interiorNeumannNeumann_agreesOffRow h
  · exact interiorNeumannDirichlet_agreesOffRow h
  · exact interiorDirichletNeumann_agreesOffRow h
  · exact interiorDirichletDirichlet_agreesOffRow h

theorem assembleNeumann_agreesOffRow {n : Nat} {P : Problem n} {d : FaceData n}
    {s s' : System n} (h : assembleNeumann P d s = Except.ok s') :
    System.AgreesOffRow d.globalIdx1 s s' := by
  unfold assembleNeumann at h
  simp only at h
  refine (System.agreesOffRow_subF s d.globalIdx1
    (d.face12vol * neumannFlux d (P.neumannPress d.globalPosFace12 d.isIt))).trans ?_
  split at h
  · split_ifs at h
    · exact neumannBoundaryDirichlet_agreesOffRow h
    · cases h
      exact System.AgreesOffRow.refl _ _
  · simp only [Except.bind_eq_ok_iff] at h
    obtain ⟨_, _, h⟩ := h
    split_ifs at h
    · exact neumannInteriorNeumann_agreesOffRow h
    · exact neumannInteriorDirichlet_agreesOffRow h

theorem assembleDirichlet_agreesOffRow {n : Nat} {P : Problem n} {d : FaceData n}
    {s s' : System n} (h : assembleDirichlet P d s = Except.ok s') :
    System.AgreesOffRow d.globalIdx1 s s' := by
  unfold assembleDirichlet at h
  simp only at h
  split at h
  · split_ifs at h
    · exact dirichletBoundaryDirichlet_agreesOffRow h
    · exact dirichletBoundaryNeumann_agreesOffRow h
  · simp only [Except.bind_eq_ok_iff] at h
    obtain ⟨_, _, h⟩ := h
    split_ifs at h
    · exact dirichletInteriorDirichlet_agreesOffRow h
    · exact dirichletInteriorNeumann_agreesOffRow h

theorem deref_eq_ok {n : Nat} {l : List (Intersection n)} {p : Nat} {x : Intersection n}
    (h : deref l p = Except.ok x) : l[p]? = some x := by
  unfold deref at h
  split at h
  · next y hy => cases h; exact hy
  · cases h

theorem deref_mem {n : Nat} {l : List (Intersection n)} {p : Nat} {x : Intersection n}
    (h : deref l p = Except.ok x) : x ∈ l :=
  List.getElem?_mem (deref_eq_ok h)

/-- What the prelude of a pass of the intersection loop returns. -/
theorem faceData_eq_ok {n : Nat} {P : Problem n} {i : Fin n} {p : Nat} {d : FaceData n}
    (h : faceData P i p = Except.ok d) :
    d.globalIdx1 = i
    ∧ d.isIt ∈ (P.element i).intersections
    ∧ d.nextisIt ∈ (P.element i).intersections
    ∧ d.globalPosFace12 = d.isIt.center
    ∧ d.globalPosFace13 = d.nextisIt.center
    ∧ d.face12vol = d.isIt.volume
    ∧ d.corner1234 = corner1234 d.isIt d.nextisIt
    ∧ d.densityW = P.densityWetting i
    ∧ d.densityNW = P.densityNonwetting i := by
  unfold faceData at h
  simp only [Except.bind_eq_ok_iff] at h
  obtain ⟨q, _, isIt, h1, nextisIt, h2, h⟩ := h
  cases h
  exact ⟨rfl, deref_mem h1, deref_mem h2, rfl, rfl, rfl, rfl, rfl, rfl⟩

theorem assembleFace_agreesOffRow {n : Nat} {P : Problem n} {i : Fin n} {p : Nat}
    {s s' : System n} (h : assembleFace P i s p = Except.ok s') :
    System.AgreesOffRow i s s' := by
  unfold assembleFace at h
  simp only [Except.bind_eq_ok_iff] at h
  obtain ⟨d, hd, h⟩ := h
  rw [← (faceData_eq_ok hd).1]
  split at h
  · split at h
    · exact assembleInteriorInterior_agreesOffRow h
    · exact assembleInteriorBoundary_agreesOffRow h
  · split_ifs at h
    · exact assembleNeumann_agreesOffRow h
    · exact assembleDirichlet_agreesOffRow h

/-- An invariant of the steps of a fold in the `Except` monad holds for its result. -/
theorem foldlM_except_invariant {α β ε : Type} (f : β → α → Except ε β) (Inv : β → Prop)
    (l : List α)
    (hstep : ∀ a, a ∈ l → ∀ b b', Inv b → f b a = Except.ok b' → Inv b') :
    ∀ b b', Inv b → l.foldlM f b = Except.ok b' → Inv b' := by
  induction l with
  | nil =>
    intro b b' hb h
    simp only [List.foldlM, pure, Except.pure] at h
    cases h
    exact hb
  | cons a t ih =>
    intro b b' hb h
    simp only [List.foldlM, Except.bind_eq_ok_iff] at h
    obtain ⟨b1, h1, h2⟩ := h
    exact ih (fun a' ha' => hstep a' (List.mem_cons_of_mem _ ha')) b1 b'
      (hstep a (List.mem_cons_self _ _) b b1 hb h1) h2

theorem assembleElement_agreesOffRow {n : Nat} {P : Problem n} {i : Fin n}
    {s s' : System n} (h : assembleElement P s i = Except.ok s') :
    System.AgreesOffRow i s s' := by
  unfold assembleElement at h
  simp only at h
  split_ifs at h
  · cases h
    exact (System.agreesOffRow_setF _ _ _).trans (System.agreesOffRow_addM _ _ _ _)
  · refine foldlM_except_invariant (assembleFace P i) (fun t => System.AgreesOffRow i s t) _
      (fun p _ b b' hb hs => hb.trans (assembleFace_agreesOffRow hs)) _ _
      (System.agreesOffRow_setF _ _ _) h


/-! ## Row `i` of the system after the element loop -/

/-- In the element loop over a duplicate-free list of cells that contains cell `i`, row `i`
of `M_` and entry `i` of `f_` of the result are those left by the pass of cell `i`, and
that pass starts from a state whose row `i` and entry `i` are the initial ones. -/
theorem foldlM_assembleElement_row {n : Nat} (P : Problem n) (i : Fin n) :
    ∀ (l : List (Fin n)), l.Nodup → i ∈ l → ∀ s s' : System n,
      l.foldlM (assembleElement P) s = Except.ok s' →
      ∃ s1 s2 : System n,
        ((∀ b, s1.M_ i b = s.M_ i b) ∧ s1.f_ i = s.f_ i)
        ∧ assembleElement P s1 i = Except.ok s2
        ∧ ((∀ b, s'.M_ i b = s2.M_ i b) ∧ s'.f_ i = s2.f_ i) := by
  intro l
  induction l with
  | nil => intro _ hmem; cases hmem
  | cons a t ih =>
    intro hnd hmem s s' h
    simp only [List.foldlM, Except.bind_eq_ok_iff] at h
    obtain ⟨sa, hsa, ht⟩ := h
    rw [List.nodup_cons] at hnd
    by_cases hai : a = i
    · subst hai
      refine ⟨s, sa, ⟨fun _ => rfl, rfl⟩, hsa, ?_⟩
      refine foldlM_except_invariant (assembleElement P)
        (fun u => (∀ b, u.M_ a b = sa.M_ a b) ∧ u.f_ a = sa.f_ a) t ?_ sa s'
        ⟨fun _ => rfl, rfl⟩ ht
      intro c hc u u' hu hstep
      have hca : a ≠ c := fun hac => hnd.1 (hac ▸ hc)
      have hfr := assembleElement_agreesOffRow hstep
      exact ⟨fun b => (hfr.1 a b hca).trans (hu.1 b), (hfr.2 a hca).trans hu.2⟩
    · have hmem' : i ∈ t := by
        rcases List.mem_cons.mp hmem with h1 | h1
        · exact absurd h1.symm hai
        · exact h1
      obtain ⟨s1, s2, h1, h2, h3⟩ := ih hnd.2 hmem' sa s' ht
      have hfr := assembleElement_agreesOffRow hsa
      have hia : i ≠ a := fun h => hai h.symm
      exact ⟨s1, s2, ⟨fun b => (h1.1 b).trans (hfr.1 i b hia), h1.2.trans (hfr.2 i hia)⟩, h2, h3⟩

/-- The result of `assemble` at row `i`: the pass of cell `i` of the element loop, started
from a state whose row `i` of `M_` is zero, leaves row `i` of `M_` and entry `i` of `f_`
as they are after `assemble`. -/
theorem assemble_row {n : Nat} {P : Problem n} {s s' : System n}
    (h : assemble P s = Except.ok s') (i : Fin n) :
    ∃ s1 s2 : System n,
      (∀ b, s1.M_ i b = 0)
      ∧ assembleElement P s1 i = Except.ok s2
      ∧ ((∀ b, s'.M_ i b = s2.M_ i b) ∧ s'.f_ i = s2.f_ i) := by
  unfold assemble at h
  simp only [Except.bind_eq_ok_iff, pure, Except.pure] at h
  obtain ⟨t, ht, _, _, h⟩ := h
  cases h
  obtain ⟨s1, s2, h1, h2, h3⟩ :=
    foldlM_assembleElement_row P i (List.finRange n) (List.nodup_finRange n)
      (List.mem_finRange i) _ _ ht
  exact ⟨s1, s2, fun b => by rw [h1.1 b]; rfl, h2, h3⟩

/-- The pass of the element loop for a cell with zero permeability. -/
theorem assembleElement_zero_permeability {n : Nat} {P : Problem n} {i : Fin n}
    (hK : P.intrinsicPermeability (P.element i).center i = 0) (s : System n) :
    assembleElement P s i = Except.ok
      ((s.setF i ((P.element i).volume
        * ((P.source (P.element i).center i).wPhase
          + (P.source (P.element i).center i).nPhase))).addM i i 1) := by
  unfold assembleElement
  simp [hK, pure, Except.pure]

/-- C4: after `assemble`, for every cell `i` whose permeability tensor is zero, row `i` of
`M_` is the identity row: `M_[i][i] = 1` and `M_[i][j] = 0` for every other column `j`,
whatever the neighbours, boundary conditions and mobilities of the cell are. -/
theorem assemble_zero_permeability_row {n : Nat} (P : Problem n) (s s' : System n)
    (h : assemble P s = Except.ok s') (i : Fin n)
    (hK : P.intrinsicPermeability (P.element i).center i = 0) :
    s'.M_ i i = 1 ∧ ∀ j, j ≠ i → s'.M_ i j = 0 := by
  obtain ⟨s1, s2, h1, h2, h3⟩ := assemble_row h i
  rw [assembleElement_zero_permeability hK] at h2
  cases h2
  refine ⟨?_, fun j hj => ?_⟩
  · rw [h3.1 i]
    simp [System.addM, System.setF, h1 i]
  · rw [h3.1 j]
    simp [System.addM, System.setF, h1 j, hj]

/-- The 2x1 grid with Dirichlet boundaries whose cell 1 has zero permeability, for C4:
`assemble` returns `M_ = [[6, 0], [0, 1]]`, and row 1 is the identity row. -/
theorem assemble_zero_permeability_row_witness :
    assemble twoCellZeroPermeabilityProblem (zeroSystem 2)
      = Except.ok { M_ := !![6, 0; 0, 1], f_ := ![9, 3] }
    ∧ twoCellZeroPermeabilityProblem.intrinsicPermeability
        (twoCellZeroPermeabilityProblem.element 1).center 1 = 0
    ∧ ((!![6, 0; 0, 1] : Matrix (Fin 2) (Fin 2) ℚ) 1 1 = 1
      ∧ ∀ j, j ≠ 1 → (!![6, 0; 0, 1] : Matrix (Fin 2) (Fin 2) ℚ) 1 j = 0) :=
  ⟨by decide!, by decide!,
    assemble_zero_permeability_row twoCellZeroPermeabilityProblem (zeroSystem 2)
      { M_ := !![6, 0; 0, 1], f_ := ![9, 3] } (by decide!) 1 (by decide!)⟩

/-- C5, as stated, fails: the single cell with zero permeability and the source `(1, 0)`
has `f_[0] = 1` after `assemble`, not `0` (and `M_[0][0] = 1`). -/
theorem assemble_zero_permeability_rhs_not_zero :
    (oneCellProblem 0 ⟨1, 0⟩ 1).intrinsicPermeability
        ((oneCellProblem 0 ⟨1, 0⟩ 1).element 0).center 0 = 0
    ∧ assemble (oneCellProblem 0 ⟨1, 0⟩ 1) (zeroSystem 1)
        = Except.ok { M_ := !![1], f_ := ![1] }
    ∧ (![1] : Fin 1 → ℚ) 0 ≠ 0 := by
  decide!

/-- C5, amended: after `assemble`, for every cell `i` whose permeability tensor is zero,
the right-hand side entry is the source term of the cell,
`f_[i] = volume_i * (source_w + source_n)`; it is `0` when the source term of the cell is
zero, and then the equation of the cell is `1 * p_i = 0`. -/
theorem assemble_zero_permeability_rhs {n : Nat} (P : Problem n) (s s' : System n)
    (h : assemble P s = Except.ok s') (i : Fin n)
    (hK : P.intrinsicPermeability (P.element i).center i = 0) :
    s'.f_ i = (P.element i).volume
        * ((P.source (P.element i).center i).wPhase + (P.source (P.element i).center i).nPhase)
    ∧ (P.source (P.element i).center i = ⟨0, 0⟩ → s'.f_ i = 0) := by
  obtain ⟨s1, s2, h1, h2, h3⟩ := assemble_row h i
  rw [assembleElement_zero_permeability hK] at h2
  cases h2
  have hf : s'.f_ i = (P.element i).volume
      * ((P.source (P.element i).center i).wPhase
        + (P.source (P.element i).center i).nPhase) := by
    rw [h3.2]
    simp [System.addM, System.setF]
  refine ⟨hf, fun h0 => ?_⟩
  rw [hf, h0]
  simp

/-- The 2x1 grid with Dirichlet boundaries whose cell 1 has zero permeability and the
source `(1, 2)`, for the amended C5: `f_[1] = 1 * (1 + 2) = 3`. -/
theorem assemble_zero_permeability_rhs_witness :
    assemble twoCellZeroPermeabilityProblem (zeroSystem 2)
      = Except.ok { M_ := !![6, 0; 0, 1], f_ := ![9, 3] }
    ∧ (![9, 3] : Fin 2 → ℚ) 1 = (twoCellZeroPermeabilityProblem.element 1).volume
        * ((twoCellZeroPermeabilityProblem.source
              (twoCellZeroPermeabilityProblem.element 1).center 1).wPhase
          + (twoCellZeroPermeabilityProblem.source
              (twoCellZeroPermeabilityProblem.element 1).center 1).nPhase) :=
  ⟨by decide!,
    (assemble_zero_permeability_rhs twoCellZeroPermeabilityProblem (zeroSystem 2)
      { M_ := !![6, 0; 0, 1], f_ := ![9, 3] } (by decide!) 1 (by decide!)).1⟩


/-! ## The right-hand side in a closed domain -/

/-- An invariant of the steps of a fold holds for its result. -/
theorem foldl_invariant {α β : Type} (f : β → α → β) (Inv : β → Prop) (l : List α)
    (hstep : ∀ a, a ∈ l → ∀ b, Inv b → Inv (f b a)) : ∀ b, Inv b → Inv (l.foldl f b) := by
  induction l with
  | nil => intro b hb; exact hb
  | cons a t ih =>
    intro b hb
    exact ih (fun a' ha' => hstep a' (List.mem_cons_of_mem _ ha')) (f b a)
      (hstep a (List.mem_cons_self _ _) b hb)

/-- The boundary-face search returns an intersection of the searched cell. -/
theorem findBoundaryFace_mem {n : Nat} {l : List (Intersection n)} {corner : GlobalPosition}
    {found : Intersection n} (h : findBoundaryFace l corner = some found) : found ∈ l := by
  have key : ∀ x, findBoundaryFace l corner = some x → x ∈ l := by
    unfold findBoundaryFace
    refine foldl_invariant _ (fun acc => ∀ x, acc = some x → x ∈ l) l ?_ _ ?_
    · intro innerisIt hmem acc hacc
      beta_reduce
      split_ifs
      · refine foldl_invariant _ (fun acc => ∀ x, acc = some x → x ∈ l) _ ?_ _ hacc
        intro c _ acc' hacc'
        beta_reduce
        split_ifs
        · intro x hx
          cases hx
          exact hmem
        · exact hacc'
      · exact hacc
    · intro x hx
      exact List.mem_of_mem_head? hx
  exact key found h

theorem derefOption_eq_ok {n : Nat} {o : Option (Intersection n)} {x : Intersection n}
    (h : derefOption o = Except.ok x) : o = some x := by
  unfold derefOption at h
  split at h
  · cases h; rfl
  · cases h

theorem neumannFlux_zero {n : Nat} (d : FaceData n) : neumannFlux d ⟨0, 0⟩ = 0 := by
  simp [neumannFlux]

theorem fourCellScatter_f {n : Nat} (s : System n) (i j k l : Fin n)
    (T : Matrix (Fin 4) (Fin 4) ℚ) : (fourCellScatter s i j k l T).f_ = s.f_ := rfl

theorem interiorNeumannNeumann_f {n : Nat} {s s' : System n} {i j : Fin n}
    {g111 g121 g211 g221 g112 g122 g212 g222 v13 v24 : ℚ}
    (h : interiorNeumannNeumann s i j g111 g121 g211 g221 g112 g122 g212 g222 0 0 v13 v24
      = Except.ok s') : s'.f_ = s.f_ := by
  unfold interiorNeumannNeumann at h
  simp only [bind, Except.bind, pure, Except.pure] at h
  split at h
  · cases h
  · cases h
    funext a
    simp [System.addF, System.addM, umv, Matrix.mulVec, Matrix.dotProduct, Fin.sum_univ_three]

theorem neumannInteriorNeumann_f {n : Nat} {s s' : System n} {i j : Fin n}
    {g111 g121 g211 g221 g113 g123 g213 g223 v12 v34 : ℚ}
    (h : neumannInteriorNeumann s i j g111 g121 g211 g221 g113 g123 g213 g223 0 0 v12 v34
      = Except.ok s') : s'.f_ = s.f_ := by
  unfold neumannInteriorNeumann at h
  simp only [bind, Except.bind, pure, Except.pure] at h
  split at h
  · cases h
  · cases h
    funext a
    simp [System.subF, System.addM, umv, Matrix.mulVec, Matrix.dotProduct, Fin.sum_univ_three]

theorem assembleInteriorInterior_f {n : Nat} {P : Problem n} {d : FaceData n}
    {j k : Fin n} {s s' : System n}
    (h : assembleInteriorInterior P d j k s = Except.ok s') : s'.f_ = s.f_ := by
  unfold assembleInteriorInterior at h
  simp only [Except.bind_eq_ok_iff] at h
  obtain ⟨_, _, _, _, T, _, h⟩ := h
  cases h
  rfl

/-- In a closed domain, with the faces returned by the boundary-face searches covered, a
pass of the intersection loop does not change the right-hand side. -/
theorem assembleFace_closed_f {n : Nat} {P : Problem n} (hclosed : P.ClosedDomain)
    (hsearch : P.BoundarySearchClosed) {i : Fin n} {p : Nat}
    (hp : p ∈ List.range (P.element i).intersections.length) {s s' : System n}
    (h : assembleFace P i s p = Except.ok s') : s'.f_ = s.f_ := by
  unfold assembleFace at h
  simp only [Except.bind_eq_ok_iff] at h
  obtain ⟨d, hd, h⟩ := h
  obtain ⟨_, hisIt, hnext, h12, h13, _, _, _, _⟩ := faceData_eq_ok hd
  have hfound := hsearch i p hp
  unfold searchedBoundaryFace at hfound
  rw [hd] at hfound
  simp only at hfound
  split at h
  · next j hj =>
    split at h
    · exact assembleInteriorInterior_f h
    · next hn =>
      rw [hj, hn] at hfound
      simp only at hfound
      obtain ⟨hbc3, hJ3⟩ := hclosed i d.nextisIt hnext hn
      unfold assembleInteriorBoundary at h
      simp only [Except.bind_eq_ok_iff] at h
      obtain ⟨isIt24, h24, h⟩ := h
      have h24' := derefOption_eq_ok h24
      obtain ⟨hbc4, hJ4⟩ : P.NeumannZeroFlux isIt24 :=
        (hfound isIt24 h24').elim (hclosed j isIt24 (findBoundaryFace_mem h24')) id
      rw [h13, hbc3, hJ3, hbc4, hJ4] at h
      simp only [if_true, neumannFlux_zero] at h
      exact interiorNeumannNeumann_f h
  · next hj =>
    obtain ⟨hbc1, hJ1⟩ := hclosed i d.isIt hisIt hj
    rw [h12, hbc1] at h
    simp only [if_true] at h
    unfold assembleNeumann at h
    rw [h12, hJ1] at h
    simp only [neumannFlux_zero, mul_zero] at h
    have hsub : s.subF d.globalIdx1 0 = s := by
      cases s
      simp [System.subF]
    rw [hsub] at h
    split at h
    · next hn =>
      obtain ⟨hbc3, _⟩ := hclosed i d.nextisIt hnext hn
      rw [h13, hbc3] at h
      simp only [pure, Except.pure] at h
      rw [if_neg (by decide)] at h
      cases h
      rfl
    · next k hn =>
      rw [hj, hn] at hfound
      simp only at hfound
      simp only [Except.bind_eq_ok_iff] at h
      obtain ⟨c, hc, h⟩ := h
      unfold cell3Data at hc
      simp only [Except.bind_eq_ok_iff, pure, Except.pure] at hc
      obtain ⟨isIt34, h34, hc⟩ := hc
      cases hc
      have h34' := derefOption_eq_ok h34
      obtain ⟨hbc2, hJ2⟩ : P.NeumannZeroFlux isIt34 :=
        (hfound isIt34 h34').elim (hclosed k isIt34 (findBoundaryFace_mem h34')) id
      simp only [hbc2, hJ2, if_true, neumannFlux_zero] at h
      exact neumannInteriorNeumann_f h

/-- In a closed domain, with the faces returned by the boundary-face searches covered, the
pass of cell `i` of the element loop leaves the source term in `f_[i]`. -/
theorem assembleElement_closed_f {n : Nat} {P : Problem n} (hclosed : P.ClosedDomain)
    (hsearch : P.BoundarySearchClosed) {i : Fin n} {s s' : System n}
    (h : assembleElement P s i = Except.ok s') :
    s'.f_ i = (P.element i).volume
      * ((P.source (P.element i).center i).wPhase
        + (P.source (P.element i).center i).nPhase) := by
  unfold assembleElement at h
  simp only at h
  split_ifs at h
  · cases h
    simp [System.addM, System.setF]
  · have := foldlM_except_invariant (assembleFace P i)
      (fun t => t.f_ i = (P.element i).volume
        * ((P.source (P.element i).center i).wPhase
          + (P.source (P.element i).center i).nPhase)) _
      (fun p hp b b' hb hs => by
        show b'.f_ i = _
        rw [assembleFace_closed_f hclosed hsearch hp hs]
        exact hb)
      _ _ (by simp [System.setF]) h
    exact this

/-- C7: in a closed domain (every boundary face carries a Neumann condition with zero flux
for both phases; the faces `isIt24` / `isIt34` that `assemble` looks up in a neighbour are
boundary faces too, or faces on which the problem also imposes zero-flux Neumann), when
`assemble` returns (in particular every local matrix is invertible), it has added no
boundary contribution to the right-hand side:
`f_[i] = volume_i * (source_w + source_n)` for every cell `i`, hence the sum of `f_` over
all cells is the sum over the cells of volume times total source. -/
theorem assemble_closed_domain_rhs {n : Nat} (P : Problem n) (s s' : System n)
    (hclosed : P.ClosedDomain) (hsearch : P.BoundarySearchClosed)
    (h : assemble P s = Except.ok s') :
    (∀ i, s'.f_ i = (P.element i).volume
        * ((P.source (P.element i).center i).wPhase
          + (P.source (P.element i).center i).nPhase))
    ∧ ∑ i, s'.f_ i = ∑ i, (P.element i).volume
        * ((P.source (P.element i).center i).wPhase
          + (P.source (P.element i).center i).nPhase) := by
  have hall : ∀ i, s'.f_ i = (P.element i).volume
      * ((P.source (P.element i).center i).wPhase
        + (P.source (P.element i).center i).nPhase) := by
    intro i
    obtain ⟨s1, s2, _, h2, h3⟩ := assemble_row h i
    rw [h3.2]
    exact assembleElement_closed_f hclosed hsearch h2
  exact ⟨hall, Finset.sum_congr rfl (fun i _ => hall i)⟩

/-- The closed 2x1 grid with the source `(1, 2)` in both cells, for C7: the domain is
closed, the searched faces are boundary faces, `assemble` returns, and `f_ = (3, 3)`. -/
theorem assemble_closed_domain_rhs_witness :
    twoCellClosedProblem.ClosedDomain
    ∧ twoCellClosedProblem.BoundarySearchClosed
    ∧ assemble twoCellClosedProblem (zeroSystem 2)
        = Except.ok { M_ := !![1, -1; -1, 1], f_ := ![3, 3] }
    ∧ (∀ i, (![3, 3] : Fin 2 → ℚ) i = (twoCellClosedProblem.element i).volume
        * ((twoCellClosedProblem.source (twoCellClosedProblem.element i).center i).wPhase
          + (twoCellClosedProblem.source (twoCellClosedProblem.element i).center i).nPhase)) :=
  ⟨fun _ _ _ _ => ⟨rfl, rfl⟩,
    by unfold Problem.BoundarySearchClosed Problem.NeumannZeroFlux; decide!, by decide!,
    (assemble_closed_domain_rhs twoCellClosedProblem (zeroSystem 2)
      { M_ := !![1, -1; -1, 1], f_ := ![3, 3] } (fun _ _ _ _ => ⟨rfl, rfl⟩)
      (by unfold Problem.BoundarySearchClosed Problem.NeumannZeroFlux; decide!) (by decide!)).1⟩


/-! ## The four-cell interaction volume next to a cell of zero permeability -/

theorem gCoefficient_zero_permeability (lambda : ℚ) (normal nu : FieldVector) (dF : ℚ) :
    gCoefficient lambda normal 0 nu dF = 0 := by
  simp [gCoefficient, umv]

theorem add_mul_mul_apply_eq_zero (F C Ainv B : Matrix (Fin 4) (Fin 4) ℚ) (r k : Fin 4)
    (hF : F r k = 0) (hB : ∀ j, B j k = 0) : (F + C * Ainv * B) r k = 0 := by
  rw [Matrix.add_apply, hF, Matrix.mul_apply]
  simp [hB]

theorem fourCellT_column_cell2 {g111 g121 g211 g221 g113 g123 g213 g223
    g114 g124 g214 g224 : ℚ} {T : Matrix (Fin 4) (Fin 4) ℚ}
    (hT : fourCellT g111 g121 g211 g221 0 0 0 0 g113 g123 g213 g223 g114 g124 g214 g224
      = Except.ok T) (r : Fin 4) : T r 1 = 0 := by
  unfold fourCellT at hT
  simp only [Except.bind_eq_ok_iff, pure, Except.pure] at hT
  obtain ⟨Ainv, _, hT⟩ := hT
  cases hT
  refine add_mul_mul_apply_eq_zero _ _ _ _ _ _ ?_ ?_
  · fin_cases r <;> first | rfl | (simp; done) | (simp; rfl)
  · intro j
    fin_cases j <;> first | rfl | (simp; done) | (simp; rfl)

theorem fourCellT_column_cell3 {g111 g121 g211 g221 g112 g122 g212 g222
    g114 g124 g214 g224 : ℚ} {T : Matrix (Fin 4) (Fin 4) ℚ}
    (hT : fourCellT g111 g121 g211 g221 g112 g122 g212 g222 0 0 0 0 g114 g124 g214 g224
      = Except.ok T) (r : Fin 4) : T r 2 = 0 := by
  unfold fourCellT at hT
  simp only [Except.bind_eq_ok_iff, pure, Except.pure] at hT
  obtain ⟨Ainv, _, hT⟩ := hT
  cases hT
  refine add_mul_mul_apply_eq_zero _ _ _ _ _ _ ?_ ?_
  · fin_cases r <;> first | rfl | (simp; done) | (simp; rfl)
  · intro j
    fin_cases j <;> first | rfl | (simp; done) | (simp; rfl)

theorem fourCellT_column_cell4 {g111 g121 g211 g221 g112 g122 g212 g222
    g113 g123 g213 g223 : ℚ} {T : Matrix (Fin 4) (Fin 4) ℚ}
    (hT : fourCellT g111 g121 g211 g221 g112 g122 g212 g222 g113 g123 g213 g223 0 0 0 0
      = Except.ok T) (r : Fin 4) : T r 3 = 0 := by
  unfold fourCellT at hT
  simp only [Except.bind_eq_ok_iff, pure, Except.pure] at hT
  obtain ⟨Ainv, _, hT⟩ := hT
  cases hT
  refine add_mul_mul_apply_eq_zero _ _ _ _ _ _ ?_ ?_
  · fin_cases r <;> first | rfl | simp
  · intro j
    fin_cases j <;> first | rfl | (simp; done) | (simp; rfl)

/-- C6: in a four-cell interaction volume whose local matrix `A` is invertible (the
computation of `T = C A^{-1} B + F` returns) and whose area normalisers are nonzero, if a
neighbour cell (local cell 2, 3 or 4) has the zero permeability tensor, then the
corresponding column of `T` (column 1, 2 or 3) is zero, so the contribution
`T[0][k] + T[2][k]` added to the entry of `M_` that couples cell 1 to that neighbour
is 0. -/
theorem fourCellTransmissibility_zero_permeability_column
    (g111 g121 g211 g221 lambda2 lambda3 lambda4 : ℚ)
    (integrationOuterNormaln1 integrationOuterNormaln2 integrationOuterNormaln3
      integrationOuterNormaln4 : FieldVector)
    (K2 K3 K4 : FieldMatrix)
    (globalPos2 globalPos3 globalPos4 globalPosFace12 globalPosFace13 globalPosFace24
      globalPosFace34 : GlobalPosition)
    (T : Matrix (Fin 4) (Fin 4) ℚ)
    (_hdF2 : dF (umv R (globalPosFace24 - globalPos2) 0)
      (umv R (globalPosFace12 - globalPos2) 0) ≠ 0)
    (_hdF3 : dF (umv R (globalPos3 - globalPosFace13) 0)
      (umv R (globalPos3 - globalPosFace34) 0) ≠ 0)
    (_hdF4 : dF (umv R (globalPos4 - globalPosFace24) 0)
      (umv R (globalPosFace34 - globalPos4) 0) ≠ 0)
    (hT : fourCellTransmissibility g111 g121 g211 g221 lambda2 lambda3 lambda4
      integrationOuterNormaln1 integrationOuterNormaln2 integrationOuterNormaln3
      integrationOuterNormaln4 K2 K3 K4 globalPos2 globalPos3 globalPos4 globalPosFace12
      globalPosFace13 globalPosFace24 globalPosFace34 = Except.ok T) :
    (K2 = 0 → (∀ r, T r 1 = 0) ∧ T 0 1 + T 2 1 = 0)
    ∧ (K3 = 0 → (∀ r, T r 2 = 0) ∧ T 0 2 + T 2 2 = 0)
    ∧ (K4 = 0 → (∀ r, T r 3 = 0) ∧ T 0 3 + T 2 3 = 0) := by
  unfold fourCellTransmissibility at hT
  simp only at hT
  refine ⟨fun hK => ?_, fun hK => ?_, fun hK => ?_⟩
  · subst hK
    simp only [gCoefficient_zero_permeability] at hT
    exact ⟨fourCellT_column_cell2 hT,
      by rw [fourCellT_column_cell2 hT 0, fourCellT_column_cell2 hT 2, add_zero]⟩
  · subst hK
    simp only [gCoefficient_zero_permeability] at hT
    exact ⟨fourCellT_column_cell3 hT,
      by rw [fourCellT_column_cell3 hT 0, fourCellT_column_cell3 hT 2, add_zero]⟩
  · subst hK
    simp only [gCoefficient_zero_permeability] at hT
    exact ⟨fourCellT_column_cell4 hT,
      by rw [fourCellT_column_cell4 hT 0, fourCellT_column_cell4 hT 2, add_zero]⟩

/-- The interaction volume around the corner `(1, 1)` of the 2x2 grid of unit squares, seen
from the cell `[0,1]x[0,1]` with `isIt` its right and `nextisIt` its top face, unit
mobilities, identity permeability in the cells 1, 3 and 4 and zero permeability in
cell 2, for C6: the area normalisers are nonzero, `T` is computed, and its column 1 is
zero. -/
theorem fourCellTransmissibility_zero_permeability_column_witness :
    fourCellTransmissibility 1 0 0 1 1 1 1 ![1/2, 0] ![1/2, 0] ![0, 1/2] ![0, 1/2] 0 1 1
        ![3/2, 1/2] ![1/2, 3/2] ![3/2, 3/2] ![1, 1/2] ![1/2, 1] ![3/2, 1] ![1, 3/2]
      = Except.ok !![0, 0, 0, 0; 0, 0, 1/2, -1/2; 1/2, 0, -1/2, 0; 0, 0, 0, 0]
    ∧ ((0 : FieldMatrix) = 0 →
      (∀ r, (!![0, 0, 0, 0; 0, 0, 1/2, -1/2; 1/2, 0, -1/2, 0; 0, 0, 0, 0] :
          Matrix (Fin 4) (Fin 4) ℚ) r 1 = 0)
      ∧ (!![0, 0, 0, 0; 0, 0, 1/2, -1/2; 1/2, 0, -1/2, 0; 0, 0, 0, 0] :
          Matrix (Fin 4) (Fin 4) ℚ) 0 1
        + (!![0, 0, 0, 0; 0, 0, 1/2, -1/2; 1/2, 0, -1/2, 0; 0, 0, 0, 0] :
          Matrix (Fin 4) (Fin 4) ℚ) 2 1 = 0) :=
  ⟨by decide!,
    (fourCellTransmissibility_zero_permeability_column 1 0 0 1 1 1 1
      ![1/2, 0] ![1/2, 0] ![0, 1/2] ![0, 1/2] 0 1 1
      ![3/2, 1/2] ![1/2, 3/2] ![3/2, 3/2] ![1, 1/2] ![1/2, 1] ![3/2, 1] ![1, 3/2]
      !![0, 0, 0, 0; 0, 0, 1/2, -1/2; 1/2, 0, -1/2, 0; 0, 0, 0, 0]
      (by decide!) (by decide!) (by decide!) (by decide!)).1⟩


/-! ## The single cell with Dirichlet boundaries -/

/-- On a single-cell grid whose faces all carry the Dirichlet value `g`, a pass of the
intersection loop whose prelude returns `d` adds `T = g111 + g121 + (g211 + g221)` to
`M_[0][0]` and `g * T` to `f_[0]`. -/
theorem assembleFace_allDirichlet_eq {P : Problem 1} {g : ℚ} (hD : P.AllDirichlet g) {p : Nat}
    {d : FaceData 1} (hd : faceData P 0 p = Except.ok d) (s : System 1) :
    assembleFace P 0 s p = Except.ok
      ((s.addM 0 0 (d.g111 + d.g121 + (d.g211 + d.g221))).addF 0
        (g * (d.g111 + d.g121 + (d.g211 + d.g221)))) := by
  obtain ⟨h1, hisIt, hnext, h12, h13, _, _, _, _⟩ := faceData_eq_ok hd
  obtain ⟨ho, hbc, hg⟩ := hD d.isIt hisIt
  obtain ⟨ho3, hbc3, hg3⟩ := hD d.nextisIt hnext
  unfold assembleFace
  simp only [hd, bind, Except.bind, ho, h12, hbc]
  rw [if_neg (by decide)]
  unfold assembleDirichlet
  simp only [ho3, h12, h13, hbc3, hg, hg3, if_true]
  unfold dirichletBoundaryDirichlet
  simp only [pure, Except.pure, h1]
  congr 2
  ring

theorem assembleFace_allDirichlet {P : Problem 1} {g : ℚ} (hD : P.AllDirichlet g) {p : Nat}
    {s s' : System 1} (h : assembleFace P 0 s p = Except.ok s') :
    ∃ T : ℚ, s' = (s.addM 0 0 T).addF 0 (g * T) := by
  have h' := h
  unfold assembleFace at h'
  simp only [Except.bind_eq_ok_iff] at h'
  obtain ⟨d, hd, _⟩ := h'
  rw [assembleFace_allDirichlet_eq hD hd s] at h
  cases h
  exact ⟨_, rfl⟩

theorem oneCellProblem_allDirichlet (K : FieldMatrix) (source : PhaseVector) (g : ℚ) :
    (oneCellProblem K source g).AllDirichlet g := by
  intro isIt h
  simp only [oneCellProblem, yaspUnitSquare, List.mem_cons, List.mem_singleton,
    List.not_mem_nil, or_false] at h
  rcases h with rfl | rfl | rfl | rfl <;> exact ⟨rfl, rfl, rfl⟩

/-- Each of the four corners of the unit square with identity permeability and total
mobility 1 has `g111 + g121 + (g211 + g221) = 2`. -/
theorem oneCellProblem_faceData (g : ℚ) (p : Fin 4) :
    ∃ d, faceData (oneCellProblem 1 ⟨0, 0⟩ g) 0 p.val = Except.ok d
      ∧ d.g111 + d.g121 + (d.g211 + d.g221) = 2 := by
  have h0 : ∀ p : Fin 4, (faceData (oneCellProblem 1 ⟨0, 0⟩ 0) 0 p.val).map
      (fun d => d.g111 + d.g121 + (d.g211 + d.g221)) = Except.ok 2 := by decide!
  have hp := h0 p
  have hrfl : faceData (oneCellProblem 1 ⟨0, 0⟩ g) 0 p.val
      = faceData (oneCellProblem 1 ⟨0, 0⟩ 0) 0 p.val := rfl
  rw [hrfl]
  cases hfd : faceData (oneCellProblem 1 ⟨0, 0⟩ 0) 0 p.val with
  | error e => rw [hfd] at hp; cases hp
  | ok d =>
    rw [hfd] at hp
    simp only [Except.map, Except.ok.injEq] at hp
    exact ⟨d, rfl, hp⟩

theorem oneCellProblem_assembleFace (g : ℚ) (p : Fin 4) (s : System 1) :
    assembleFace (oneCellProblem 1 ⟨0, 0⟩ g) 0 s p.val = Except.ok (oneCellCorner g s) := by
  obtain ⟨d, hd, h2⟩ := oneCellProblem_faceData g p
  rw [assembleFace_allDirichlet_eq (oneCellProblem_allDirichlet _ _ _) hd s, h2]
  rfl

theorem assemble_eq_ok_of {n : Nat} {P : Problem n} {s t : System n}
    (hfold : (List.finRange n).foldlM (assembleElement P) { s with M_ := 0 } = Except.ok t)
    (hcount : ∃ c, countNonzero P t.M_ = Except.ok c) : assemble P s = Except.ok t := by
  obtain ⟨c, hc⟩ := hcount
  unfold assemble
  rw [hfold]
  simp only [bind, Except.bind, hc, pure, Except.pure]

/-- The result of `assemble` for the unit square with identity permeability, total
mobility 1, zero source and the Dirichlet value `g` on all four faces. -/
theorem oneCellProblem_assemble (g : ℚ) (s : System 1) :
    assemble (oneCellProblem 1 ⟨0, 0⟩ g) s = Except.ok { M_ := !![8], f_ := ![8 * g] } := by
  have hcount : ∀ M : Matrix (Fin 1) (Fin 1) ℚ,
      ∃ c, countNonzero (oneCellProblem 1 ⟨0, 0⟩ g) M = Except.ok c := by
    intro M
    simp [countNonzero, countFace, assemble_count_nextisIt, deref, oneCellProblem,
      yaspUnitSquare, List.finRange, List.range, List.range.loop, List.foldlM, pure,
      Except.pure, bind, Except.bind]
  have hK : ¬ ((1 : FieldMatrix) 0 0 = 0 ∧ (1 : FieldMatrix) 0 1 = 0
      ∧ (1 : FieldMatrix) 1 0 = 0 ∧ (1 : FieldMatrix) 1 1 = 0) := by
    simp
  have hlen : ((oneCellProblem 1 ⟨0, 0⟩ g).element 0).intersections.length = 4 := rfl
  have helem : ∀ t : System 1, assembleElement (oneCellProblem 1 ⟨0, 0⟩ g) t 0
      = Except.ok (oneCellCorner g (oneCellCorner g (oneCellCorner g (oneCellCorner g
          (t.setF 0 0))))) := by
    intro t
    unfold assembleElement
    simp only [hlen]
    have hsrc : (oneCellProblem 1 ⟨0, 0⟩ g).source
        ((oneCellProblem 1 ⟨0, 0⟩ g).element 0).center 0 = ⟨0, 0⟩ := rfl
    have hperm : (oneCellProblem 1 ⟨0, 0⟩ g).intrinsicPermeability
        ((oneCellProblem 1 ⟨0, 0⟩ g).element 0).center 0 = 1 := rfl
    rw [hsrc, hperm, if_neg hK]
    have hrange : List.range 4 = [((0 : Fin 4) : Nat), ((1 : Fin 4) : Nat),
        ((2 : Fin 4) : Nat), ((3 : Fin 4) : Nat)] := by decide
    rw [hrange]
    simp only [List.foldlM, oneCellProblem_assembleFace, bind, Except.bind, pure, Except.pure,
      add_zero, mul_zero]
  have hfin : List.finRange 1 = [0] := by decide
  have hfold : (List.finRange 1).foldlM (assembleElement (oneCellProblem 1 ⟨0, 0⟩ g))
      { s with M_ := 0 }
      = Except.ok (oneCellCorner g (oneCellCorner g (oneCellCorner g (oneCellCorner g
          (({ s with M_ := 0 } : System 1).setF 0 0))))) := by
    rw [hfin]
    simp only [List.foldlM, helem, bind, Except.bind, pure, Except.pure]
  rw [assemble_eq_ok_of hfold (hcount _)]
  congr 1
  have hM : ∀ a b : Fin 1, a = 0 ∧ b = 0 :=
    fun a b => ⟨Subsingleton.elim _ _, Subsingleton.elim _ _⟩
  have hf : ∀ a : Fin 1, a = 0 := fun a => Subsingleton.elim _ _
  simp only [oneCellCorner, System.addM, System.addF, System.setF]
  congr 1
  · funext a b
    rw [(hM a b).1, (hM a b).2]
    simp
    norm_num
  · funext a
    rw [hf a]
    simp
    ring

/-- On a single-cell grid with zero source and nonzero permeability whose faces all carry
the Dirichlet value `g`, `assemble` yields `f_[0] = g * M_[0][0]`. -/
theorem assemble_allDirichlet_rhs {P : Problem 1} {g : ℚ} {s s' : System 1}
    (hD : P.AllDirichlet g) (hsource : P.source (P.element 0).center 0 = ⟨0, 0⟩)
    (hK : P.intrinsicPermeability (P.element 0).center 0 ≠ 0)
    (h : assemble P s = Except.ok s') : s'.f_ 0 = g * s'.M_ 0 0 := by
  obtain ⟨s1, s2, h1, h2, h3⟩ := assemble_row h 0
  rw [h3.1 0, h3.2]
  unfold assembleElement at h2
  simp only at h2
  have hK' : ¬ (P.intrinsicPermeability (P.element 0).center 0 0 0 = 0
      ∧ P.intrinsicPermeability (P.element 0).center 0 0 1 = 0
      ∧ P.intrinsicPermeability (P.element 0).center 0 1 0 = 0
      ∧ P.intrinsicPermeability (P.element 0).center 0 1 1 = 0) := by
    rintro ⟨h00, h01, h10, h11⟩
    apply hK
    funext a b
    fin_cases a <;> fin_cases b <;> assumption
  rw [if_neg hK', hsource] at h2
  refine foldlM_except_invariant (assembleFace P 0) (fun t => t.f_ 0 = g * t.M_ 0 0) _
    ?_ _ _ ?_ h2
  · intro p _ b b' hb hstep
    obtain ⟨T, rfl⟩ := assembleFace_allDirichlet hD hstep
    simp only [System.addM, System.addF, and_self, if_true]
    rw [hb]
    ring
  · simp [System.setF, h1 0]

/-- C3, as stated, fails: the single unit square cell with zero permeability, zero source
and the Dirichlet value `1` on all four faces has `M_[0][0] = 1` and `f_[0] = 0` after
`assemble`, so `f_[0]` is not `g * M_[0][0] = 1`. -/
theorem assemble_allDirichlet_zero_permeability :
    (oneCellProblem 0 ⟨0, 0⟩ 1).AllDirichlet 1
    ∧ (oneCellProblem 0 ⟨0, 0⟩ 1).source ((oneCellProblem 0 ⟨0, 0⟩ 1).element 0).center 0
        = ⟨0, 0⟩
    ∧ assemble (oneCellProblem 0 ⟨0, 0⟩ 1) (zeroSystem 1)
        = Except.ok { M_ := !![1], f_ := ![0] }
    ∧ (![0] : Fin 1 → ℚ) 0 ≠ 1 * (!![1] : Matrix (Fin 1) (Fin 1) ℚ) 0 0 :=
  ⟨oneCellProblem_allDirichlet _ _ _, rfl, by decide!, by decide!⟩

/-- C3, amended: for a single-cell grid whose faces are all Dirichlet with the same
pressure value `g`, whose source term is zero and whose permeability tensor is not the
zero matrix, `assemble` yields `f_[0] = g * M_[0][0]`; for the unit square with identity
permeability and total mobility 1, `M_[0][0] = 8` and `f_[0] = 8 g` (whatever `M_` and
`f_` held before), so that the solution of `M_ p = f_` is exactly `p = g`. -/
theorem assemble_allDirichlet_singleCell :
    (∀ (P : Problem 1) (g : ℚ) (s s' : System 1),
      P.AllDirichlet g → P.source (P.element 0).center 0 = ⟨0, 0⟩ →
      P.intrinsicPermeability (P.element 0).center 0 ≠ 0 →
      assemble P s = Except.ok s' → s'.f_ 0 = g * s'.M_ 0 0)
    ∧ (∀ (g : ℚ) (s : System 1),
      assemble (oneCellProblem 1 ⟨0, 0⟩ g) s = Except.ok { M_ := !![8], f_ := ![8 * g] }
      ∧ ∀ p : Fin 1 → ℚ,
        (!![8] : Matrix (Fin 1) (Fin 1) ℚ).mulVec p = ![8 * g] ↔ p = ![g]) := by
  refine ⟨fun P g s s' hD hsource hK h => assemble_allDirichlet_rhs hD hsource hK h,
    fun g s => ⟨oneCellProblem_assemble g s, fun p => ?_⟩⟩
  constructor
  · intro h
    have h0 := congrFun h 0
    simp [Matrix.mulVec, Matrix.dotProduct] at h0
    funext a
    fin_cases a
    simpa using h0
  · rintro rfl
    funext a
    fin_cases a
    simp [Matrix.mulVec, Matrix.dotProduct]

/-- The unit square with identity permeability and the Dirichlet value `1`, for the
amended C3: the hypotheses hold and `f_[0] = 8 = 1 * M_[0][0]`. -/
theorem assemble_allDirichlet_singleCell_witness :
    (oneCellProblem 1 ⟨0, 0⟩ 1).AllDirichlet 1
    ∧ (oneCellProblem 1 ⟨0, 0⟩ 1).intrinsicPermeability
        ((oneCellProblem 1 ⟨0, 0⟩ 1).element 0).center 0 ≠ 0
    ∧ assemble (oneCellProblem 1 ⟨0, 0⟩ 1) (zeroSystem 1)
        = Except.ok { M_ := !![8], f_ := ![8] }
    ∧ (![8] : Fin 1 → ℚ) 0 = 1 * (!![8] : Matrix (Fin 1) (Fin 1) ℚ) 0 0 :=
  ⟨oneCellProblem_allDirichlet _ _ _, by decide!, by decide!,
    assemble_allDirichlet_singleCell.1 (oneCellProblem 1 ⟨0, 0⟩ 1) 1 (zeroSystem 1)
      { M_ := !![8], f_ := ![8] } (oneCellProblem_allDirichlet _ _ _) rfl (by decide!)
      (by decide!)⟩


/-! ## The passes of `assemble` commute with adding a system

Every branch only adds to `M_` and `f_`, with increments that do not depend on their
content. -/

theorem System.addM_add {n : Nat} (s t : System n) (i j : Fin n) (v : ℚ) :
    (s.add t).addM i j v = (s.addM i j v).add t := by
  simp only [System.add, System.addM, System.mk.injEq, and_true]
  funext a b
  simp only [Matrix.add_apply]
  split_ifs <;> ring

theorem System.addF_add {n : Nat} (s t : System n) (i : Fin n) (v : ℚ) :
    (s.add t).addF i v = (s.addF i v).add t := by
  simp only [System.add, System.addF, System.mk.injEq, true_and]
  funext a
  simp only [Pi.add_apply]
  split_ifs <;> ring

theorem System.subF_add {n : Nat} (s t : System n) (i : Fin n) (v : ℚ) :
    (s.add t).subF i v = (s.subF i v).add t := by
  simp only [System.add, System.subF, System.mk.injEq, true_and]
  funext a
  simp only [Pi.add_apply]
  split_ifs <;> ring

theorem interiorNeumannNeumann_add {n : Nat} (s t : System n) (i j : Fin n)
    (g111 g121 g211 g221 g112 g122 g212 g222 J3 J4 v13 v24 : ℚ) :
    interiorNeumannNeumann (s.add t) i j g111 g121 g211 g221 g112 g122 g212 g222 J3 J4 v13 v24
      = (interiorNeumannNeumann s i j g111 g121 g211 g221 g112 g122 g212 g222 J3 J4 v13 v24).map (fun r => r.add t) := by
  unfold interiorNeumannNeumann
  simp only [bind, Except.bind, pure, Except.pure]
  split <;> simp only [Except.map, System.addM_add, System.addF_add, System.subF_add]

theorem interiorNeumannDirichlet_add {n : Nat} (s t : System n) (i j : Fin n)
    (g111 g121 g211 g221 g112 g122 J3 g4 v13 : ℚ) :
    interiorNeumannDirichlet (s.add t) i j g111 g121 g211 g221 g112 g122 J3 g4 v13
      = (interiorNeumannDirichlet s i j g111 g121 g211 g221 g112 g122 J3 g4 v13).map (fun r => r.add t) := by
  unfold interiorNeumannDirichlet
  simp only [bind, Except.bind, pure, Except.pure]
  split <;> simp only [Except.map, System.addM_add, System.addF_add, System.subF_add]

theorem interiorDirichletNeumann_add {n : Nat} (s t : System n) (i j : Fin n)
    (g111 g121 g211 g221 g112 g122 g212 g222 g3 J4 v24 : ℚ) :
    interiorDirichletNeumann (s.add t) i j g111 g121 g211 g221 g112 g122 g212 g222 g3 J4 v24
      = (interiorDirichletNeumann s i j g111 g121 g211 g221 g112 g122 g212 g222 g3 J4 v24).map (fun r => r.add t) := by
  unfold interiorDirichletNeumann
  simp only [bind, Except.bind, pure, Except.pure]
  split <;> simp only [Except.map, System.addM_add, System.addF_add, System.subF_add]

theorem interiorDirichletDirichlet_add {n : Nat} (s t : System n) (i j : Fin n)
    (g111 g121 g211 g221 g112 g122 g3 g4 : ℚ) :
    interiorDirichletDirichlet (s.add t) i j g111 g121 g211 g221 g112 g122 g3 g4
      = (interiorDirichletDirichlet s i j g111 g121 g211 g221 g112 g122 g3 g4).map (fun r => r.add t) := by
  unfold interiorDirichletDirichlet
  simp only [bind, Except.bind, pure, Except.pure]
  simp only [Except.map, System.addM_add, System.addF_add, System.subF_add]

theorem neumannBoundaryDirichlet_add {n : Nat} (s t : System n) (i : Fin n)
    (g111 g121 g211 g221 g3 J1 v12 : ℚ) :
    neumannBoundaryDirichlet (s.add t) i g111 g121 g211 g221 g3 J1 v12
      = (neumannBoundaryDirichlet s i g111 g121 g211 g221 g3 J1 v12).map (fun r => r.add t) := by
  unfold neumannBoundaryDirichlet
  simp only [bind, Except.bind, pure, Except.pure]
  simp only [Except.map, System.addM_add, System.addF_add, System.subF_add]

theorem neumannInteriorNeumann_add {n : Nat} (s t : System n) (i j : Fin n)
    (g111 g121 g211 g221 g113 g123 g213 g223 J1 J2 v12 v34 : ℚ) :
    neumannInteriorNeumann (s.add t) i j g111 g121 g211 g221 g113 g123 g213 g223 J1 J2 v12 v34
      = (neumannInteriorNeumann s i j g111 g121 g211 g221 g113 g123 g213 g223 J1 J2 v12 v34).map (fun r => r.add t) := by
  unfold neumannInteriorNeumann
  simp only [bind, Except.bind, pure, Except.pure]
  split <;> simp only [Except.map, System.addM_add, System.addF_add, System.subF_add]

theorem neumannInteriorDirichlet_add {n : Nat} (s t : System n) (i j : Fin n)
    (g111 g121 g211 g221 g213 g223 J1 g2 v12 : ℚ) :
    neumannInteriorDirichlet (s.add t) i j g111 g121 g211 g221 g213 g223 J1 g2 v12
      = (neumannInteriorDirichlet s i j g111 g121 g211 g221 g213 g223 J1 g2 v12).map (fun r => r.add t) := by
  unfold neumannInteriorDirichlet
  simp only [bind, Except.bind, pure, Except.pure]
  split <;> simp only [Except.map, System.addM_add, System.addF_add, System.subF_add]

theorem dirichletBoundaryDirichlet_add {n : Nat} (s t : System n) (i : Fin n)
    (g111 g121 g211 g221 g1 g3 : ℚ) :
    dirichletBoundaryDirichlet (s.add t) i g111 g121 g211 g221 g1 g3
      = (dirichletBoundaryDirichlet s i g111 g121 g211 g221 g1 g3).map (fun r => r.add t) := by
  unfold dirichletBoundaryDirichlet
  simp only [bind, Except.bind, pure, Except.pure]
  simp only [Except.map, System.addM_add, System.addF_add, System.subF_add]

theorem dirichletBoundaryNeumann_add {n : Nat} (s t : System n) (i : Fin n)
    (g111 g121 g211 g221 g1 J3 v13 : ℚ) :
    dirichletBoundaryNeumann (s.add t) i g111 g121 g211 g221 g1 J3 v13
      = (dirichletBoundaryNeumann s i g111 g121 g211 g221 g1 J3 v13).map (fun r => r.add t) := by
  unfold dirichletBoundaryNeumann
  simp only [bind, Except.bind, pure, Except.pure]
  simp only [Except.map, System.addM_add, System.addF_add, System.subF_add]

theorem dirichletInteriorDirichlet_add {n : Nat} (s t : System n) (i j : Fin n)
    (g111 g121 g211 g221 g213 g223 g1 g2 : ℚ) :
    dirichletInteriorDirichlet (s.add t) i j g111 g121 g211 g221 g213 g223 g1 g2
      = (dirichletInteriorDirichlet s i j g111 g121 g211 g221 g213 g223 g1 g2).map (fun r => r.add t) := by
  unfold dirichletInteriorDirichlet
  simp only [bind, Except.bind, pure, Except.pure]
  simp only [Except.map, System.addM_add, System.addF_add, System.subF_add]

theorem dirichletInteriorNeumann_add {n : Nat} (s t : System n) (i j : Fin n)
    (g111 g121 g211 g221 g113 g123 g213 g223 g1 J2 v34 : ℚ) :
    dirichletInteriorNeumann (s.add t) i j g111 g121 g211 g221 g113 g123 g213 g223 g1 J2 v34
      = (dirichletInteriorNeumann s i j g111 g121 g211 g221 g113 g123 g213 g223 g1 J2 v34).map (fun r => r.add t) := by
  unfold dirichletInteriorNeumann
  simp only [bind, Except.bind, pure, Except.pure]
  split <;> simp only [Except.map, System.addM_add, System.addF_add, System.subF_add]

theorem fourCellScatter_add {n : Nat} (s t : System n) (i j k l : Fin n)
    (T : Matrix (Fin 4) (Fin 4) ℚ) :
    fourCellScatter (s.add t) i j k l T = (fourCellScatter s i j k l T).add t := by
  simp only [fourCellScatter, System.addM_add]

theorem Except.map_bind {ε α β γ : Type} (x : Except ε α) (f : α → Except ε β) (g : β → γ) :
    (x >>= f).map g = x >>= fun a => (f a).map g := by
  cases x <;> rfl

theorem assembleInteriorInterior_add {n : Nat} (P : Problem n) (d : FaceData n)
    (j k : Fin n) (s t : System n) :
    assembleInteriorInterior P d j k (s.add t)
      = (assembleInteriorInterior P d j k s).map (fun r => r.add t) := by
  unfold assembleInteriorInterior
  simp only [Except.map_bind, fourCellScatter_add]
  rfl

theorem assembleInteriorBoundary_add {n : Nat} (P : Problem n) (d : FaceData n)
    (j : Fin n) (s t : System n) :
    assembleInteriorBoundary P d j (s.add t)
      = (assembleInteriorBoundary P d j s).map (fun r => r.add t) := by
  unfold assembleInteriorBoundary
  simp only [Except.map_bind]
  congr 1
  funext isIt24
  split_ifs
  · exact interiorNeumannNeumann_add _ _ _ _ _ _ _ _ _ _ _ _ _ _ _ _
  · exact interiorNeumannDirichlet_add _ _ _ _ _ _ _ _ _ _ _ _ _
  · exact interiorDirichletNeumann_add _ _ _ _ _ _ _ _ _ _ _ _ _ _ _
  · exact interiorDirichletDirichlet_add _ _ _ _ _ _ _ _ _ _ _ _

theorem assembleNeumann_add {n : Nat} (P : Problem n) (d : FaceData n) (s t : System n) :
    assembleNeumann P d (s.add t) = (assembleNeumann P d s).map (fun r => r.add t) := by
  unfold assembleNeumann
  simp only [System.subF_add]
  split
  · split_ifs
    · exact neumannBoundaryDirichlet_add _ _ _ _ _ _ _ _ _ _
    · rfl
  · simp only [Except.map_bind]
    congr 1
    funext c
    split_ifs
    · exact neumannInteriorNeumann_add _ _ _ _ _ _ _ _ _ _ _ _ _ _ _ _
    · exact neumannInteriorDirichlet_add _ _ _ _ _ _ _ _ _ _ _ _ _

theorem assembleDirichlet_add {n : Nat} (P : Problem n) (d : FaceData n) (s t : System n) :
    assembleDirichlet P d (s.add t) = (assembleDirichlet P d s).map (fun r => r.add t) := by
  unfold assembleDirichlet
  simp only
  split
  · split_ifs
    · exact dirichletBoundaryDirichlet_add _ _ _ _ _ _ _ _ _
    · exact dirichletBoundaryNeumann_add _ _ _ _ _ _ _ _ _ _
  · simp only [Except.map_bind]
    congr 1
    funext c
    split_ifs
    · exact dirichletInteriorDirichlet_add _ _ _ _ _ _ _ _ _ _ _ _
    · exact dirichletInteriorNeumann_add _ _ _ _ _ _ _ _ _ _ _ _ _ _ _

theorem assembleFace_add {n : Nat} (P : Problem n) (i : Fin n) (s t : System n) (p : Nat) :
    assembleFace P i (s.add t) p = (assembleFace P i s p).map (fun r => r.add t) := by
  unfold assembleFace
  simp only [Except.map_bind]
  congr 1
  funext d
  split
  · split
    · exact assembleInteriorInterior_add _ _ _ _ _ _
    · exact assembleInteriorBoundary_add _ _ _ _ _
  · split_ifs
    · exact assembleNeumann_add _ _ _ _
    · exact assembleDirichlet_add _ _ _ _

theorem foldlM_assembleFace_add {n : Nat} (P : Problem n) (i : Fin n) (t : System n) :
    ∀ (l : List Nat) (s : System n),
      l.foldlM (assembleFace P i) (s.add t)
        = (l.foldlM (assembleFace P i) s).map (fun r => r.add t) := by
  intro l
  induction l with
  | nil => intro s; rfl
  | cons p l ih =>
    intro s
    simp only [List.foldlM, assembleFace_add]
    cases assembleFace P i s p with
    | error e => rfl
    | ok s1 => exact ih s1

theorem System.add_zero_rhs {n : Nat} (s : System n) (δ : Fin n → ℚ) (hδ : ∀ a, δ a = 0) :
    s.add { M_ := 0, f_ := δ } = s := by
  cases s
  simp only [System.add, add_zero, System.mk.injEq, true_and]
  funext a
  simp [hδ a]

/-- The pass of cell `i` of the element loop overwrites `f_[i]` and commutes with adding a
right-hand side to the other entries. -/
theorem assembleElement_add_rhs {n : Nat} (P : Problem n) (i : Fin n) (t : System n)
    (δ : Fin n → ℚ) :
    assembleElement P (t.add { M_ := 0, f_ := δ }) i
      = (assembleElement P t i).map
          (fun r => r.add { M_ := 0, f_ := fun a => if a = i then 0 else δ a }) := by
  have hset : ∀ v : ℚ, (t.add { M_ := 0, f_ := δ }).setF i v
      = (t.setF i v).add { M_ := 0, f_ := fun a => if a = i then 0 else δ a } := by
    intro v
    simp only [System.add, System.setF, System.mk.injEq, true_and]
    funext a
    simp only [Pi.add_apply]
    split_ifs <;> simp
  unfold assembleElement
  simp only [hset]
  split_ifs
  · simp only [pure, Except.pure, Except.map, System.addM_add]
  · exact foldlM_assembleFace_add P i _ _ _

theorem foldlM_assembleElement_add_rhs {n : Nat} (P : Problem n) :
    ∀ (l : List (Fin n)) (t : System n) (δ : Fin n → ℚ),
      l.foldlM (assembleElement P) (t.add { M_ := 0, f_ := δ })
        = (l.foldlM (assembleElement P) t).map
            (fun r => r.add { M_ := 0, f_ := fun a => if a ∈ l then 0 else δ a }) := by
  intro l
  induction l with
  | nil =>
    intro t δ
    simp only [List.foldlM, pure, Except.pure, Except.map, List.not_mem_nil, if_false]
  | cons i l ih =>
    intro t δ
    simp only [List.foldlM, assembleElement_add_rhs]
    cases assembleElement P t i with
    | error e => rfl
    | ok t1 =>
      simp only [Except.map, bind, Except.bind]
      rw [ih t1]
      congr 1
      funext r
      congr 2
      funext a
      simp only [List.mem_cons]
      by_cases h1 : a ∈ l
      · simp [h1]
      · by_cases h2 : a = i
        · simp [h2]
        · simp [h1, h2]

/-- The result of `assemble` does not depend on what `M_` and `f_` held before the call. -/
theorem assemble_independent_of_previous {n : Nat} (P : Problem n) (s t : System n) :
    assemble P s = assemble P t := by
  have hs : ({ s with M_ := 0 } : System n)
      = ({ t with M_ := 0 } : System n).add { M_ := 0, f_ := s.f_ - t.f_ } := by
    simp only [System.add, add_zero, System.mk.injEq, true_and]
    funext a
    simp
  unfold assemble
  rw [hs, foldlM_assembleElement_add_rhs]
  cases (List.finRange n).foldlM (assembleElement P) ({ t with M_ := 0 } : System n) with
  | error e => rfl
  | ok r =>
    simp only [Except.map]
    rw [System.add_zero_rhs r _ (fun a => by simp [List.mem_finRange])]


/-! ## The 2x1 grid between two Dirichlet faces -/

/-- C2: for the 2x1 grid of unit square cells (YaspGrid face order left, right, bottom,
top) with identity permeability, total upwind mobility 1 in every slot, zero source, left
face Dirichlet `p = 2`, right face Dirichlet `p = 0` and zero-flux Neumann conditions on
all top and bottom faces, `assemble` produces `M_ = [[3, -1], [-1, 3]]` and `f_ = (4, 0)`
(whatever `M_` and `f_` held before):
the inter-cell coefficient has magnitude 1, the two-point transmissibility
`K * |face| / distance` of the face between the two cell centres, and the unique solution
of `M_ p = f_` is `p = (3/2, 1/2)`, the linear profile `p(x) = 2 - x` at the cell
centres. -/
theorem assemble_twoCellProblem (s : System 2) :
    assemble twoCellProblem s = Except.ok { M_ := !![3, -1; -1, 3], f_ := ![4, 0] }
    ∧ |(!![3, -1; -1, 3] : Matrix (Fin 2) (Fin 2) ℚ) 0 1| = 1
    ∧ |(!![3, -1; -1, 3] : Matrix (Fin 2) (Fin 2) ℚ) 1 0| = 1
    ∧ (1 : ℚ) = (twoCellProblem.intrinsicPermeability (twoCellProblem.element 0).center 0) 0 0
        * ((twoCellProblem.element 0).intersections.map (fun isIt => isIt.volume)).getD 1 0
        / ((twoCellProblem.element 1).center 0 - (twoCellProblem.element 0).center 0)
    ∧ (∀ p : Fin 2 → ℚ,
        (!![3, -1; -1, 3] : Matrix (Fin 2) (Fin 2) ℚ).mulVec p = ![4, 0] ↔ p = ![3/2, 1/2])
    ∧ (∀ i : Fin 2, (![3/2, 1/2] : Fin 2 → ℚ) i = 2 - (twoCellProblem.element i).center 0) := by
  have h0 : assemble twoCellProblem (zeroSystem 2)
      = Except.ok { M_ := !![3, -1; -1, 3], f_ := ![4, 0] } := by decide!
  refine ⟨(assemble_independent_of_previous twoCellProblem s (zeroSystem 2)).trans h0,
    by decide!, by decide!, by decide!, fun p => ?_, by decide!⟩
  constructor
  · intro h
    have h0 := congrFun h 0
    have h1 := congrFun h 1
    simp [Matrix.mulVec, Matrix.dotProduct, Fin.sum_univ_two] at h0 h1
    funext a
    fin_cases a
    · show p 0 = 3 / 2
      linarith
    · show p 1 = 1 / 2
      linarith
  · rintro rfl
    funext a
    fin_cases a <;> simp [Matrix.mulVec, Matrix.dotProduct, Fin.sum_univ_two] <;> norm_num

end Dumux
namespace Dumux

/-! ## The copies of the next-face rule -/

/-- C12: the next-face switch written out in the row-size loop and in the column-index
loop of `initializeMatrix`, in `assemble`, in the nonzero count and in
`updateMaterialLaws` is one and the same function of the grid kind, the number of faces
`isItEnd` and the face position `isIt`: all five copies return the same next face or all
raise the same error, so the pair (`isIt`, next face) is the same in every context. -/
theorem nextisIt_copies_agree (gridImplementation : GridImplementation) (isItEnd isIt : Nat) :
    initializeMatrix_addindex_nextisIt gridImplementation isItEnd isIt
        = initializeMatrix_nextisIt gridImplementation isItEnd isIt
    ∧ assemble_nextisIt gridImplementation isItEnd isIt
        = initializeMatrix_nextisIt gridImplementation isItEnd isIt
    ∧ assemble_count_nextisIt gridImplementation isItEnd isIt
        = initializeMatrix_nextisIt gridImplementation isItEnd isIt
    ∧ updateMaterialLaws_nextIsIt gridImplementation isItEnd isIt
        = initializeMatrix_nextisIt gridImplementation isItEnd isIt :=
  ⟨rfl, rfl, rfl, rfl⟩

end Dumux
namespace Dumux

/-! ## The first pass of `updateMaterialLaws` -/

/-- The inner seeding loop over the slots `j` of one local face index `i`. -/
theorem seedInner_spec {n : Nat} (c : Fin n) (i : Nat) (mW mNW : ℚ) (l : List Nat) :
    ∀ v : Variables n,
      let v' := l.foldl
        (fun v j =>
          let v := v.setUpwindMobilitiesWetting c i j mW
          v.setUpwindMobilitiesNonwetting c i j mNW) v
      v'.saturation = v.saturation
      ∧ (∀ a b d, v'.upwindMobilitiesWetting a b d
          = if a = c ∧ b = i ∧ d ∈ l then mW else v.upwindMobilitiesWetting a b d)
      ∧ (∀ a b d, v'.upwindMobilitiesNonwetting a b d
          = if a = c ∧ b = i ∧ d ∈ l then mNW else v.upwindMobilitiesNonwetting a b d) := by
  induction l with
  | nil => intro v; simp
  | cons j t ih =>
    intro v
    obtain ⟨h1, h2, h3⟩ := ih ((v.setUpwindMobilitiesWetting c i j mW).setUpwindMobilitiesNonwetting
      c i j mNW)
    simp only [List.foldl_cons]
    refine ⟨h1, ?_, ?_⟩
    · intro a b d
      rw [h2 a b d]
      simp only [Variables.setUpwindMobilitiesWetting, Variables.setUpwindMobilitiesNonwetting,
        List.mem_cons]
      by_cases hd : d = j <;> by_cases ht : d ∈ t <;> by_cases ha : a = c
        <;> by_cases hb : b = i <;> simp [hd, ht, ha, hb]
    · intro a b d
      rw [h3 a b d]
      simp only [Variables.setUpwindMobilitiesWetting, Variables.setUpwindMobilitiesNonwetting,
        List.mem_cons]
      by_cases hd : d = j <;> by_cases ht : d ∈ t <;> by_cases ha : a = c
        <;> by_cases hb : b = i <;> simp [hd, ht, ha, hb]

/-- The two nested seeding loops over the local face indices in `l1` and the slots in
`l2`. -/
theorem seedOuter_spec {n : Nat} (c : Fin n) (mW mNW : ℚ) (l2 l1 : List Nat) :
    ∀ v : Variables n,
      let v' := l1.foldl
        (fun v i =>
          l2.foldl
            (fun v j =>
              let v := v.setUpwindMobilitiesWetting c i j mW
              v.setUpwindMobilitiesNonwetting c i j mNW) v) v
      v'.saturation = v.saturation
      ∧ (∀ a b d, v'.upwindMobilitiesWetting a b d
          = if a = c ∧ b ∈ l1 ∧ d ∈ l2 then mW else v.upwindMobilitiesWetting a b d)
      ∧ (∀ a b d, v'.upwindMobilitiesNonwetting a b d
          = if a = c ∧ b ∈ l1 ∧ d ∈ l2 then mNW else v.upwindMobilitiesNonwetting a b d) := by
  induction l1 with
  | nil => intro v; simp
  | cons i t ih =>
    intro v
    obtain ⟨g1, g2, g3⟩ := seedInner_spec c i mW mNW l2 v
    obtain ⟨h1, h2, h3⟩ := ih (l2.foldl
      (fun v j =>
        let v := v.setUpwindMobilitiesWetting c i j mW
        v.setUpwindMobilitiesNonwetting c i j mNW) v)
    simp only [List.foldl_cons]
    refine ⟨h1.trans g1, ?_, ?_⟩
    · intro a b d
      rw [h2 a b d, g2 a b d]
      simp only [List.mem_cons]
      by_cases hb : b = i <;> by_cases ht : b ∈ t <;> by_cases ha : a = c
        <;> by_cases hd : d ∈ l2 <;> simp [hd, ht, ha, hb]
    · intro a b d
      rw [h3 a b d, g3 a b d]
      simp only [List.mem_cons]
      by_cases hb : b = i <;> by_cases ht : b ∈ t <;> by_cases ha : a = c
        <;> by_cases hd : d ∈ l2 <;> simp [hd, ht, ha, hb]

/-- The seeding loops of the first pass set exactly the slots `(c, i, j)` with
`i, j < 2 * dim` and leave the saturation alone. -/
theorem seedUpwindMobilities_spec {n : Nat} (v : Variables n) (c : Fin n) (mW mNW : ℚ) :
    (seedUpwindMobilities v c mW mNW).saturation = v.saturation
    ∧ (∀ a b d, (seedUpwindMobilities v c mW mNW).upwindMobilitiesWetting a b d
        = if a = c ∧ b < 4 ∧ d < 4 then mW else v.upwindMobilitiesWetting a b d)
    ∧ (∀ a b d, (seedUpwindMobilities v c mW mNW).upwindMobilitiesNonwetting a b d
        = if a = c ∧ b < 4 ∧ d < 4 then mNW else v.upwindMobilitiesNonwetting a b d) := by
  have h := seedOuter_spec c mW mNW (List.range (2 * dim)) (List.range (2 * dim)) v
  have h4 : 2 * dim = 4 := rfl
  simp only [List.mem_range, h4] at h
  exact h


/-- One pass of the element loop in the first pass: it returns, keeps the saturation and
sets the slots `(c, i, j)` with `i, j < 4` to the mobilities of cell `c`. -/
theorem updateElement_first {n : Nat} (P : UpwindProblem n) (v : Variables n) (c : Fin n) :
    ∃ v', updateElement P true v c = Except.ok v'
      ∧ v'.saturation = v.saturation
      ∧ (∀ a b d, v'.upwindMobilitiesWetting a b d
          = if a = c ∧ b < 4 ∧ d < 4 then P.mobilityW v.saturation c
            else v.upwindMobilitiesWetting a b d)
      ∧ (∀ a b d, v'.upwindMobilitiesNonwetting a b d
          = if a = c ∧ b < 4 ∧ d < 4 then P.mobilityNW v.saturation c
            else v.upwindMobilitiesNonwetting a b d) := by
  unfold updateElement
  simp only [↓reduceIte, bind, Except.bind, pure, Except.pure]
  refine ⟨_, rfl, ?_, ?_, ?_⟩
  · simp only [(seedUpwindMobilities_spec _ _ _ _).1]
  · intro a b d
    simp only [(seedUpwindMobilities_spec _ _ _ _).2.1]
    rfl
  · intro a b d
    simp only [(seedUpwindMobilities_spec _ _ _ _).2.2]
    rfl

/-- The element loop of the first pass over the cells in `l`. -/
theorem foldlM_updateElement_first {n : Nat} (P : UpwindProblem n) (l : List (Fin n)) :
    ∀ v : Variables n, ∃ v', l.foldlM (updateElement P true) v = Except.ok v'
      ∧ v'.saturation = v.saturation
      ∧ (∀ a b d, v'.upwindMobilitiesWetting a b d
          = if a ∈ l ∧ b < 4 ∧ d < 4 then P.mobilityW v.saturation a
            else v.upwindMobilitiesWetting a b d)
      ∧ (∀ a b d, v'.upwindMobilitiesNonwetting a b d
          = if a ∈ l ∧ b < 4 ∧ d < 4 then P.mobilityNW v.saturation a
            else v.upwindMobilitiesNonwetting a b d) := by
  induction l with
  | nil =>
    intro v
    exact ⟨v, rfl, rfl, by simp, by simp⟩
  | cons c t ih =>
    intro v
    obtain ⟨v1, e1, s1, w1, n1⟩ := updateElement_first P v c
    obtain ⟨v2, e2, s2, w2, n2⟩ := ih v1
    refine ⟨v2, ?_, s2.trans s1, ?_, ?_⟩
    · simp only [List.foldlM, e1, bind, Except.bind]
      exact e2
    · intro a b d
      rw [w2 a b d, w1 a b d, s1]
      simp only [List.mem_cons]
      by_cases ha : a = c <;> by_cases ht : a ∈ t <;> by_cases hb : b < 4
        <;> by_cases hd : d < 4 <;> simp [ha, ht, hb, hd]
    · intro a b d
      rw [n2 a b d, n1 a b d, s1]
      simp only [List.mem_cons]
      by_cases ha : a = c <;> by_cases ht : a ∈ t <;> by_cases hb : b < 4
        <;> by_cases hd : d < 4 <;> simp [ha, ht, hb, hd]

/-- C13: `updateMaterialLaws(true)` returns, and afterwards for every cell `c`, every local
face index `i` in 0..3 and every slot `j` in 0..3 the entry `upwindMobilitiesWetting(c, i, j)`
is the cell's own wetting mobility `krw(satW_c) / viscosityW_c` and
`upwindMobilitiesNonwetting(c, i, j)` is `krn(satW_c) / viscosityNW_c`, both computed from
the saturation of cell `c` alone: no velocity, potential or neighbour data enters. -/
theorem updateMaterialLaws_first {n : Nat} (P : UpwindProblem n) (v : Variables n) :
    ∃ v', updateMaterialLaws P true v = Except.ok v'
      ∧ ∀ (c : Fin n) (i j : Fin 4),
        v'.upwindMobilitiesWetting c i.val j.val
            = P.krw (P.element c).center c (P.satW v.saturation c) / P.viscosityW v.saturation c
        ∧ v'.upwindMobilitiesNonwetting c i.val j.val
            = P.krn (P.element c).center c (P.satW v.saturation c)
                / P.viscosityNW v.saturation c := by
  obtain ⟨v', e, _, w, nw⟩ := foldlM_updateElement_first P (List.finRange n) v
  refine ⟨v', e, ?_⟩
  intro c i j
  rw [w c i.val j.val, nw c i.val j.val]
  simp [List.mem_finRange, i.isLt, j.isLt, UpwindProblem.mobilityW, UpwindProblem.mobilityNW]

end Dumux
namespace Dumux

/-! ## The slot writes of the upwind branches -/

/-- The wetting entry that the pair of slot writes stores. -/
theorem writeUpwindMobilities_wetting {n : Nat} (P : UpwindProblem n) (v : Variables n)
    (globalIdx : Fin n) (indexInInside slot : Nat) (globalPosK : GlobalPosition) (cellK : Fin n)
    (satUpw viscosityW viscosityNW : ℚ) :
    (writeUpwindMobilities P v globalIdx indexInInside slot globalPosK cellK
        satUpw viscosityW viscosityNW).upwindMobilitiesWetting globalIdx indexInInside slot
      = P.krw globalPosK cellK satUpw / viscosityW := by
  simp [writeUpwindMobilities, Variables.setUpwindMobilitiesWetting,
    Variables.setUpwindMobilitiesNonwetting]

/-- The non-wetting entry that the pair of slot writes stores. -/
theorem writeUpwindMobilities_nonwetting {n : Nat} (P : UpwindProblem n) (v : Variables n)
    (globalIdx : Fin n) (indexInInside slot : Nat) (globalPosK : GlobalPosition) (cellK : Fin n)
    (satUpw viscosityW viscosityNW : ℚ) :
    (writeUpwindMobilities P v globalIdx indexInInside slot globalPosK cellK
        satUpw viscosityW viscosityNW).upwindMobilitiesNonwetting globalIdx indexInInside slot
      = P.krn globalPosK cellK satUpw / viscosityNW := by
  simp [writeUpwindMobilities, Variables.setUpwindMobilitiesWetting,
    Variables.setUpwindMobilitiesNonwetting]

/-- C14: the pair of slot writes of an upwind branch stores `krw(satUpw) / viscosityW` and
`krn(satUpw) / viscosityNW`.  For fixed positive viscosities the stored value is
non-decreasing in the relative permeability (for two material laws `P`, `P'` and two
saturations, `kr1 <= kr2` gives `kr1 / mu <= kr2 / mu`); hence, when the relative
permeability is non-decreasing in the saturation, the stored value is non-decreasing in the
selected upwind saturation. -/
theorem writeUpwindMobilities_monotone {n : Nat} (P P' : UpwindProblem n) (v : Variables n)
    (globalIdx : Fin n) (indexInInside slot : Nat) (globalPosK : GlobalPosition) (cellK : Fin n)
    (satUpw satUpw' viscosityW viscosityNW : ℚ)
    (hW : 0 < viscosityW) (hNW : 0 < viscosityNW) :
    (P.krw globalPosK cellK satUpw ≤ P'.krw globalPosK cellK satUpw' →
      (writeUpwindMobilities P v globalIdx indexInInside slot globalPosK cellK
          satUpw viscosityW viscosityNW).upwindMobilitiesWetting globalIdx indexInInside slot
        ≤ (writeUpwindMobilities P' v globalIdx indexInInside slot globalPosK cellK
          satUpw' viscosityW viscosityNW).upwindMobilitiesWetting globalIdx indexInInside slot)
    ∧ (P.krn globalPosK cellK satUpw ≤ P'.krn globalPosK cellK satUpw' →
      (writeUpwindMobilities P v globalIdx indexInInside slot globalPosK cellK
          satUpw viscosityW viscosityNW).upwindMobilitiesNonwetting globalIdx indexInInside slot
        ≤ (writeUpwindMobilities P' v globalIdx indexInInside slot globalPosK cellK
          satUpw' viscosityW viscosityNW).upwindMobilitiesNonwetting globalIdx indexInInside slot)
    ∧ (Monotone (P.krw globalPosK cellK) → satUpw ≤ satUpw' →
      (writeUpwindMobilities P v globalIdx indexInInside slot globalPosK cellK
          satUpw viscosityW viscosityNW).upwindMobilitiesWetting globalIdx indexInInside slot
        ≤ (writeUpwindMobilities P v globalIdx indexInInside slot globalPosK cellK
          satUpw' viscosityW viscosityNW).upwindMobilitiesWetting globalIdx indexInInside slot)
    ∧ (Monotone (P.krn globalPosK cellK) → satUpw ≤ satUpw' →
      (writeUpwindMobilities P v globalIdx indexInInside slot globalPosK cellK
          satUpw viscosityW viscosityNW).upwindMobilitiesNonwetting globalIdx indexInInside slot
        ≤ (writeUpwindMobilities P v globalIdx indexInInside slot globalPosK cellK
          satUpw' viscosityW viscosityNW).upwindMobilitiesNonwetting globalIdx indexInInside slot)
    := by
  simp only [writeUpwindMobilities_wetting, writeUpwindMobilities_nonwetting]
  refine ⟨fun h => ?_, fun h => ?_, fun hm h => ?_, fun hm h => ?_⟩
  · exact (div_le_div_iff_of_pos_right hW).mpr h
  · exact (div_le_div_iff_of_pos_right hNW).mpr h
  · exact (div_le_div_iff_of_pos_right hW).mpr (hm h)
  · exact (div_le_div_iff_of_pos_right hNW).mpr (hm h)


/-- C14 for the linear law `krw(S) = S` and the viscosity 1: the upwind saturations
`1/4 <= 1/2` give the slot values `1/4 <= 1/2`. -/
theorem writeUpwindMobilities_monotone_witness :
    ((0 : ℚ) < 1 ∧ (0 : ℚ) < 2)
    ∧ (writeUpwindMobilities (oneCellUpwindProblem BoundaryConditions.dirichlet)
          (constantVariables 1 0 0) 0 0 0 ![1/2, 1/2] 0 (1/4) 1 2).upwindMobilitiesWetting 0 0 0
        ≤ (writeUpwindMobilities (oneCellUpwindProblem BoundaryConditions.dirichlet)
          (constantVariables 1 0 0) 0 0 0 ![1/2, 1/2] 0 (1/2) 1 2).upwindMobilitiesWetting 0 0 0 :=
  ⟨⟨by decide!, by decide!⟩,
    (writeUpwindMobilities_monotone (oneCellUpwindProblem BoundaryConditions.dirichlet)
      (oneCellUpwindProblem BoundaryConditions.dirichlet) (constantVariables 1 0 0) 0 0 0
      ![1/2, 1/2] 0 (1/4) (1/2) 1 2 (by decide!) (by decide!)).2.2.1
      (fun _ _ h => h) (by decide!)⟩

end Dumux
namespace Dumux

/-! ## The selection of `satUpw1` in closed form -/

/-- Both face potentials negative: the diagonal potential is the minimum and cell 4 is
selected. -/
theorem satUpw1FromPotentials_both_negative (p11 p21 s1 s2 s3 s4 : ℚ)
    (h1 : p11 < 0) (h2 : p21 < 0) :
    satUpw1FromPotentials p11 p21 (p11 + p21) s1 s2 s3 s4 = s4 := by
  have hmin : min (min p11 p21) (p11 + p21) = p11 + p21 :=
    min_eq_right (le_min (by linarith) (by linarith))
  have hmax : max (max p11 p21) (p11 + p21) = max p11 p21 :=
    max_eq_left (le_max_of_le_left (by linarith))
  have habs : ¬ (|max p11 p21| ≥ |p11 + p21|) := by
    rw [abs_of_neg (max_lt h1 h2), abs_of_neg (by linarith)]
    rcases max_choice p11 p21 with h | h <;> rw [h] <;> intro hge <;> linarith
  have e1 : ¬ (p11 + p21 = p11) := fun h => by linarith
  have e2 : ¬ (p11 + p21 = p21) := fun h => by linarith
  simp only [satUpw1FromPotentials, satUpw1Chain, satUpw1Ties, hmin, hmax, if_neg habs]
  simp [e1, e2]

/-- The potential of `nextIsIt` negative and dominant: cell 3 is selected. -/
theorem satUpw1FromPotentials_face11 (p11 p21 s1 s2 s3 s4 : ℚ)
    (h1 : p11 < 0) (h2 : 0 ≤ p21) (h3 : -p11 > p21) :
    satUpw1FromPotentials p11 p21 (p11 + p21) s1 s2 s3 s4 = s3 := by
  have hmin : min (min p11 p21) (p11 + p21) = p11 := by
    rw [min_eq_left (by linarith : p11 ≤ p21), min_eq_left (by linarith)]
  have hmax : max (max p11 p21) (p11 + p21) = p21 := by
    rw [max_eq_right (by linarith : p11 ≤ p21), max_eq_left (by linarith)]
  have habs : ¬ (|p21| ≥ |p11|) := by
    rw [abs_of_nonneg h2, abs_of_neg h1]
    intro hge
    linarith
  have e0 : ¬ (p21 = p11) := fun h => by linarith
  simp only [satUpw1FromPotentials, satUpw1Chain, satUpw1Ties, hmin, hmax, if_neg habs]
  by_cases hz : p21 = 0
  · subst hz
    simp [h1.ne, h1.ne']
  · have e1 : ¬ (p11 = p11 + p21) := fun h => hz (by linarith)
    have e2 : ¬ (p11 = p21) := fun h => e0 h.symm
    simp [e1, e2]

/-- The potential of `isIt` negative and dominant: cell 2 is selected. -/
theorem satUpw1FromPotentials_face21 (p11 p21 s1 s2 s3 s4 : ℚ)
    (h1 : p21 < 0) (h2 : 0 ≤ p11) (h3 : -p21 > p11) :
    satUpw1FromPotentials p11 p21 (p11 + p21) s1 s2 s3 s4 = s2 := by
  have hmin : min (min p11 p21) (p11 + p21) = p21 := by
    rw [min_eq_right (by linarith : p21 ≤ p11), min_eq_left (by linarith)]
  have hmax : max (max p11 p21) (p11 + p21) = p11 := by
    rw [max_eq_left (by linarith : p21 ≤ p11), max_eq_left (by linarith)]
  have habs : ¬ (|p11| ≥ |p21|) := by
    rw [abs_of_nonneg h2, abs_of_neg h1]
    intro hge
    linarith
  have e0 : ¬ (p21 = p11) := fun h => by linarith
  simp only [satUpw1FromPotentials, satUpw1Chain, satUpw1Ties, hmin, hmax, if_neg habs]
  by_cases hz : p11 = 0
  · subst hz
    simp [h1.ne, h1.ne']
  · have e1 : ¬ (p21 = p11 + p21) := fun h => hz (by linarith)
    simp [e1, e0]

/-- The first test `|maxPot| >= |minPot|` of the selection, for the diagonal potential
`p11 + p21`, holds exactly outside the three neighbour cases. -/
theorem satUpw1_own_iff (p11 p21 : ℚ) :
    |max (max p11 p21) (p11 + p21)| ≥ |min (min p11 p21) (p11 + p21)|
      ↔ ¬ ((p11 < 0 ∧ p21 < 0) ∨ (p11 < 0 ∧ 0 ≤ p21 ∧ -p11 > p21)
          ∨ (p21 < 0 ∧ 0 ≤ p11 ∧ -p21 > p11)) := by
  constructor
  · intro h hc
    rcases hc with ⟨h1, h2⟩ | ⟨h1, h2, h3⟩ | ⟨h1, h2, h3⟩
    · have hmin : min (min p11 p21) (p11 + p21) = p11 + p21 :=
        min_eq_right (le_min (by linarith) (by linarith))
      have hmax : max (max p11 p21) (p11 + p21) = max p11 p21 :=
        max_eq_left (le_max_of_le_left (by linarith))
      rw [hmin, hmax, abs_of_neg (max_lt h1 h2), abs_of_neg (by linarith)] at h
      rcases max_choice p11 p21 with h' | h' <;> rw [h'] at h <;> linarith
    · have hmin : min (min p11 p21) (p11 + p21) = p11 := by
        rw [min_eq_left (by linarith : p11 ≤ p21), min_eq_left (by linarith)]
      have hmax : max (max p11 p21) (p11 + p21) = p21 := by
        rw [max_eq_right (by linarith : p11 ≤ p21), max_eq_left (by linarith)]
      rw [hmin, hmax, abs_of_nonneg h2, abs_of_neg h1] at h
      linarith
    · have hmin : min (min p11 p21) (p11 + p21) = p21 := by
        rw [min_eq_right (by linarith : p21 ≤ p11), min_eq_left (by linarith)]
      have hmax : max (max p11 p21) (p11 + p21) = p11 := by
        rw [max_eq_left (by linarith : p21 ≤ p11), max_eq_left (by linarith)]
      rw [hmin, hmax, abs_of_nonneg h2, abs_of_neg h1] at h
      linarith
  · intro hc
    push_neg at hc
    obtain ⟨c1, c2, c3⟩ := hc
    rcases lt_or_le p11 0 with h1 | h1
    · have h2 : 0 ≤ p21 := c1 h1
      have h3 : -p11 ≤ p21 := c2 h1 h2
      have hmin : min (min p11 p21) (p11 + p21) = p11 := by
        rw [min_eq_left (by linarith : p11 ≤ p21), min_eq_left (by linarith)]
      have hmax : max (max p11 p21) (p11 + p21) = p21 := by
        rw [max_eq_right (by linarith : p11 ≤ p21), max_eq_left (by linarith)]
      rw [hmin, hmax, abs_of_nonneg h2, abs_of_neg h1]
      exact h3
    · rcases lt_or_le p21 0 with h2 | h2
      · have h3 : -p21 ≤ p11 := c3 h2 h1
        have hmin : min (min p11 p21) (p11 + p21) = p21 := by
          rw [min_eq_right (by linarith : p21 ≤ p11), min_eq_left (by linarith)]
        have hmax : max (max p11 p21) (p11 + p21) = p11 := by
          rw [max_eq_left (by linarith : p21 ≤ p11), max_eq_left (by linarith)]
        rw [hmin, hmax, abs_of_nonneg h1, abs_of_neg h2]
        exact h3
      · have hmax : max (max p11 p21) (p11 + p21) = p11 + p21 :=
          max_eq_right (max_le (by linarith) (by linarith))
        rw [hmax, abs_of_nonneg (by linarith : 0 ≤ p11 + p21),
          abs_of_nonneg (le_min (le_min h1 h2) (by linarith))]
        exact le_trans (min_le_right _ _) le_rfl

/-- C18: for cell 1 of a four-cell interaction volume, with
`p11 = velocityInteractionVol * unitOuterNormal11`,
`p21 = velocityInteractionVol * unitOuterNormal21` (so that the diagonal potential is
`p11 + p21`), the selected upwind saturation `satUpw1` is the saturation of the diagonal
cell 4 if `p11 < 0` and `p21 < 0`; of cell 3 (across `nextIsIt`) if `p11 < 0 <= p21` and
`-p11 > p21`; of cell 2 (across `isIt`) if `p21 < 0 <= p11` and `-p21 > p11`; and the
cell's own saturation in every other case, which is exactly when `|maxPot| >= |minPot|`. -/
theorem satUpw1_closed_form (velocityInteractionVol unitOuterNormal11 unitOuterNormal21 :
    FieldVector) (saturation1 saturation2 saturation3 saturation4 : ℚ) :
    let p11 := Matrix.dotProduct velocityInteractionVol unitOuterNormal11
    let p21 := Matrix.dotProduct velocityInteractionVol unitOuterNormal21
    let maxPot := max (max p11 p21) (p11 + p21)
    let minPot := min (min p11 p21) (p11 + p21)
    Matrix.dotProduct velocityInteractionVol (unitOuterNormal11 + unitOuterNormal21) = p11 + p21
    ∧ satUpw1 velocityInteractionVol unitOuterNormal11 unitOuterNormal21
        saturation1 saturation2 saturation3 saturation4
      = (if p11 < 0 ∧ p21 < 0 then saturation4
        else if p11 < 0 ∧ 0 ≤ p21 ∧ -p11 > p21 then saturation3
        else if p21 < 0 ∧ 0 ≤ p11 ∧ -p21 > p11 then saturation2
        else saturation1)
    ∧ (|maxPot| ≥ |minPot|
        ↔ ¬ ((p11 < 0 ∧ p21 < 0) ∨ (p11 < 0 ∧ 0 ≤ p21 ∧ -p11 > p21)
            ∨ (p21 < 0 ∧ 0 ≤ p11 ∧ -p21 > p11))) := by
  intro p11 p21 maxPot minPot
  have hd : Matrix.dotProduct velocityInteractionVol (unitOuterNormal11 + unitOuterNormal21)
      = p11 + p21 := Matrix.dotProduct_add _ _ _
  refine ⟨hd, ?_, satUpw1_own_iff p11 p21⟩
  have hs : satUpw1 velocityInteractionVol unitOuterNormal11 unitOuterNormal21
      saturation1 saturation2 saturation3 saturation4
      = satUpw1FromPotentials p11 p21 (p11 + p21)
        saturation1 saturation2 saturation3 saturation4 := by
    simp only [satUpw1, hd]
  rw [hs]
  by_cases c1 : p11 < 0 ∧ p21 < 0
  · rw [if_pos c1]
    exact satUpw1FromPotentials_both_negative p11 p21 _ _ _ _ c1.1 c1.2
  · rw [if_neg c1]
    by_cases c2 : p11 < 0 ∧ 0 ≤ p21 ∧ -p11 > p21
    · rw [if_pos c2]
      exact satUpw1FromPotentials_face11 p11 p21 _ _ _ _ c2.1 c2.2.1 c2.2.2
    · rw [if_neg c2]
      by_cases c3 : p21 < 0 ∧ 0 ≤ p11 ∧ -p21 > p11
      · rw [if_pos c3]
        exact satUpw1FromPotentials_face21 p11 p21 _ _ _ _ c3.1 c3.2.1 c3.2.2
      · rw [if_neg c3]
        have hown := (satUpw1_own_iff p11 p21).mpr (by
          rintro (h | h | h)
          · exact c1 h
          · exact c2 h
          · exact c3 h)
        simp only [satUpw1FromPotentials, if_pos hown]

end Dumux
namespace Dumux

/-! ## The corner with two boundary faces -/

/-- The selection in a corner with two boundary faces in closed form: the own value when
`|maxPot| >= |minPot|`, otherwise the value of the face with the smaller potential; the
third arm of the chain is never reached. -/
theorem satUpwBoundary_eq (p11 p21 own s11 s21 sTie : ℚ) :
    satUpwBoundary p11 p21 own s11 s21 sTie
      = if |max p11 p21| ≥ |min p11 p21| then own
        else if p11 < p21 then s11 else s21 := by
  unfold satUpwBoundary satUpwBoundaryChain
  by_cases h : |max p11 p21| ≥ |min p11 p21|
  · simp only [if_pos h]
  · simp only [if_neg h]
    have hne : p11 ≠ p21 := by
      intro e
      apply h
      rw [e, max_self, min_self]
    rcases lt_or_gt_of_ne hne with hlt | hgt
    · rw [if_pos (min_eq_left hlt.le), if_pos hlt]
    · have hm : min p11 p21 = p21 := min_eq_right hgt.le
      rw [if_neg (by rw [hm]; exact fun e => hne e.symm), if_pos hm, if_neg (not_lt.mpr hgt.le)]


/-- C20: in a corner where `isIt` and `nextIsIt` are boundary faces that carry Dirichlet or
Neumann saturation conditions, with `p11`, `p21` the stored wetting potentials of `nextIsIt`
and `isIt`: when both faces are Neumann, slot 0 receives the cell's non-upwinded mobilities
`mobilityW`, `mobilityNW`; otherwise slot 0 receives `krw(satUpw) / viscosityW` and
`krn(satUpw) / viscosityNW`, where `satUpw` is the cell's own saturation if
`|max(p11, p21)| >= |min(p11, p21)|` and otherwise the saturation supplied by the face with
the smaller potential: its Dirichlet saturation if that face is Dirichlet, the cell's own
saturation if it is Neumann. -/
theorem updateBoundaryBoundary_spec {n : Nat} (P : UpwindProblem n) (c : CellLaws)
    (globalIdx : Fin n) (isIt nextIsIt : Intersection n) (v : Variables n)
    (hisIt : P.bctypeSat isIt.center isIt = BoundaryConditions.dirichlet
      ∨ P.bctypeSat isIt.center isIt = BoundaryConditions.neumann)
    (hnextIsIt : P.bctypeSat nextIsIt.center nextIsIt = BoundaryConditions.dirichlet
      ∨ P.bctypeSat nextIsIt.center nextIsIt = BoundaryConditions.neumann) :
    let p11 := v.potentialWetting globalIdx nextIsIt.indexInInside
    let p21 := v.potentialWetting globalIdx isIt.indexInInside
    let own := v.saturation globalIdx
    let satUpw :=
      if |max p11 p21| ≥ |min p11 p21| then own
      else if p11 < p21 then P.boundaryFaceSaturation nextIsIt own
      else P.boundaryFaceSaturation isIt own
    updateBoundaryBoundary P c globalIdx isIt nextIsIt (P.bctypeSat isIt.center isIt) v
      = if P.bctypeSat isIt.center isIt = BoundaryConditions.neumann
          ∧ P.bctypeSat nextIsIt.center nextIsIt = BoundaryConditions.neumann then
          (v.setUpwindMobilitiesWetting globalIdx isIt.indexInInside 0
            c.mobilityW).setUpwindMobilitiesNonwetting globalIdx isIt.indexInInside 0 c.mobilityNW
        else
          writeUpwindMobilities P v globalIdx isIt.indexInInside 0 c.globalPos globalIdx
            satUpw c.viscosityW c.viscosityNW := by
  intro p11 p21 own satUpw
  have hDN : BoundaryConditions.dirichlet ≠ BoundaryConditions.neumann := by decide
  have hND : BoundaryConditions.neumann ≠ BoundaryConditions.dirichlet := by decide
  rcases hisIt with h1 | h1 <;> rcases hnextIsIt with h2 | h2
  all_goals
    simp only [updateBoundaryBoundary, satUpw, own, p11, p21, h1, h2, satUpwBoundary_eq,
      UpwindProblem.boundaryFaceSaturation, if_true, if_false, hDN, hND, and_self, and_false,
      false_and, ne_eq, not_true_eq_false, not_false_eq_true, reduceCtorEq]


/-- C20 on the corner of the left and the bottom face of the unit cell with Dirichlet
saturation 1 on both faces, own saturation `1/2`, `p21 = -2` on the left face (`isIt`) and
`p11 = 1` on the bottom face: `|max| < |min|`, the left face decides and slot 0 receives
`krw(1) / 1 = 1` and `krn(1) / 2 = 0`. -/
theorem updateBoundaryBoundary_spec_witness :
    ((oneCellUpwindProblem BoundaryConditions.dirichlet).bctypeSat unitSquareLeftFace.center
        unitSquareLeftFace = BoundaryConditions.dirichlet
      ∧ (oneCellUpwindProblem BoundaryConditions.dirichlet).bctypeSat
        unitSquareBottomFace.center unitSquareBottomFace = BoundaryConditions.dirichlet)
    ∧ (updateBoundaryBoundary (oneCellUpwindProblem BoundaryConditions.dirichlet) unitCellLaws 0
        unitSquareLeftFace unitSquareBottomFace BoundaryConditions.dirichlet
        inflowVariables).upwindMobilitiesWetting 0 0 0 = 1
    ∧ (updateBoundaryBoundary (oneCellUpwindProblem BoundaryConditions.dirichlet) unitCellLaws 0
        unitSquareLeftFace unitSquareBottomFace BoundaryConditions.dirichlet
        inflowVariables).upwindMobilitiesNonwetting 0 0 0 = 0 :=
  ⟨⟨rfl, rfl⟩,
    (congrArg (fun w : Variables 1 => w.upwindMobilitiesWetting 0 0 0)
      (updateBoundaryBoundary_spec (oneCellUpwindProblem BoundaryConditions.dirichlet)
        unitCellLaws 0 unitSquareLeftFace unitSquareBottomFace inflowVariables
        (Or.inl rfl) (Or.inl rfl))).trans (by decide!),
    (congrArg (fun w : Variables 1 => w.upwindMobilitiesNonwetting 0 0 0)
      (updateBoundaryBoundary_spec (oneCellUpwindProblem BoundaryConditions.dirichlet)
        unitCellLaws 0 unitSquareLeftFace unitSquareBottomFace inflowVariables
        (Or.inl rfl) (Or.inl rfl))).trans (by decide!)⟩

end Dumux
namespace Dumux

/-! ## Boundary types that are neither Dirichlet nor Neumann -/

/-- C11 fails on the code: on the single unit cell whose four boundary faces report the
type `other 0`, which is neither Dirichlet nor Neumann, `assemble` returns a system (it
computes with the Dirichlet value of the faces) and `updateMaterialLaws(false)` returns as
well; neither raises an error. -/
theorem assemble_other_bctype_returns :
    assemble oneCellOtherFlagProblem (zeroSystem 1)
        = Except.ok { M_ := !![4], f_ := ![4] }
    ∧ (updateMaterialLaws (oneCellUpwindProblem (BoundaryConditions.other 0)) false
        (constantVariables 1 (1/2) (-1))).toBool = true := by
  constructor
  · decide!
  · decide!

/-- C11 as amended: a boundary type that is neither Dirichlet nor Neumann raises no error.
In `assemble`, a boundary face `isIt` with such a type takes the `else` branch of the
dispatch on its type, the branch written for a Dirichlet face; in `updateMaterialLaws`, a
corner of two boundary faces one of which has such a saturation boundary type matches no
branch of the dispatch: the pass returns and leaves the variables store unchanged. -/
theorem other_bctype_not_fatal {n : Nat} :
    (∀ (P : Problem n) (globalIdx1 : Fin n) (s : System n) (isIt : Nat) (d : FaceData n)
        (flag : Int),
      faceData P globalIdx1 isIt = Except.ok d → d.isIt.outside = none →
      P.bctypePress d.globalPosFace12 d.isIt = BoundaryConditions.other flag →
      assembleFace P globalIdx1 s isIt = assembleDirichlet P d s)
    ∧ (∀ (P : UpwindProblem n) (c : CellLaws) (globalIdx : Fin n) (v : Variables n)
        (isIt nextIsIt : Nat) (face nextFace : Intersection n) (flag : Int),
      updateMaterialLaws_nextIsIt P.gridImplementation
        (P.element globalIdx).intersections.length isIt = Except.ok nextIsIt →
      deref (P.element globalIdx).intersections isIt = Except.ok face →
      deref (P.element globalIdx).intersections nextIsIt = Except.ok nextFace →
      face.outside = none → nextFace.outside = none →
      (P.bctypeSat face.center face = BoundaryConditions.other flag
        ∨ P.bctypeSat nextFace.center nextFace = BoundaryConditions.other flag) →
      updateFace P c globalIdx v isIt = Except.ok v) := by
  constructor
  · intro P globalIdx1 s isIt d flag hd hb hk
    simp only [assembleFace, hd, bind, Except.bind, hb, hk]
    rfl
  · intro P c globalIdx v isIt nextIsIt face nextFace flag hnext hface hnextFace hb1 hb2 hk
    simp only [updateFace, hnext, hface, hnextFace, bind, Except.bind, hb1, hb2, pure,
      Except.pure, Except.ok.injEq]
    unfold updateBoundaryBoundary
    rcases hk with hk | hk
    · simp only [hk, reduceCtorEq, if_false]
    · simp only [hk, reduceCtorEq, if_false]
      split_ifs <;> rfl


/-- The amended C11 on the single unit cell whose faces report the type `other 0`: the pass
of `assemble` for the left face equals the Dirichlet branch, and the pass of
`updateMaterialLaws` for the corner of the left and the bottom face returns the variables
store unchanged. -/
theorem other_bctype_not_fatal_witness :
    (∃ d, faceData oneCellOtherFlagProblem 0 0 = Except.ok d
      ∧ assembleFace oneCellOtherFlagProblem 0 (zeroSystem 1) 0
        = assembleDirichlet oneCellOtherFlagProblem d (zeroSystem 1))
    ∧ updateFace (oneCellUpwindProblem (BoundaryConditions.other 0)) unitCellLaws 0
        inflowVariables 0 = Except.ok inflowVariables := by
  constructor
  · obtain ⟨d, hd, _⟩ := oneCellProblem_faceData 1 0
    have hd' : faceData oneCellOtherFlagProblem 0 0 = Except.ok d := hd
    have hface : d.isIt.outside = none :=
      ((oneCellProblem_allDirichlet 1 ⟨0, 0⟩ 1) d.isIt (faceData_eq_ok hd').2.1).1
    exact ⟨d, hd', other_bctype_not_fatal.1 oneCellOtherFlagProblem 0 (zeroSystem 1) 0 d 0
      hd' hface rfl⟩
  · exact other_bctype_not_fatal.2 (oneCellUpwindProblem (BoundaryConditions.other 0))
      unitCellLaws 0 inflowVariables 0 2 unitSquareLeftFace unitSquareBottomFace 0
      rfl rfl rfl rfl rfl (Or.inl rfl)

end Dumux
namespace Dumux

/-! ## The overlap-aware scalar product -/

/-- The loop of `dot` as a sum over the selected indices. -/
theorem foldl_selected_sum (p : Nat → Bool) (f : Nat → ℚ) (n : Nat) :
    (List.range n).foldl (fun sum i => if p i then sum + f i else sum) (0 : ℚ)
      = ∑ i in (Finset.range n).filter (fun i => p i = true), f i := by
  induction n with
  | zero => simp
  | succ k ih =>
    rw [List.range_succ, List.foldl_append, ih, Finset.range_succ, Finset.filter_insert]
    by_cases hp : p k = true
    · simp [hp, add_comm]
    · simp [hp]

/-- Below `2 ^ 31` the conversion of the loop counter to `int` is the identity. -/
theorem static_cast_int_eq {i : Nat} (h : i < 2 ^ 31) : static_cast_int i = (i : Int) := by
  have h1 : i % 2 ^ 32 = i := Nat.mod_eq_of_lt (by omega)
  simp only [static_cast_int, h1, if_pos h]

/-- C17: in a build without MPI and for `numLocal() <= 2 ^ 31` (the local indices fit the
`int` argument of `iAmMasterOf`), `dot(x, y)` returns the sum of `x[i] * y[i]` over exactly
the local indices `i < numLocal()` with `iAmMasterOf(i)`; entries at other indices do not
influence the result, `dot(x, y) = dot(y, x)` and `dot(x, x) >= 0`. -/
theorem dot_spec {b : Nat} (overlap_ : Overlap) (x y : Nat → Fin b → ℚ)
    (hnum : overlap_.numLocal ≤ 2 ^ 31) :
    OverlappingScalarProduct.dot overlap_ x y
        = some (∑ i in (Finset.range overlap_.numLocal).filter
            (fun i : Nat => overlap_.iAmMasterOf (i : Int) = true), Matrix.dotProduct (x i) (y i))
    ∧ (∀ x' y' : Nat → Fin b → ℚ,
        (∀ i, i < overlap_.numLocal → overlap_.iAmMasterOf (i : Int) = true →
          x' i = x i ∧ y' i = y i) →
        OverlappingScalarProduct.dot overlap_ x' y' = OverlappingScalarProduct.dot overlap_ x y)
    ∧ OverlappingScalarProduct.dot overlap_ x y = OverlappingScalarProduct.dot overlap_ y x
    ∧ ∃ r, OverlappingScalarProduct.dot overlap_ x x = some r ∧ 0 ≤ r := by
  have hlt : overlap_.numLocal < 2 ^ 32 := by omega
  have key : ∀ u w : Nat → Fin b → ℚ, OverlappingScalarProduct.dot overlap_ u w
      = some (∑ i in (Finset.range overlap_.numLocal).filter
          (fun i : Nat => overlap_.iAmMasterOf (i : Int) = true), Matrix.dotProduct (u i) (w i)) := by
    intro u w
    unfold OverlappingScalarProduct.dot
    simp only [if_pos hlt]
    rw [foldl_selected_sum (fun i => overlap_.iAmMasterOf (static_cast_int i))
      (fun i => Matrix.dotProduct (u i) (w i))]
    congr 2
    apply Finset.filter_congr
    intro i hi
    rw [static_cast_int_eq (lt_of_lt_of_le (Finset.mem_range.mp hi) hnum)]
  refine ⟨key x y, ?_, ?_, ?_⟩
  · intro x' y' h
    rw [key, key]
    congr 1
    apply Finset.sum_congr rfl
    intro i hi
    rw [Finset.mem_filter, Finset.mem_range] at hi
    rw [(h i hi.1 hi.2).1, (h i hi.1 hi.2).2]
  · rw [key, key]
    congr 1
    apply Finset.sum_congr rfl
    intro i _
    exact Matrix.dotProduct_comm _ _
  · refine ⟨_, key x x, ?_⟩
    apply Finset.sum_nonneg
    intro i _
    unfold Matrix.dotProduct
    apply Finset.sum_nonneg
    intro k _
    exact mul_self_nonneg _


/-- C17 on an overlap with three local indices, of which index 1 is not a master index:
the products at the indices 0 and 2 are summed (`1 * 2 + 3 * 2 = 8`), and the scalar
product is symmetric. -/
theorem dot_spec_witness :
    threeIndexOverlap.numLocal ≤ 2 ^ 31
    ∧ OverlappingScalarProduct.dot threeIndexOverlap countingVector constantVector = some 8
    ∧ OverlappingScalarProduct.dot threeIndexOverlap countingVector constantVector
        = OverlappingScalarProduct.dot threeIndexOverlap constantVector countingVector :=
  ⟨by decide, by decide!,
    (dot_spec threeIndexOverlap countingVector constantVector (by decide)).2.2.1⟩

/-! ## The local residual of the two-phase box model -/

/-- The advective flux of one phase: `KmvpNormal * (alpha * rho_up * lambda_up
+ (1 - alpha) * rho_dn * lambda_dn)`. -/
theorem computeFlux_spec (I : TwoPIndices) (curSecVars_ : Nat → SecondaryVars) (vars : FluxVars)
    (hnum : I.numPhases = 2) (hw : I.wPhaseIdx < 2) (hn : I.nPhaseIdx < 2)
    (hphase : I.wPhaseIdx ≠ I.nPhaseIdx) (heq : I.contiWEqIdx ≠ I.contiNEqIdx) :
    let advective := fun phaseIdx : Nat =>
      vars.KmvpNormal phaseIdx
        * (I.mobilityUpwindAlpha
            * ((curSecVars_ (vars.upstreamIdx phaseIdx)).density phaseIdx
              * (curSecVars_ (vars.upstreamIdx phaseIdx)).mobility phaseIdx)
          + (1 - I.mobilityUpwindAlpha)
            * ((curSecVars_ (vars.downstreamIdx phaseIdx)).density phaseIdx
              * (curSecVars_ (vars.downstreamIdx phaseIdx)).mobility phaseIdx))
    computeFlux I curSecVars_ vars I.contiWEqIdx = -advective I.wPhaseIdx
    ∧ computeFlux I curSecVars_ vars I.contiNEqIdx = -advective I.nPhaseIdx
    ∧ ∀ (flux : PrimaryVarVector) (fluxData : FluxVars),
        computeDiffusiveFlux flux fluxData = flux := by
  intro advective
  have hr : List.range 2 = [0, 1] := rfl
  have heq' : I.contiNEqIdx ≠ I.contiWEqIdx := fun h => heq h.symm
  refine ⟨?_, ?_, ?_⟩
  · simp only [computeFlux, computeAdvectiveFlux, computeDiffusiveFlux, hnum, hr, List.foldl]
    interval_cases hwv : I.wPhaseIdx <;> interval_cases hnv : I.nPhaseIdx
      <;> simp_all [Function.update, advective]
  · simp only [computeFlux, computeAdvectiveFlux, computeDiffusiveFlux, hnum, hr, List.foldl]
    interval_cases hwv : I.wPhaseIdx <;> interval_cases hnv : I.nPhaseIdx
      <;> simp_all [Function.update, advective]
  · intro flux fluxData
    funext eqIdx
    simp [computeDiffusiveFlux]


/-- C16 on a face between two vertices with the usual indices and full upwinding: the
wetting flux is `-(2 * (1 * 3)) = -6`, the non-wetting flux is `-(-3 * (6 * 8)) = 144`. -/
theorem computeFlux_spec_witness :
    (standardIndices.numPhases = 2 ∧ standardIndices.wPhaseIdx < 2
      ∧ standardIndices.nPhaseIdx < 2
      ∧ standardIndices.wPhaseIdx ≠ standardIndices.nPhaseIdx
      ∧ standardIndices.contiWEqIdx ≠ standardIndices.contiNEqIdx)
    ∧ computeFlux standardIndices twoVertexSecVars twoVertexFluxVars 0 = -6
    ∧ computeFlux standardIndices twoVertexSecVars twoVertexFluxVars 1 = 144 :=
  ⟨⟨rfl, by decide, by decide, by decide, by decide⟩,
    (computeFlux_spec standardIndices twoVertexSecVars twoVertexFluxVars rfl (by decide)
      (by decide) (by decide) (by decide)).1.trans (by decide!),
    (computeFlux_spec standardIndices twoVertexSecVars twoVertexFluxVars rfl (by decide)
      (by decide) (by decide) (by decide)).2.1.trans (by decide!)⟩

end Dumux
namespace Dumux

/-! ## The reconstructed interaction-volume velocity -/

/-- C19 fails on the code in the configuration of a boundary face `isIt` with an interior
`nextIsIt` when the normal of `isIt` has zero x-component: the y-component of the
reconstructed velocity is
`(faceArea21 * velocity12[1] + faceArea23 * velocity34[0]) / (faceArea21 + faceArea23)`,
with the x-component `velocity34[0]` of the velocity of the face `isIt34` where the
area-weighted average of the y-components has `velocity34[1]`.  For half face lengths `1/2`
and the uniform face velocities `(0, 1)` on `isIt` and `isIt34` the code returns the
y-component `1/2`, the area-weighted average of the y-components is `1`; in the four-cell
case and in the case of an interior `isIt` with a boundary `nextIsIt` the same data are
averaged component by component. -/
theorem velocityInteractionVol_boundaryInterior_mixes_components :
    (∀ (unitOuterNormal21 : FieldVector) (faceArea11 faceArea21 faceArea23 : ℚ)
        (velocity12 velocity13 velocity34 : FieldVector), unitOuterNormal21 0 = 0 →
      velocityInteractionVol_boundaryInterior unitOuterNormal21 faceArea11 faceArea21 faceArea23
          velocity12 velocity13 velocity34 1
        = (faceArea21 * velocity12 1 + faceArea23 * velocity34 0) / (faceArea21 + faceArea23))
    ∧ velocityInteractionVol_boundaryInterior ![0, -1] (1/2) (1/2) (1/2)
        ![0, 1] ![0, 0] ![0, 1] 1 = 1/2
    ∧ ((1/2 : ℚ) * (![0, 1] : FieldVector) 1 + (1/2) * (![0, 1] : FieldVector) 1)
        / (1/2 + 1/2) = 1
    ∧ velocityInteractionVol_fourCell ![0, -1] (1/2) (1/2) (1/2) (1/2)
        ![0, 1] ![0, 0] ![0, 0] ![0, 1] 1 = 1
    ∧ velocityInteractionVol_interiorBoundary ![-1, 0] (1/2) (1/2) (1/2)
        ![0, 0] ![0, 1] ![0, 1] 1 = 1 := by
  refine ⟨?_, by decide!, by decide!, by decide!, by decide!⟩
  intro unitOuterNormal21 faceArea11 faceArea21 faceArea23 velocity12 velocity13 velocity34 h
  simp [velocityInteractionVol_boundaryInterior, h]

end Dumux
namespace Dumux

/-! ## The sparsity pattern -/

/-- On a recognised grid the next-face rule returns a valid position. -/
theorem initializeMatrix_nextisIt_lt {g : GridImplementation} (hg : ∀ tag, g ≠ .other tag)
    {isItEnd isIt : Nat} (h : isIt < isItEnd) :
    ∃ q, q < isItEnd ∧ initializeMatrix_nextisIt g isItEnd isIt = Except.ok q := by
  cases g with
  | other tag => exact absurd rfl (hg tag)
  | sGrid =>
    simp only [initializeMatrix_nextisIt, pure, Except.pure]
    split_ifs with h1 h2
    · exact ⟨0, by omega, rfl⟩
    · exact ⟨0 + 1, by omega, rfl⟩
    · exact ⟨isIt + 1 + 1, by omega, rfl⟩
  | yaspGrid =>
    simp only [initializeMatrix_nextisIt, pure, Except.pure]
    split_ifs with h1 h2
    · exact ⟨0, by omega, rfl⟩
    · exact ⟨0 + 1, by omega, rfl⟩
    · exact ⟨isIt + 1 + 1, by omega, rfl⟩
  | ugGrid =>
    simp only [initializeMatrix_nextisIt, pure, Except.pure]
    split_ifs with h1
    · exact ⟨0, by omega, rfl⟩
    · exact ⟨isIt + 1, by omega, rfl⟩

/-- A loop whose passes all return and add `w p` to the counter returns the initial
counter plus the sum of the increments. -/
theorem foldlM_add_eq {ε : Type} (f : Nat → Nat → Except ε Nat) (w : Nat → Nat) (l : List Nat)
    (hstep : ∀ p ∈ l, ∀ r, f r p = Except.ok (r + w p)) :
    ∀ r, l.foldlM f r = Except.ok (r + (l.map w).sum) := by
  induction l with
  | nil => intro r; simp [List.foldlM, pure, Except.pure]
  | cons a t ih =>
    intro r
    simp only [List.foldlM, hstep a (List.mem_cons_self _ _) r, bind, Except.bind]
    rw [ih (fun p hp => hstep p (List.mem_cons_of_mem _ hp))]
    simp [add_assoc]

/-- A loop whose passes all return and append `w p` to the list returns the initial list
followed by the appended lists. -/
theorem foldlM_append_eq {ε α : Type} (f : List α → Nat → Except ε (List α)) (w : Nat → List α)
    (l : List Nat) (hstep : ∀ p ∈ l, ∀ cols, f cols p = Except.ok (cols ++ w p)) :
    ∀ cols, l.foldlM f cols = Except.ok (cols ++ l.flatMap w) := by
  induction l with
  | nil => intro cols; simp [List.foldlM, pure, Except.pure]
  | cons a t ih =>
    intro cols
    simp only [List.foldlM, hstep a (List.mem_cons_self _ _) cols, bind, Except.bind]
    rw [ih (fun p hp => hstep p (List.mem_cons_of_mem _ hp))]
    simp [List.append_assoc]

/-- The inner loops of the common-neighbour search append to the columns registered so
far. -/
theorem initializeMatrix_commonNeighbours_eq {n : Nat} (P : Problem n) (i j k : Fin n)
    (cols : List (Fin n)) :
    initializeMatrix_commonNeighbours P i j k cols
      = cols ++ (P.element j).intersections.flatMap (fun innerisIt =>
          (P.element k).intersections.flatMap (fun innernextisIt =>
            match innerisIt.outside, innernextisIt.outside with
            | some a, some b => if a = b ∧ a ≠ i then [a] else []
            | _, _ => [])) := by
  unfold initializeMatrix_commonNeighbours
  have inner : ∀ (innerisIt : Intersection n) (l : List (Intersection n)) (cols : List (Fin n)),
      l.foldl
        (fun cols innernextisIt =>
          match innerisIt.outside, innernextisIt.outside with
          | some a, some b => if a = b ∧ a ≠ i then cols ++ [a] else cols
          | _, _ => cols) cols
      = cols ++ l.flatMap (fun innernextisIt =>
          match innerisIt.outside, innernextisIt.outside with
          | some a, some b => if a = b ∧ a ≠ i then [a] else []
          | _, _ => []) := by
    intro innerisIt l
    induction l with
    | nil => intro cols; simp
    | cons x t ih =>
      intro cols
      simp only [List.foldl_cons, List.flatMap_cons]
      rw [ih]
      cases innerisIt.outside <;> cases x.outside <;> simp
      split_ifs <;> simp
  generalize (P.element j).intersections = l
  induction l generalizing cols with
  | nil => simp
  | cons x t ih =>
    simp only [List.foldl_cons, List.flatMap_cons]
    rw [ih, inner]
    simp [List.append_assoc]


/-- Dereferencing a valid position. -/
theorem deref_of_lt {n : Nat} (l : List (Intersection n)) {p : Nat} (h : p < l.length) :
    ∃ x, l[p]? = some x ∧ deref l p = Except.ok x := by
  refine ⟨l[p], List.getElem?_eq_getElem h, ?_⟩
  simp [deref, List.getElem?_eq_getElem h, pure, Except.pure]

/-- The data of one pass of an intersection loop of `initializeMatrix` on a recognised
grid. -/
theorem initializeMatrix_pass {n : Nat} (P : Problem n) (i : Fin n)
    (hg : ∀ tag, P.gridImplementation ≠ .other tag) {p : Nat}
    (hp : p < (P.element i).intersections.length) :
    ∃ q isIt nextisIt,
      initializeMatrix_nextisIt P.gridImplementation (P.element i).intersections.length p
        = Except.ok q
      ∧ (P.element i).intersections[p]? = some isIt
      ∧ deref (P.element i).intersections p = Except.ok isIt
      ∧ deref (P.element i).intersections q = Except.ok nextisIt
      ∧ facePair P i p = some (isIt, nextisIt) := by
  obtain ⟨q, hq, hnext⟩ := initializeMatrix_nextisIt_lt hg hp
  obtain ⟨isIt, h1, h2⟩ := deref_of_lt (P.element i).intersections hp
  obtain ⟨nextisIt, h3, h4⟩ := deref_of_lt (P.element i).intersections hq
  refine ⟨q, isIt, nextisIt, hnext, h1, h2, h4, ?_⟩
  simp only [facePair, hnext, h1, h3]

/-- One pass of the row-size loop on a recognised grid. -/
theorem initializeMatrix_rowSizeFace_eq {n : Nat} (P : Problem n) (i : Fin n)
    (hg : ∀ tag, P.gridImplementation ≠ .other tag) {p : Nat}
    (hp : p < (P.element i).intersections.length) (r : Nat) :
    initializeMatrix_rowSizeFace P i r p
      = Except.ok (r + ((if interiorFaceAt P i p then 1 else 0)
          + (if interiorPairAt P i p then 1 else 0))) := by
  obtain ⟨q, isIt, nextisIt, hnext, h1, h2, h4, hpair⟩ := initializeMatrix_pass P i hg hp
  simp only [initializeMatrix_rowSizeFace, hnext, h2, h4, bind, Except.bind, pure, Except.pure,
    interiorFaceAt, interiorPairAt, h1, hpair, Option.elim]
  cases hn : isIt.neighbor <;> cases hn' : nextisIt.neighbor <;> simp [add_assoc]

/-- One pass of the column-index loop on a recognised grid. -/
theorem initializeMatrix_addindexFace_eq {n : Nat} (P : Problem n) (i : Fin n)
    (hg : ∀ tag, P.gridImplementation ≠ .other tag) {p : Nat}
    (hp : p < (P.element i).intersections.length) (cols : List (Fin n)) :
    initializeMatrix_addindexFace P i cols p = Except.ok (cols ++ faceCols P i p) := by
  obtain ⟨q, isIt, nextisIt, hnext, h1, h2, h4, hpair⟩ := initializeMatrix_pass P i hg hp
  have hnext' : initializeMatrix_addindex_nextisIt P.gridImplementation
      (P.element i).intersections.length p = Except.ok q := hnext
  simp only [initializeMatrix_addindexFace, hnext', h2, h4, bind, Except.bind, pure, Except.pure,
    faceCols, hpair]
  cases hj : isIt.outside with
  | none => simp
  | some j =>
    cases hk : nextisIt.outside with
    | none => simp
    | some k =>
      simp only [Except.ok.injEq]
      rw [initializeMatrix_commonNeighbours_eq, initializeMatrix_commonNeighbours_eq]
      simp


/-- Counting by summing indicators. -/
theorem sum_map_ite_eq_countP (f : Nat → Bool) (l : List Nat) :
    (l.map (fun p => if f p then 1 else 0)).sum = l.countP f := by
  induction l with
  | nil => rfl
  | cons a t ih =>
    simp only [List.map_cons, List.sum_cons, List.countP_cons, ih]
    cases f a <;> simp [add_comm]

/-- Counting the positions of a list whose entry satisfies `f` counts the entries that
satisfy `f`. -/
theorem countP_range_getElem? {α : Type} (f : α → Bool) (l : List α) :
    (List.range l.length).countP (fun p => (l[p]?).elim false f) = l.countP f := by
  induction l using List.reverseRecOn with
  | nil => rfl
  | append_singleton t a ih =>
    rw [List.length_append, List.length_singleton, List.range_succ, List.countP_append,
      List.countP_append, ← ih]
    congr 1
    · apply List.countP_congr
      intro p hp
      rw [List.mem_range] at hp
      rw [List.getElem?_append_left hp]
    · simp [List.countP_cons]

/-- The row-size loop in closed form. -/
theorem initializeMatrix_rowSize_eq {n : Nat} (P : Problem n) (i : Fin n)
    (hg : ∀ tag, P.gridImplementation ≠ .other tag) :
    initializeMatrix_rowSize P i = Except.ok (1 + interiorFaces P i + interiorPairs P i) := by
  unfold initializeMatrix_rowSize
  rw [foldlM_add_eq _
    (fun p => (if interiorFaceAt P i p then 1 else 0) + (if interiorPairAt P i p then 1 else 0))
    _ (fun p hp r => initializeMatrix_rowSizeFace_eq P i hg (List.mem_range.mp hp) r)]
  have hsum : ∀ (l : List Nat) (a b : Nat → Nat),
      (l.map (fun p => a p + b p)).sum = (l.map a).sum + (l.map b).sum := by
    intro l a b
    induction l with
    | nil => rfl
    | cons x t ih => simp only [List.map_cons, List.sum_cons, ih]; omega
  rw [hsum, sum_map_ite_eq_countP, sum_map_ite_eq_countP]
  have h1 : (List.range (P.element i).intersections.length).countP (interiorFaceAt P i)
      = interiorFaces P i :=
    countP_range_getElem? (fun isIt : Intersection n => isIt.neighbor) (P.element i).intersections
  rw [h1, interiorPairs, add_assoc]

/-- The column-index loop in closed form. -/
theorem initializeMatrix_addindex_eq {n : Nat} (P : Problem n) (i : Fin n)
    (hg : ∀ tag, P.gridImplementation ≠ .other tag) :
    initializeMatrix_addindex P i = Except.ok (registeredColumns P i) := by
  unfold initializeMatrix_addindex
  rw [foldlM_append_eq _ (faceCols P i) _
    (fun p hp cols => initializeMatrix_addindexFace_eq P i hg (List.mem_range.mp hp) cols)]
  rfl


/-- The columns the common-neighbour search registers. -/
theorem mem_initializeMatrix_commonNeighbours {n : Nat} (P : Problem n) (i j k c : Fin n) :
    c ∈ initializeMatrix_commonNeighbours P i j k []
      ↔ c ≠ i ∧ (∃ f ∈ (P.element j).intersections, f.outside = some c)
        ∧ (∃ f ∈ (P.element k).intersections, f.outside = some c) := by
  rw [initializeMatrix_commonNeighbours_eq]
  simp only [List.nil_append, List.mem_flatMap]
  constructor
  · rintro ⟨f2, hf2, f3, hf3, hc⟩
    cases h2 : f2.outside with
    | none => simp [h2] at hc
    | some a =>
      cases h3 : f3.outside with
      | none => simp [h2, h3] at hc
      | some b =>
        simp only [h2, h3] at hc
        split_ifs at hc with hab
        · simp only [List.mem_singleton] at hc
          subst hc
          exact ⟨hab.2, ⟨f2, hf2, h2⟩, ⟨f3, hf3, by rw [h3, hab.1]⟩⟩
        · simp at hc
  · rintro ⟨hci, ⟨f2, hf2, h2⟩, ⟨f3, hf3, h3⟩⟩
    refine ⟨f2, hf2, f3, hf3, ?_⟩
    simp [h2, h3, hci]

/-- The columns registered in the row of cell `i` on a recognised grid. -/
theorem mem_registeredColumns {n : Nat} (P : Problem n) (i : Fin n)
    (hg : ∀ tag, P.gridImplementation ≠ .other tag) (c : Fin n) :
    c ∈ registeredColumns P i
      ↔ c = i ∨ (∃ isIt ∈ (P.element i).intersections, isIt.outside = some c)
        ∨ IsDiagonalNeighbour P i c := by
  unfold registeredColumns
  simp only [List.mem_cons, List.mem_flatMap, List.mem_range]
  constructor
  · rintro (h | ⟨p, hp, hc⟩)
    · exact Or.inl h
    · obtain ⟨q, isIt, nextisIt, _, h1, _, _, hpair⟩ := initializeMatrix_pass P i hg hp
      simp only [faceCols, hpair] at hc
      cases hj : isIt.outside with
      | none => simp [hj] at hc
      | some j =>
        simp only [hj, List.mem_cons] at hc
        rcases hc with hc | hc
        · exact Or.inr (Or.inl ⟨isIt, List.getElem?_mem h1, by rw [hj, hc]⟩)
        · cases hk : nextisIt.outside with
          | none => simp [hk] at hc
          | some k =>
            simp only [hk] at hc
            obtain ⟨hci, hf2, hf3⟩ := (mem_initializeMatrix_commonNeighbours P i j k c).mp hc
            exact Or.inr (Or.inr ⟨p, isIt, nextisIt, j, k, hp, hpair, hj, hk, hci, hf2, hf3⟩)
  · rintro (h | ⟨isIt, hmem, hout⟩ | ⟨p, isIt, nextisIt, j, k, hp, hpair, hj, hk, hci, hf2, hf3⟩)
    · exact Or.inl h
    · obtain ⟨p, hp, hget⟩ := List.getElem_of_mem hmem
      obtain ⟨q, isIt', nextisIt, _, h1, _, _, hpair⟩ := initializeMatrix_pass P i hg hp
      have he : isIt' = isIt := by
        rw [List.getElem?_eq_getElem hp, hget] at h1
        exact (Option.some.inj h1).symm
      subst he
      refine Or.inr ⟨p, hp, ?_⟩
      simp [faceCols, hpair, hout]
    · refine Or.inr ⟨p, hp, ?_⟩
      simp only [faceCols, hpair, hj, hk, List.mem_cons]
      exact Or.inr ((mem_initializeMatrix_commonNeighbours P i j k c).mpr ⟨hci, hf2, hf3⟩)

/-- The number of calls of `addindex` for the row of cell `i` when every pair of interior
faces has exactly one common fourth cell. -/
theorem length_registeredColumns {n : Nat} (P : Problem n) (i : Fin n)
    (hg : ∀ tag, P.gridImplementation ≠ .other tag) (hu : UniqueFourthCell P i) :
    (registeredColumns P i).length = 1 + interiorFaces P i + interiorPairs P i := by
  have hlen : ∀ p ∈ List.range (P.element i).intersections.length,
      (List.length ∘ faceCols P i) p
        = (fun p => (if interiorFaceAt P i p then 1 else 0)
            + (if interiorPairAt P i p then 1 else 0)) p := by
    intro p hp
    rw [List.mem_range] at hp
    obtain ⟨q, isIt, nextisIt, _, h1, _, _, hpair⟩ := initializeMatrix_pass P i hg hp
    simp only [Function.comp, faceCols, hpair, interiorFaceAt, interiorPairAt, h1, Option.elim,
      Intersection.neighbor]
    cases hj : isIt.outside with
    | none => simp
    | some j =>
      cases hk : nextisIt.outside with
      | none => simp
      | some k => simp [hu p isIt nextisIt j k hp hpair hj hk, add_comm]
  have hsum : ∀ (l : List Nat) (a b : Nat → Nat),
      (l.map (fun p => a p + b p)).sum = (l.map a).sum + (l.map b).sum := by
    intro l a b
    induction l with
    | nil => rfl
    | cons x t ih => simp only [List.map_cons, List.sum_cons, ih]; omega
  unfold registeredColumns
  rw [List.length_cons, List.length_flatMap, List.map_congr_left hlen, hsum,
    sum_map_ite_eq_countP, sum_map_ite_eq_countP]
  have h1 : (List.range (P.element i).intersections.length).countP (interiorFaceAt P i)
      = interiorFaces P i :=
    countP_range_getElem? (fun isIt : Intersection n => isIt.neighbor) (P.element i).intersections
  rw [h1, interiorPairs]
  omega


/-- A traversal whose steps all return returns the list of the results. -/
theorem mapM_eq_ok {ε α β : Type} (f : α → Except ε β) (g : α → β) (l : List α)
    (h : ∀ a ∈ l, f a = Except.ok (g a)) : l.mapM f = Except.ok (l.map g) := by
  induction l with
  | nil => rfl
  | cons a t ih =>
    rw [List.mapM_cons, h a (List.mem_cons_self _ _),
      ih (fun b hb => h b (List.mem_cons_of_mem _ hb))]
    rfl

/-- C15: on a recognised grid `initializeMatrix` returns; it declares for each cell `i` the
row size `1 + (number of interior faces of i) + (number of faces f of i such that f and
next(f) are both interior)` and registers in the row of `i` exactly the columns `i`, every
face neighbour, and every common neighbour other than `i` of the two neighbours across such
a pair of faces.  When every such pair has exactly one common fourth cell and the
registered cells are all distinct, the number of registered columns equals the declared row
size; for a cell with four faces the row size is at most `9 = 4 * dim + (dim - 1)`, the
number of nonzero entries per cell that the constructor reserves. -/
theorem initializeMatrix_spec {n : Nat} (P : Problem n)
    (hg : ∀ tag, P.gridImplementation ≠ GridImplementation.other tag) :
    initializeMatrix P
        = Except.ok ((List.finRange n).map (fun i => 1 + interiorFaces P i + interiorPairs P i),
            (List.finRange n).map (registeredColumns P))
    ∧ (∀ i c, c ∈ registeredColumns P i
        ↔ c = i ∨ (∃ isIt ∈ (P.element i).intersections, isIt.outside = some c)
          ∨ IsDiagonalNeighbour P i c)
    ∧ (∀ i, UniqueFourthCell P i → (registeredColumns P i).Nodup →
        (registeredColumns P i).toFinset.card = 1 + interiorFaces P i + interiorPairs P i)
    ∧ (∀ i, (P.element i).intersections.length = 4 →
        1 + interiorFaces P i + interiorPairs P i ≤ 4 * dim + (dim - 1))
    ∧ 4 * dim + (dim - 1) = 9
    ∧ constructorNnz n = 9 * n := by
  refine ⟨?_, fun i c => mem_registeredColumns P i hg c, ?_, ?_, rfl, rfl⟩
  · unfold initializeMatrix
    rw [mapM_eq_ok _ _ _ (fun i _ => initializeMatrix_rowSize_eq P i hg),
      mapM_eq_ok _ _ _ (fun i _ => initializeMatrix_addindex_eq P i hg)]
    rfl
  · intro i hu hnodup
    rw [List.toFinset_card_of_nodup hnodup, length_registeredColumns P i hg hu]
  · intro i h4
    have h1 : interiorFaces P i ≤ 4 := by
      unfold interiorFaces
      exact h4 ▸ List.countP_le_length _
    have h2 : interiorPairs P i ≤ 4 := by
      unfold interiorPairs
      have h : List.countP (interiorPairAt P i)
          (List.range (P.element i).intersections.length)
          ≤ (List.range (P.element i).intersections.length).length :=
        List.countP_le_length _
      rw [List.length_range] at h
      omega
    have hd : 4 * dim + (dim - 1) = 9 := rfl
    omega


/-- C15 on the 2x2 grid of unit squares on YaspGrid: every cell has two interior faces and
one pair of interior faces, whose neighbours have the diagonal cell as their common fourth
cell; the declared row sizes are 4 and four distinct columns are registered in every
row. -/
theorem initializeMatrix_spec_witness :
    (∀ tag, twoByTwoProblem.gridImplementation ≠ GridImplementation.other tag)
    ∧ initializeMatrix twoByTwoProblem
        = Except.ok ([4, 4, 4, 4], [[0, 1, 3, 2], [1, 0, 3, 2], [2, 3, 0, 1], [3, 2, 0, 1]]) :=
  ⟨fun _ h => GridImplementation.noConfusion h,
    (initializeMatrix_spec twoByTwoProblem (fun _ h => GridImplementation.noConfusion h)).1.trans
      (by decide!)⟩

end Dumux
namespace Dumux

/-! ## Frame and state independence of `assemble` -/

/-- The pass of cell `i` of the element loop overwrites `f_[i]` and commutes with adding a
system to the state: what is added stays added, except in `f_[i]`. -/
theorem assembleElement_add {n : Nat} (P : Problem n) (i : Fin n) (s t : System n) :
    assembleElement P (s.add t) i
      = (assembleElement P s i).map
          (fun r => r.add { M_ := t.M_, f_ := fun a => if a = i then 0 else t.f_ a }) := by
  have hset : ∀ v : ℚ, (s.add t).setF i v
      = (s.setF i v).add { M_ := t.M_, f_ := fun a => if a = i then 0 else t.f_ a } := by
    intro v
    simp only [System.add, System.setF, System.mk.injEq, true_and]
    funext a
    simp only [Pi.add_apply]
    split_ifs <;> simp
  unfold assembleElement
  simp only [hset]
  split_ifs
  · simp only [pure, Except.pure, Except.map, System.addM_add]
  · exact foldlM_assembleFace_add P i _ _ _

/-- C26: the pass of cell `i` of the element loop of `assemble` writes only row `i` of `M_`
and only entry `i` of `f_` (every other row and entry is left as it was), and after
`assemble` row `i` of `M_` and `f_[i]` are those that the pass of cell `i` alone produces
when it is run on the zero system: no pass of another cell contributes to them. -/
theorem assemble_frame {n : Nat} (P : Problem n) :
    (∀ (i : Fin n) (s s' : System n), assembleElement P s i = Except.ok s' →
      (∀ a b, a ≠ i → s'.M_ a b = s.M_ a b) ∧ (∀ a, a ≠ i → s'.f_ a = s.f_ a))
    ∧ (∀ (s s' : System n) (i : Fin n), assemble P s = Except.ok s' →
      ∃ s2, assembleElement P (zeroSystem n) i = Except.ok s2
        ∧ (∀ b, s'.M_ i b = s2.M_ i b) ∧ s'.f_ i = s2.f_ i) := by
  refine ⟨fun i s s' h => assembleElement_agreesOffRow h, ?_⟩
  intro s s' i h
  obtain ⟨s1, s2, h1, h2, h3⟩ := assemble_row h i
  have hs1 : s1 = (zeroSystem n).add s1 := by
    cases s1
    simp [System.add, zeroSystem]
  rw [hs1, assembleElement_add] at h2
  cases hz : assembleElement P (zeroSystem n) i with
  | error e => rw [hz] at h2; cases h2
  | ok z =>
    rw [hz] at h2
    simp only [Except.map, Except.ok.injEq] at h2
    subst h2
    refine ⟨z, rfl, ?_, ?_⟩
    · intro b
      rw [h3.1 b]
      simp [System.add, h1 b]
    · rw [h3.2]
      simp [System.add]

/-- C27: `assemble` sets `M_` to zero and overwrites every `f_[i]` before it accumulates, so
its result does not depend on the previous contents of `M_` and `f_`, and calling it a
second time on the result of the first call (with the problem state unchanged) returns the
same system (or the same error) as the first call. -/
theorem assemble_state_independent {n : Nat} (P : Problem n) :
    (∀ s t : System n, assemble P s = assemble P t)
    ∧ (∀ s : System n, (assemble P s).bind (assemble P) = assemble P s) := by
  refine ⟨fun s t => assemble_independent_of_previous P s t, ?_⟩
  intro s
  cases h : assemble P s with
  | error e => rfl
  | ok s1 =>
    show assemble P s1 = Except.ok s1
    rw [assemble_independent_of_previous P s1 s, h]

end Dumux
namespace Dumux

/-! ## The next-face map of a four-faced cell -/

/-- C28: for each supported grid kind the next-face rule of `assemble` on the face positions
`0, 1, 2, 3` of a four-faced cell is given by a map `next` that is a bijection with one
cycle of length four: no face is its own next face, the second and the third power of
`next` have no fixed point, the fourth power is the identity, and the four pairs
`(f, next f)` are pairwise distinct, so every face occurs exactly once as `isIt` and
exactly once as `nextisIt`. -/
theorem assemble_nextisIt_single_cycle (gridImplementation : GridImplementation)
    (hg : gridImplementation = GridImplementation.sGrid
      ∨ gridImplementation = GridImplementation.yaspGrid
      ∨ gridImplementation = GridImplementation.ugGrid) :
    ∃ next : Fin 4 → Fin 4,
      (∀ f : Fin 4, assemble_nextisIt gridImplementation 4 f.val = Except.ok (next f).val)
      ∧ Function.Bijective next
      ∧ (∀ f, next f ≠ f)
      ∧ (∀ f, next (next f) ≠ f)
      ∧ (∀ f, next (next (next f)) ≠ f)
      ∧ (∀ f, next (next (next (next f))) = f)
      ∧ (∀ f f', (f, next f) = (f', next f') → f = f')
      ∧ (∀ f', ∃! f, next f = f') := by
  rcases hg with rfl | rfl | rfl
  · have hb : Function.Bijective (![2, 3, 1, 0] : Fin 4 → Fin 4) := ⟨by decide, by decide⟩
    exact ⟨![2, 3, 1, 0], by decide, hb, by decide, by decide, by decide, by decide, by decide,
      fun f' => hb.existsUnique f'⟩
  · have hb : Function.Bijective (![2, 3, 1, 0] : Fin 4 → Fin 4) := ⟨by decide, by decide⟩
    exact ⟨![2, 3, 1, 0], by decide, hb, by decide, by decide, by decide, by decide, by decide,
      fun f' => hb.existsUnique f'⟩
  · have hb : Function.Bijective (![1, 2, 3, 0] : Fin 4 → Fin 4) := ⟨by decide, by decide⟩
    exact ⟨![1, 2, 3, 0], by decide, hb, by decide, by decide, by decide, by decide, by decide,
      fun f' => hb.existsUnique f'⟩

/-- C28 for YaspGrid: the next-face rule is the cycle 0 -> 2 -> 1 -> 3 -> 0, and on the unit
square the four passes of the intersection loop find the four corners
`(0, 0)`, `(1, 1)`, `(1, 0)`, `(0, 1)`, each once. -/
theorem assemble_nextisIt_single_cycle_witness :
    (GridImplementation.yaspGrid = GridImplementation.sGrid
      ∨ GridImplementation.yaspGrid = GridImplementation.yaspGrid
      ∨ GridImplementation.yaspGrid = GridImplementation.ugGrid)
    ∧ (∃ next : Fin 4 → Fin 4,
      (∀ f : Fin 4, assemble_nextisIt GridImplementation.yaspGrid 4 f.val
        = Except.ok (next f).val)
      ∧ Function.Bijective next
      ∧ (∀ f, next f ≠ f)
      ∧ (∀ f, next (next f) ≠ f)
      ∧ (∀ f, next (next (next f)) ≠ f)
      ∧ (∀ f, next (next (next (next f))) = f)
      ∧ (∀ f f', (f, next f) = (f', next f') → f = f')
      ∧ (∀ f', ∃! f, next f = f'))
    ∧ (List.range 4).map
        (fun p => (faceData (oneCellProblem 1 ⟨0, 0⟩ 0) 0 p).map (fun d => d.corner1234))
      = [Except.ok ![0, 0], Except.ok ![1, 1], Except.ok ![1, 0], Except.ok ![0, 1]] :=
  ⟨Or.inr (Or.inl rfl),
    assemble_nextisIt_single_cycle GridImplementation.yaspGrid (Or.inr (Or.inl rfl)),
    by decide!⟩

end Dumux
namespace Dumux

/-! ## The velocity type in the upwind updater -/

/-- C29: for the velocity types `vw` and `vn` the upwind updater reads the same face
velocity, `velocity + velocitySecondPhase`, in every interaction-volume configuration (all
configurations read their face velocities through the same `switch`), and for `vt` it reads
`velocity` alone; hence, for the same variables store, `updateMaterialLaws` returns the same
store, in particular the same upwind mobilities, under `vw` and under `vn`. -/
theorem updateMaterialLaws_vw_eq_vn {n : Nat} (P : UpwindProblem n) (first : Bool)
    (v : Variables n) :
    (∀ (globalIdx : Fin n) (index : Nat),
      faceVelocity VelocityType.vw v globalIdx index
          = v.velocity globalIdx index + v.velocitySecondPhase globalIdx index
      ∧ faceVelocity VelocityType.vn v globalIdx index
          = v.velocity globalIdx index + v.velocitySecondPhase globalIdx index
      ∧ faceVelocity VelocityType.vt v globalIdx index = v.velocity globalIdx index)
    ∧ updateMaterialLaws { P with velocityType_ := VelocityType.vw } first v
        = updateMaterialLaws { P with velocityType_ := VelocityType.vn } first v :=
  ⟨fun _ _ => ⟨rfl, rfl, rfl⟩, rfl⟩

end Dumux
namespace Dumux

/-! ## The last tie override of the upwind selection -/

/-- In the neighbour branch the minimum of the three potentials is negative. -/
theorem minPot_neg_of_branch (a b : ℚ) (hb : |a| > |b|) (hab : a ≤ b) : a < 0 := by
  by_contra h
  rw [not_lt] at h
  rw [abs_of_nonneg h, abs_of_nonneg (le_trans h hab)] at hb
  linarith

/-- With the diagonal potential `p11 + p21`, the two face potentials are not both equal to
a negative minimum of the three potentials. -/
theorem not_both_eq_minPot (p11 p21 : ℚ) (hneg : min (min p11 p21) (p11 + p21) < 0) :
    ¬ (p11 = min (min p11 p21) (p11 + p21) ∧ p21 = min (min p11 p21) (p11 + p21)) := by
  rintro ⟨h1, h2⟩
  have h3 : min (min p11 p21) (p11 + p21) ≤ p11 + p21 := min_le_right _ _
  rw [← h1] at hneg
  have h4 : p21 = p11 := h2.trans h1.symm
  rw [← h1, h4] at h3
  linarith

/-- The result of the chain of comparisons of `satUpw1` is one of the three neighbour
candidates when `minPot` is the minimum of the three potentials. -/
theorem satUpw1Chain_mem (p11 p21 pD s2 s3 s4 cur : ℚ) :
    satUpw1Chain (min (min p11 p21) pD) p11 p21 pD s2 s3 s4 cur = s2
    ∨ satUpw1Chain (min (min p11 p21) pD) p11 p21 pD s2 s3 s4 cur = s3
    ∨ satUpw1Chain (min (min p11 p21) pD) p11 p21 pD s2 s3 s4 cur = s4 := by
  unfold satUpw1Chain
  split_ifs with h1 h2 h3
  · exact Or.inr (Or.inr rfl)
  · exact Or.inr (Or.inl rfl)
  · exact Or.inl rfl
  · exfalso
    rcases min_choice (min p11 p21) pD with h | h
    · rcases min_choice p11 p21 with h' | h'
      · exact h2 (h.trans h')
      · exact h3 (h.trans h')
    · exact h1 h

/-- The result of the chain of comparisons of `satUpw2`, `satUpw3`, `satUpw4` is one of the
three candidates when `minPot` is the minimum of the three potentials. -/
theorem satUpw2Chain_mem (p12 p22 pD s12 s22 sD cur : ℚ) :
    satUpw2Chain (min (min p12 p22) pD) p12 p22 pD s12 s22 sD cur = s12
    ∨ satUpw2Chain (min (min p12 p22) pD) p12 p22 pD s12 s22 sD cur = s22
    ∨ satUpw2Chain (min (min p12 p22) pD) p12 p22 pD s12 s22 sD cur = sD := by
  unfold satUpw2Chain
  split_ifs with h1 h2 h3
  · exact Or.inl rfl
  · exact Or.inr (Or.inl rfl)
  · exact Or.inr (Or.inr rfl)
  · exfalso
    rcases min_choice (min p12 p22) pD with h | h
    · rcases min_choice p12 p22 with h' | h'
      · exact h1 (h.trans h')
      · exact h2 (h.trans h')
    · exact h3 h

/-- C30: in exact arithmetic, with the diagonal potential `potential11 + potential21`,
whenever the neighbour branch `|minPot| > |maxPot|` is entered the minimum is strictly
negative and `potential11` and `potential21` are not both equal to it; hence the condition
`minPot == potential21 && potential21 == potential11` of the last tie override is false, the
value of that override does not enter the result, and the selected upwind saturation
(`satUpw1` as well as `satUpw2`, `satUpw3`, `satUpw4`) is one of the three neighbour
candidates: it never keeps its initial value 0. -/
theorem last_tie_override_unreachable (potential11 potential21 : ℚ)
    (saturationOwn saturationA saturationB saturationC : ℚ)
    (hbranch : |min (min potential11 potential21) (potential11 + potential21)|
      > |max (max potential11 potential21) (potential11 + potential21)|) :
    min (min potential11 potential21) (potential11 + potential21) < 0
    ∧ ¬ (potential11 = min (min potential11 potential21) (potential11 + potential21)
        ∧ potential21 = min (min potential11 potential21) (potential11 + potential21))
    ∧ ¬ (min (min potential11 potential21) (potential11 + potential21) = potential21
        ∧ potential21 = potential11)
    ∧ (∀ x, satUpw1FromPotentials potential11 potential21 (potential11 + potential21)
          saturationOwn saturationA saturationB x
        = satUpw1Ties (min (min potential11 potential21) (potential11 + potential21))
            potential11 potential21 (potential11 + potential21) saturationA saturationB
            saturationC
            (satUpw1Chain (min (min potential11 potential21) (potential11 + potential21))
              potential11 potential21 (potential11 + potential21) saturationA saturationB x 0))
    ∧ (satUpw1FromPotentials potential11 potential21 (potential11 + potential21)
          saturationOwn saturationA saturationB saturationC = saturationA
      ∨ satUpw1FromPotentials potential11 potential21 (potential11 + potential21)
          saturationOwn saturationA saturationB saturationC = saturationB
      ∨ satUpw1FromPotentials potential11 potential21 (potential11 + potential21)
          saturationOwn saturationA saturationB saturationC = saturationC)
    ∧ (satUpw2FromPotentials potential11 potential21 (potential11 + potential21)
          saturationOwn saturationA saturationB saturationC = saturationA
      ∨ satUpw2FromPotentials potential11 potential21 (potential11 + potential21)
          saturationOwn saturationA saturationB saturationC = saturationB
      ∨ satUpw2FromPotentials potential11 potential21 (potential11 + potential21)
          saturationOwn saturationA saturationB saturationC = saturationC) := by
  have hneg : min (min potential11 potential21) (potential11 + potential21) < 0 :=
    minPot_neg_of_branch _ _ hbranch
      (le_trans (min_le_left _ _) (le_trans (min_le_left _ _)
        (le_trans (le_max_left _ _) (le_max_left _ _))))
  have hnot := not_both_eq_minPot potential11 potential21 hneg
  have htie : ¬ (min (min potential11 potential21) (potential11 + potential21) = potential21
      ∧ potential21 = potential11) := fun h => hnot ⟨(h.1.trans h.2).symm, h.1.symm⟩
  have hb : ¬ (|max (max potential11 potential21) (potential11 + potential21)|
      ≥ |min (min potential11 potential21) (potential11 + potential21)|) := not_le.mpr hbranch
  refine ⟨hneg, hnot, htie, ?_, ?_, ?_⟩
  · intro x
    simp only [satUpw1FromPotentials, if_neg hb, satUpw1Ties, if_neg htie]
  · simp only [satUpw1FromPotentials, if_neg hb, satUpw1Ties, if_neg htie]
    split_ifs
    · exact Or.inr (Or.inl rfl)
    · exact Or.inl rfl
    · exact satUpw1Chain_mem _ _ _ _ _ _ _
  · simp only [satUpw2FromPotentials, if_neg hb, satUpw2Ties, if_neg htie]
    split_ifs
    · exact Or.inl rfl
    · exact Or.inr (Or.inl rfl)
    · exact satUpw2Chain_mem _ _ _ _ _ _ _

/-- C30 at the potentials `-1` and `0`: the neighbour branch is entered, the minimum is
`-1`, and the selection returns the candidate of the first face. -/
theorem last_tie_override_unreachable_witness :
    |min (min (-1 : ℚ) 0) (-1 + 0)| > |max (max (-1 : ℚ) 0) (-1 + 0)|
    ∧ min (min (-1 : ℚ) 0) (-1 + 0) < 0
    ∧ satUpw1FromPotentials (-1) 0 (-1 + 0) 10 20 30 40 = 30 :=
  ⟨by decide!,
    (last_tie_override_unreachable (-1) 0 10 20 30 40 (by decide!)).1, by decide!⟩

end Dumux
namespace Dumux

/-! ## The shared-corner search -/

/-- The inner loop of the corner search keeps the current value unless the corner of `isIt`
is among the corners of `nextisIt`. -/
theorem cornerInner_eq (ys : List GlobalPosition) (x c : GlobalPosition) :
    ys.foldl (fun c y => if y = x then x else c) c = if x ∈ ys then x else c := by
  induction ys generalizing c with
  | nil => simp
  | cons y ys ih =>
    rw [List.foldl_cons, ih]
    by_cases hy : y = x
    · subst hy
      simp
    · have hy' : ¬ x = y := fun h => hy h.symm
      by_cases hx : x ∈ ys
      · simp [hy, hx]
      · simp [hy, hy', hx]

/-- The double loop of the corner search returns the last element of the first list that
occurs in the second list, and the start value when there is none. -/
theorem cornerOuter_eq (xs ys : List GlobalPosition) (c : GlobalPosition) :
    xs.foldl (fun c x => ys.foldl (fun c y => if y = x then x else c) c) c
      = ((xs.filter (fun x => decide (x ∈ ys))).getLast?).getD c := by
  induction xs generalizing c with
  | nil => simp
  | cons x xs ih =>
    rw [List.foldl_cons, ih, cornerInner_eq]
    by_cases hx : x ∈ ys
    · rw [if_pos hx, List.filter_cons_of_pos (by simpa using hx), List.getLast?_cons]
      rfl
    · rw [if_neg hx, List.filter_cons_of_neg (by simpa using hx)]

/-- The double loop of the corner search either finds no element of the first list in the
second list and returns the start value, or returns an element of the first list that occurs
in the second list and after which no element of the first list occurs in the second. -/
theorem cornerOuter_last (xs ys : List GlobalPosition) (c : GlobalPosition) :
    ((∀ x, x ∈ xs → x ∉ ys)
      ∧ xs.foldl (fun c x => ys.foldl (fun c y => if y = x then x else c) c) c = c)
    ∨ ∃ before after,
        xs = before
          ++ xs.foldl (fun c x => ys.foldl (fun c y => if y = x then x else c) c) c :: after
        ∧ xs.foldl (fun c x => ys.foldl (fun c y => if y = x then x else c) c) c ∈ ys
        ∧ ∀ x, x ∈ after → x ∉ ys := by
  induction xs using List.reverseRecOn with
  | nil => exact Or.inl ⟨fun _ h => (by cases h), rfl⟩
  | append_singleton xs x ih =>
    rw [List.foldl_append, List.foldl_cons, List.foldl_nil, cornerInner_eq]
    by_cases hx : x ∈ ys
    · rw [if_pos hx]
      exact Or.inr ⟨xs, [], rfl, hx, fun _ h => (by cases h)⟩
    · rw [if_neg hx]
      rcases ih with ⟨hnone, hc⟩ | ⟨before, after, hsplit, hmem, hafter⟩
      · left
        refine ⟨?_, hc⟩
        intro z hz
        rcases List.mem_append.mp hz with hz | hz
        · exact hnone z hz
        · rw [List.mem_singleton.mp hz]
          exact hx
      · right
        refine ⟨before, after ++ [x], ?_, hmem, ?_⟩
        · conv_lhs => rw [hsplit]
          simp
        · intro z hz
          rcases List.mem_append.mp hz with hz | hz
          · exact hafter z hz
          · rw [List.mem_singleton.mp hz]
            exact hx

/-- C23: the shared-corner search over the corners of `isIt` and `nextisIt` (the same double
loop in `assemble` and in `updateMaterialLaws`) is a total function that returns the last
corner of `isIt`, in iteration order, that is also a corner of `nextisIt`, and the origin
when there is none.  So whenever the two faces have a corner in common the result is a corner
of both faces, and when they have no corner in common the result is the origin `(0, 0)`; the
prelude of a pass of `assemble` succeeds with that value as soon as the next-face rule and
the two dereferences succeed, whatever the corners are. -/
theorem corner1234_spec {n : Nat} (isIt nextisIt : Intersection n) :
    corner1234 isIt nextisIt
      = ((isIt.corners.filter (fun c => decide (c ∈ nextisIt.corners))).getLast?).getD 0
    ∧ ((∃ c, c ∈ isIt.corners ∧ c ∈ nextisIt.corners) →
        corner1234 isIt nextisIt ∈ isIt.corners
        ∧ corner1234 isIt nextisIt ∈ nextisIt.corners
        ∧ ∃ before after, isIt.corners = before ++ corner1234 isIt nextisIt :: after
          ∧ ∀ c, c ∈ after → c ∉ nextisIt.corners)
    ∧ ((∀ c, c ∈ isIt.corners → c ∉ nextisIt.corners) → corner1234 isIt nextisIt = ![0, 0])
    ∧ (∀ (P : Problem n) (i : Fin n) (p q : Nat),
        (P.element i).intersections[p]? = some isIt →
        assemble_nextisIt P.gridImplementation (P.element i).intersections.length p
          = Except.ok q →
        (P.element i).intersections[q]? = some nextisIt →
        ∃ d, faceData P i p = Except.ok d ∧ d.corner1234 = corner1234 isIt nextisIt) := by
  have h1 : corner1234 isIt nextisIt
      = ((isIt.corners.filter (fun c => decide (c ∈ nextisIt.corners))).getLast?).getD 0 :=
    cornerOuter_eq _ _ _
  refine ⟨h1, ?_, ?_, ?_⟩
  · rintro ⟨c, hc1, hc2⟩
    have hne : isIt.corners.filter (fun c => decide (c ∈ nextisIt.corners)) ≠ [] := by
      intro h
      have : c ∈ isIt.corners.filter (fun c => decide (c ∈ nextisIt.corners)) :=
        List.mem_filter.mpr ⟨hc1, by simpa using hc2⟩
      rw [h] at this
      cases this
    have h2 : corner1234 isIt nextisIt
        = (isIt.corners.filter (fun c => decide (c ∈ nextisIt.corners))).getLast hne := by
      rw [h1, List.getLast?_eq_getLast _ hne]
      rfl
    have hmem : corner1234 isIt nextisIt
        ∈ isIt.corners.filter (fun c => decide (c ∈ nextisIt.corners)) := by
      rw [h2]
      exact List.getLast_mem hne
    have hm := List.mem_filter.mp hmem
    refine ⟨hm.1, by simpa using hm.2, ?_⟩
    rcases cornerOuter_last isIt.corners nextisIt.corners 0 with ⟨hnone, _⟩ | ⟨b, a, hs, _, ha⟩
    · exact absurd hc2 (hnone c hc1)
    · exact ⟨b, a, hs, ha⟩
  · intro h
    have : isIt.corners.filter (fun c => decide (c ∈ nextisIt.corners)) = [] := by
      rw [List.filter_eq_nil_iff]
      intro c hc
      simpa using h c hc
    rw [h1, this]
    ext j
    fin_cases j <;> rfl
  · intro P i p q hp hq hnext
    simp only [faceData, hq, deref, hp, hnext, bind, Except.bind, pure, Except.pure]
    exact ⟨_, rfl, rfl⟩

end Dumux
namespace Dumux

/-! ## The area normaliser -/

/-- The scalar product behind `dF`: for `nuA = R dA` and `nuB = R dB` it is the 2D cross
product of `dA` and `dB`. -/
theorem dF_rotated (dA dB : FieldVector) :
    dF (umv R dA 0) (umv R dB 0) = |dA 0 * dB 1 - dA 1 * dB 0| := by
  unfold dF umv R
  congr 1
  simp [Matrix.dotProduct, Matrix.mulVec, Fin.sum_univ_two]
  ring

/-- The 2D cross product of two vectors vanishes exactly when they are linearly dependent. -/
theorem cross_eq_zero_iff (dA dB : FieldVector) :
    dA 0 * dB 1 - dA 1 * dB 0 = 0 ↔ ∃ a b : ℚ, (a ≠ 0 ∨ b ≠ 0) ∧ a • dA + b • dB = 0 := by
  constructor
  · intro h
    by_cases h0 : dA 0 = 0
    · by_cases h1 : dA 1 = 0
      · refine ⟨1, 0, Or.inl one_ne_zero, ?_⟩
        ext j
        fin_cases j <;> simp [h0, h1]
      · refine ⟨dB 1, -dA 1, Or.inr (neg_ne_zero.mpr h1), ?_⟩
        ext j
        fin_cases j
        · simp only [Fin.zero_eta, Pi.add_apply, Pi.smul_apply, smul_eq_mul, Pi.zero_apply]
          linarith
        · simp only [Fin.mk_one, Pi.add_apply, Pi.smul_apply, smul_eq_mul, Pi.zero_apply]
          ring
    · refine ⟨dB 0, -dA 0, Or.inr (neg_ne_zero.mpr h0), ?_⟩
      ext j
      fin_cases j
      · simp only [Fin.zero_eta, Pi.add_apply, Pi.smul_apply, smul_eq_mul, Pi.zero_apply]
        ring
      · simp only [Fin.mk_one, Pi.add_apply, Pi.smul_apply, smul_eq_mul, Pi.zero_apply]
        linarith
  · rintro ⟨a, b, hab, h⟩
    have e0 : a * dA 0 + b * dB 0 = 0 := by
      have := congrFun h 0
      simpa using this
    have e1 : a * dA 1 + b * dB 1 = 0 := by
      have := congrFun h 1
      simpa using this
    have ha : a * (dA 0 * dB 1 - dA 1 * dB 0) = 0 := by
      linear_combination dB 1 * e0 - dB 0 * e1
    have hb : b * (dA 0 * dB 1 - dA 1 * dB 0) = 0 := by
      linear_combination dA 0 * e1 - dA 1 * e0
    rcases hab with hab | hab
    · exact (mul_eq_zero.mp ha).resolve_left hab
    · exact (mul_eq_zero.mp hb).resolve_left hab

/-- C22: with `nu11 = R d1` and `nu21 = R d2` the normaliser `dF1 = |nu11 . (R nu21)|` is
`|d1.x d2.y - d1.y d2.x|`, the absolute 2D cross product of `d1` and `d2`; it is
non-negative, and it is zero exactly when `d1` and `d2` are collinear (linearly dependent).
In a pass of `assemble` the coefficients `g111`, `g121`, `g211`, `g221` of cell 1 are
quotients by this `dF1` for `d1 = faceCentre13 - centre1` and `d2 = centre1 - faceCentre12`,
and when `dF1` is not zero each of them times `dF1` is its numerator. -/
theorem dF1_is_cross_product (d1 d2 : FieldVector) :
    dF (umv R d1 0) (umv R d2 0) = |d1 0 * d2 1 - d1 1 * d2 0|
    ∧ 0 ≤ dF (umv R d1 0) (umv R d2 0)
    ∧ (dF (umv R d1 0) (umv R d2 0) = 0
        ↔ ∃ a b : ℚ, (a ≠ 0 ∨ b ≠ 0) ∧ a • d1 + b • d2 = 0)
    ∧ (∀ (lambda : ℚ) (normal nu : FieldVector) (K : FieldMatrix),
        gCoefficient lambda normal K nu (dF (umv R d1 0) (umv R d2 0))
          = lambda * Matrix.dotProduct normal (K.mulVec nu) / |d1 0 * d2 1 - d1 1 * d2 0|
        ∧ (dF (umv R d1 0) (umv R d2 0) ≠ 0 →
            gCoefficient lambda normal K nu (dF (umv R d1 0) (umv R d2 0))
              * dF (umv R d1 0) (umv R d2 0)
              = lambda * Matrix.dotProduct normal (K.mulVec nu)))
    ∧ (∀ {n : Nat} (P : Problem n) (i : Fin n) (p : Nat) (d : FaceData n),
        faceData P i p = Except.ok d →
        d1 = d.globalPosFace13 - d.globalPos1 → d2 = d.globalPos1 - d.globalPosFace12 →
        d.g111 = gCoefficient
            (P.upwindMobilitiesWetting i d.indexInInside 0
              + P.upwindMobilitiesNonwetting i d.indexInInside 0)
            d.integrationOuterNormaln1 (P.intrinsicPermeability d.globalPos1 i)
            (umv R d1 0) (dF (umv R d1 0) (umv R d2 0))
        ∧ d.g121 = gCoefficient
            (P.upwindMobilitiesWetting i d.indexInInside 0
              + P.upwindMobilitiesNonwetting i d.indexInInside 0)
            d.integrationOuterNormaln1 (P.intrinsicPermeability d.globalPos1 i)
            (umv R d2 0) (dF (umv R d1 0) (umv R d2 0))
        ∧ d.g211 = gCoefficient
            (P.upwindMobilitiesWetting i d.indexInInside 0
              + P.upwindMobilitiesNonwetting i d.indexInInside 0)
            d.integrationOuterNormaln3 (P.intrinsicPermeability d.globalPos1 i)
            (umv R d1 0) (dF (umv R d1 0) (umv R d2 0))
        ∧ d.g221 = gCoefficient
            (P.upwindMobilitiesWetting i d.indexInInside 0
              + P.upwindMobilitiesNonwetting i d.indexInInside 0)
            d.integrationOuterNormaln3 (P.intrinsicPermeability d.globalPos1 i)
            (umv R d2 0) (dF (umv R d1 0) (umv R d2 0))) := by
  have h1 := dF_rotated d1 d2
  refine ⟨h1, ?_, ?_, ?_, ?_⟩
  · rw [h1]
    exact abs_nonneg _
  · rw [h1, abs_eq_zero]
    exact cross_eq_zero_iff d1 d2
  · intro lambda normal nu K
    constructor
    · rw [← h1]
      simp only [gCoefficient, umv, zero_add]
    · intro hne
      unfold gCoefficient
      rw [div_mul_cancel₀ _ hne]
      simp only [umv, zero_add]
  · intro n P i p d h hd1 hd2
    unfold faceData at h
    simp only [Except.bind_eq_ok_iff] at h
    obtain ⟨q, _, isIt, _, nextisIt, _, h⟩ := h
    cases h
    subst hd1 hd2
    exact ⟨rfl, rfl, rfl, rfl⟩

end Dumux
namespace Dumux

/-! ## The four-cell case without cross coefficients -/

/-- A right inverse is what `invert` returns. -/
theorem invert_eq_of_mul_eq_one {k : Nat} (A D : Matrix (Fin k) (Fin k) ℚ) (h : A * D = 1) :
    invert A = Except.ok D := by
  have hdet : A.det ≠ 0 := by
    intro h0
    have := congrArg Matrix.det h
    rw [Matrix.det_mul, h0, zero_mul, Matrix.det_one] at this
    exact zero_ne_one this
  have hinv : A.det⁻¹ • A.adjugate = D := by
    rw [← Matrix.inv_eq_right_inv h, Matrix.inv_def, Ring.inverse_eq_inv']
  unfold invert
  rw [if_neg hdet, hinv]
  rfl

/-- C21: in the four-cell case, if all cross coefficients vanish and the sums
`g111 + g112`, `g113 + g114`, `g221 + g223`, `g222 + g224` are nonzero, the local matrix is
inverted and `T = C A^-1 B + F` is the two-point flux with harmonically averaged half
transmissibilities: what is added to row `globalIdx1` of `M_` is
`g111 g112 / (g111 + g112) + g221 g223 / (g221 + g223)` on the diagonal,
`- g111 g112 / (g111 + g112)` for cell 2, `- g221 g223 / (g221 + g223)` for cell 3 and `0`
for the diagonal cell 4. -/
theorem fourCellT_two_point_flux (g111 g221 g112 g222 g113 g223 g114 g224 : ℚ)
    (h12 : g111 + g112 ≠ 0) (h34 : g113 + g114 ≠ 0) (h13 : g221 + g223 ≠ 0)
    (h24 : g222 + g224 ≠ 0) :
    ∃ T, fourCellT g111 0 0 g221 g112 0 0 g222 g113 0 0 g223 g114 0 0 g224 = Except.ok T
      ∧ T 0 0 + T 2 0 = g111 * g112 / (g111 + g112) + g221 * g223 / (g221 + g223)
      ∧ T 0 1 + T 2 1 = - (g111 * g112 / (g111 + g112))
      ∧ T 0 2 + T 2 2 = - (g221 * g223 / (g221 + g223))
      ∧ T 0 3 + T 2 3 = 0
      ∧ ∀ {n : Nat} (s : System n) (globalIdx1 globalIdx2 globalIdx3 globalIdx4 : Fin n),
          fourCellScatter s globalIdx1 globalIdx2 globalIdx3 globalIdx4 T
            = (((s.addM globalIdx1 globalIdx1
                  (g111 * g112 / (g111 + g112) + g221 * g223 / (g221 + g223))).addM
                globalIdx1 globalIdx2 (- (g111 * g112 / (g111 + g112)))).addM
                globalIdx1 globalIdx3 (- (g221 * g223 / (g221 + g223)))).addM
                globalIdx1 globalIdx4 0 := by
  have h34' : g114 + g113 ≠ 0 := by rwa [add_comm]
  have h13' : g223 + g221 ≠ 0 := by rwa [add_comm]
  have hinv : invert (!![g111 + g112, 0, 0, -0; 0, g114 + g113, -0, 0;
      0, -0, g223 + g221, 0; -0, 0, 0, g222 + g224] : Matrix (Fin 4) (Fin 4) ℚ)
      = Except.ok !![(g111 + g112)⁻¹, 0, 0, 0; 0, (g114 + g113)⁻¹, 0, 0;
        0, 0, (g223 + g221)⁻¹, 0; 0, 0, 0, (g222 + g224)⁻¹] := by
    apply invert_eq_of_mul_eq_one
    ext i j
    fin_cases i <;> fin_cases j <;>
      simp [Matrix.mul_apply, Fin.sum_univ_four, Matrix.one_apply, Matrix.vecHead, Matrix.vecTail, h12, h34', h13', h24]
  have hT : fourCellT g111 0 0 g221 g112 0 0 g222 g113 0 0 g223 g114 0 0 g224
      = Except.ok
        ((!![g111 + 0, 0, 0, 0; 0, 0, 0, -g114 - 0; 0, 0, 0 - g223, 0;
            0, -0 + g222, 0, 0] : Matrix (Fin 4) (Fin 4) ℚ)
          + (!![-g111, 0, -0, 0; 0, g114, 0, 0; 0, -0, g223, 0; 0, 0, 0, -g222]
              * !![(g111 + g112)⁻¹, 0, 0, 0; 0, (g114 + g113)⁻¹, 0, 0;
                0, 0, (g223 + g221)⁻¹, 0; 0, 0, 0, (g222 + g224)⁻¹])
            * !![g111 + 0, g112 - 0, 0, 0; 0, 0, g113 - 0, g114 + 0;
                0 + g221, 0, -0 + g223, 0; 0, -0 + g222, 0, 0 + g224]) := by
    unfold fourCellT
    simp only [bind, Except.bind, hinv, pure, Except.pure]
  obtain ⟨T, hT', hdef⟩ : ∃ T, fourCellT g111 0 0 g221 g112 0 0 g222 g113 0 0 g223 g114 0 0 g224
      = Except.ok T ∧ T = _ := ⟨_, hT, rfl⟩
  have e0 : T 0 0 + T 2 0 = g111 * g112 / (g111 + g112) + g221 * g223 / (g221 + g223) := by
    rw [hdef]
    simp [Matrix.mul_apply, Fin.sum_univ_four, Matrix.add_apply, Matrix.vecHead, Matrix.vecTail]
    field_simp
    ring
  have e1 : T 0 1 + T 2 1 = - (g111 * g112 / (g111 + g112)) := by
    rw [hdef]
    simp [Matrix.mul_apply, Fin.sum_univ_four, Matrix.add_apply, Matrix.vecHead, Matrix.vecTail]
    field_simp
  have e2 : T 0 2 + T 2 2 = - (g221 * g223 / (g221 + g223)) := by
    rw [hdef]
    simp [Matrix.mul_apply, Fin.sum_univ_four, Matrix.add_apply, Matrix.vecHead, Matrix.vecTail]
    field_simp
    ring
  have e3 : T 0 3 + T 2 3 = 0 := by
    rw [hdef]
    simp [Matrix.mul_apply, Fin.sum_univ_four, Matrix.add_apply, Matrix.vecHead, Matrix.vecTail]
  exact ⟨T, hT', e0, e1, e2, e3, fun s i j k l => by
    simp only [fourCellScatter, e0, e1, e2, e3]⟩

/-- C21 for half transmissibilities 1 on the face towards cell 2 and 2 on the face towards
cell 3: the diagonal receives `1/2 + 1`, cell 2 receives `-1/2`, cell 3 receives `-1`. -/
theorem fourCellT_two_point_flux_witness :
    (1 : ℚ) + 1 ≠ 0 ∧ (2 : ℚ) + 2 ≠ 0
    ∧ ∃ T, fourCellT 1 0 0 2 1 0 0 2 1 0 0 2 1 0 0 2 = Except.ok T
      ∧ T 0 0 + T 2 0 = 1 * 1 / (1 + 1) + 2 * 2 / (2 + 2)
      ∧ T 0 1 + T 2 1 = - (1 * 1 / (1 + 1))
      ∧ T 0 2 + T 2 2 = - (2 * 2 / (2 + 2))
      ∧ T 0 3 + T 2 3 = 0 := by
  obtain ⟨T, h, e0, e1, e2, e3, _⟩ := fourCellT_two_point_flux 1 2 1 2 1 2 1 2
    (by decide!) (by decide!) (by decide!) (by decide!)
  exact ⟨by decide!, by decide!, T, h, e0, e1, e2, e3⟩

end Dumux
namespace Dumux

/-! ## The closed-form Dirichlet/Dirichlet branches -/

/-- C25: the closed-form Dirichlet/Dirichlet branches agree with elimination of the edge
pressure.  For `isIt` interior, `nextisIt` Dirichlet (`g3`) and `isIt24` Dirichlet (`g4`),
with `g111 + g112` nonzero and
`v0 = ((g111+g121) u1 + (g112-g122) u2 - g121 g3 + g122 g4) / (g111 + g112)`, the sum of the
half-face fluxes `F12 = (g111+g121) u1 - g111 v0 - g121 g3` and
`F13 = (g211+g221) u1 - g211 v0 - g221 g3` is what the branch adds to `M_[1][1]` (that is
`T[0][0] + T[1][0]`) times `u1`, plus what it adds to `M_[1][2]` (`T[0][1] + T[1][1]`) times
`u2`, plus what it subtracts from `f_[1]` (`r[0] + r[1]`).  The mirrored branch (`isIt`
Dirichlet `g1`, `nextisIt` interior, `isIt34` Dirichlet `g2`, `g221 + g223` nonzero,
`v0 = ((g211+g221) u1 + (g223-g213) u3 - g211 g1 + g213 g2) / (g221 + g223)`,
`F12 = (g111+g121) u1 - g111 g1 - g121 v0`, `F13 = (g211+g221) u1 - g211 g1 - g221 v0`)
satisfies the same identity with cell 3 in the place of cell 2. -/
theorem dirichletDirichlet_eliminates_edge_pressure {n : Nat} (s : System n)
    (globalIdx1 globalIdx2 globalIdx3 : Fin n)
    (g111 g121 g211 g221 g112 g122 g213 g223 g1 g2 g3 g4 u1 u2 u3 : ℚ)
    (h2 : globalIdx2 ≠ globalIdx1) (h3 : globalIdx3 ≠ globalIdx1) :
    (g111 + g112 ≠ 0 →
      ∃ s', interiorDirichletDirichlet s globalIdx1 globalIdx2
            g111 g121 g211 g221 g112 g122 g3 g4 = Except.ok s'
        ∧ ((g111 + g121) * u1
            - g111 * (((g111 + g121) * u1 + (g112 - g122) * u2 - g121 * g3 + g122 * g4)
                / (g111 + g112))
            - g121 * g3)
          + ((g211 + g221) * u1
            - g211 * (((g111 + g121) * u1 + (g112 - g122) * u2 - g121 * g3 + g122 * g4)
                / (g111 + g112))
            - g221 * g3)
          = (s'.M_ globalIdx1 globalIdx1 - s.M_ globalIdx1 globalIdx1) * u1
            + (s'.M_ globalIdx1 globalIdx2 - s.M_ globalIdx1 globalIdx2) * u2
            + (s.f_ globalIdx1 - s'.f_ globalIdx1))
    ∧ (g221 + g223 ≠ 0 →
      ∃ s', dirichletInteriorDirichlet s globalIdx1 globalIdx3
            g111 g121 g211 g221 g213 g223 g1 g2 = Except.ok s'
        ∧ ((g111 + g121) * u1 - g111 * g1
            - g121 * (((g211 + g221) * u1 + (g223 - g213) * u3 - g211 * g1 + g213 * g2)
                / (g221 + g223)))
          + ((g211 + g221) * u1 - g211 * g1
            - g221 * (((g211 + g221) * u1 + (g223 - g213) * u3 - g211 * g1 + g213 * g2)
                / (g221 + g223)))
          = (s'.M_ globalIdx1 globalIdx1 - s.M_ globalIdx1 globalIdx1) * u1
            + (s'.M_ globalIdx1 globalIdx3 - s.M_ globalIdx1 globalIdx3) * u3
            + (s.f_ globalIdx1 - s'.f_ globalIdx1)) := by
  have h2' : ¬ globalIdx1 = globalIdx2 := fun h => h2 h.symm
  have h3' : ¬ globalIdx1 = globalIdx3 := fun h => h3 h.symm
  constructor
  · intro hcoe
    refine ⟨_, rfl, ?_⟩
    simp [System.addM, System.subF, h2, h2']
    field_simp
    ring
  · intro hcoe
    refine ⟨_, rfl, ?_⟩
    simp [System.addM, System.subF, h3, h3']
    field_simp
    ring

/-- C25 on the zero system with three cells and the coefficients 1, 2, ..., 8: both branches
return a system, and the identities hold at `u1 = 1`, `u2 = 2`, `u3 = 3`. -/
theorem dirichletDirichlet_eliminates_edge_pressure_witness :
    (1 : Fin 3) ≠ 0 ∧ (2 : Fin 3) ≠ 0 ∧ (1 : ℚ) + 5 ≠ 0 ∧ (4 : ℚ) + 8 ≠ 0
    ∧ (∃ s', interiorDirichletDirichlet (zeroSystem 3) 0 1 1 2 3 4 5 6 11 12 = Except.ok s'
        ∧ ((1 + 2) * 1 - 1 * (((1 + 2) * 1 + (5 - 6) * 2 - 2 * 11 + 6 * 12) / (1 + 5))
              - 2 * 11)
            + ((3 + 4) * 1 - 3 * (((1 + 2) * 1 + (5 - 6) * 2 - 2 * 11 + 6 * 12) / (1 + 5))
              - 4 * 11)
          = (s'.M_ 0 0 - (zeroSystem 3).M_ 0 0) * 1 + (s'.M_ 0 1 - (zeroSystem 3).M_ 0 1) * 2
            + ((zeroSystem 3).f_ 0 - s'.f_ 0)) :=
  ⟨by decide, by decide, by decide!, by decide!,
    (dirichletDirichlet_eliminates_edge_pressure (zeroSystem 3) 0 1 2 1 2 3 4 5 6 7 8 9 10 11 12
      1 2 3 (by decide) (by decide)).1 (by decide!)⟩

end Dumux
namespace Dumux

/-! ## Constant pressure -/

/-- What `invert` returns is a left inverse. -/
theorem invert_mul_eq_one {k : Nat} {A Ainv : Matrix (Fin k) (Fin k) ℚ}
    (h : invert A = Except.ok Ainv) : Ainv * A = 1 := by
  unfold invert at h
  split_ifs at h with hdet
  cases h
  rw [Matrix.smul_mul, Matrix.adjugate_mul, smul_smul, inv_mul_cancel₀ hdet, one_smul]

/-- With `B u + r1 = A w`, the inverse of `A` maps `u` and `r1` to `w`. -/
theorem invert_mulVec {k l : Nat} {A Ainv : Matrix (Fin k) (Fin k) ℚ}
    (h : invert A = Except.ok Ainv) (B : Matrix (Fin k) (Fin l) ℚ) (u : Fin l → ℚ)
    (r1 w : Fin k → ℚ) (hB : B.mulVec u + r1 = A.mulVec w) :
    (Ainv * B).mulVec u + Ainv.mulVec r1 = w := by
  rw [← Matrix.mulVec_mulVec, ← Matrix.mulVec_add, hB, Matrix.mulVec_mulVec,
    invert_mul_eq_one h, Matrix.one_mulVec]

theorem System.rowSum_addM {n : Nat} (s : System n) (i k : Fin n) (v : ℚ) :
    (s.addM i k v).rowSum i = s.rowSum i + v := by
  have h : ∀ j, (s.addM i k v).M_ i j = s.M_ i j + if j = k then v else 0 := by
    intro j
    simp only [System.addM, true_and]
    split_ifs <;> simp
  simp only [System.rowSum, h, Finset.sum_add_distrib, Finset.sum_ite_eq', Finset.mem_univ,
    if_true]

theorem System.rowSum_addF {n : Nat} (s : System n) (i j : Fin n) (v : ℚ) :
    (s.addF i v).rowSum j = s.rowSum j := rfl

theorem System.rowSum_subF {n : Nat} (s : System n) (i j : Fin n) (v : ℚ) :
    (s.subF i v).rowSum j = s.rowSum j := rfl

theorem System.f_addM {n : Nat} (s : System n) (i k : Fin n) (v : ℚ) :
    (s.addM i k v).f_ = s.f_ := rfl

theorem System.f_addF {n : Nat} (s : System n) (i : Fin n) (v : ℚ) :
    (s.addF i v).f_ i = s.f_ i + v := by
  simp [System.addF]

theorem System.f_subF {n : Nat} (s : System n) (i : Fin n) (v : ℚ) :
    (s.subF i v).f_ i = s.f_ i - v := by
  simp [System.subF]

theorem interiorNeumannDirichlet_constant {n : Nat} {s s' : System n} {i j : Fin n}
    {g111 g121 g211 g221 g112 g122 v13 g : ℚ}
    (h : interiorNeumannDirichlet s i j g111 g121 g211 g221 g112 g122 0 g v13
      = Except.ok s') :
    g * (s'.rowSum i - s.rowSum i) = s'.f_ i - s.f_ i := by
  unfold interiorNeumannDirichlet at h
  simp only [Except.bind_eq_ok_iff] at h
  obtain ⟨Ainv, hinv, h⟩ := h
  cases h
  have key := invert_mulVec hinv !![g111 + g121, g112 - g122; g211 + g221, 0] ![g, g]
    ![g122 * g, -0 * v13 / 2] ![g, g] (by
      ext k
      fin_cases k <;> simp [Matrix.mulVec, Matrix.dotProduct, Fin.sum_univ_two] <;> ring)
  have k0 := congrFun key 0
  have k1 := congrFun key 1
  simp [Matrix.mulVec, Matrix.dotProduct, Fin.sum_univ_two, Matrix.mul_apply] at k0 k1
  simp only [System.rowSum_addM, System.rowSum_addF, System.f_addF, System.f_addM]
  simp [umv, Matrix.mulVec, Matrix.dotProduct, Fin.sum_univ_two, Matrix.mul_apply]
  linear_combination (-g111) * k0 + (-g121) * k1

theorem interiorDirichletNeumann_constant {n : Nat} {s s' : System n} {i j : Fin n}
    {g111 g121 g211 g221 g112 g122 g212 g222 v24 g : ℚ}
    (h : interiorDirichletNeumann s i j g111 g121 g211 g221 g112 g122 g212 g222 g 0 v24
      = Except.ok s') :
    g * (s'.rowSum i - s.rowSum i) = s'.f_ i - s.f_ i := by
  unfold interiorDirichletNeumann at h
  simp only [Except.bind_eq_ok_iff] at h
  obtain ⟨Ainv, hinv, h⟩ := h
  cases h
  have key := invert_mulVec hinv !![g111 + g121, g112 - g122; 0, g222 - g212] ![g, g]
    ![-g121 * g, -0 * v24 / 2] ![g, g] (by
      ext k
      fin_cases k <;> simp [Matrix.mulVec, Matrix.dotProduct, Fin.sum_univ_two] <;> ring)
  have k0 := congrFun key 0
  simp [Matrix.mulVec, Matrix.dotProduct, Fin.sum_univ_two, Matrix.mul_apply] at k0
  simp only [System.rowSum_addM, System.rowSum_addF, System.f_addF, System.f_addM]
  simp [umv, Matrix.mulVec, Matrix.dotProduct, Fin.sum_univ_two, Matrix.mul_apply]
  linear_combination (-(g111 + g211)) * k0

theorem dirichletInteriorNeumann_constant {n : Nat} {s s' : System n} {i j : Fin n}
    {g111 g121 g211 g221 g113 g123 g213 g223 v34 g : ℚ}
    (h : dirichletInteriorNeumann s i j g111 g121 g211 g221 g113 g123 g213 g223 g 0 v34
      = Except.ok s') :
    g * (s'.rowSum i - s.rowSum i) = s'.f_ i - s.f_ i := by
  unfold dirichletInteriorNeumann at h
  simp only [Except.bind_eq_ok_iff] at h
  obtain ⟨Ainv, hinv, h⟩ := h
  cases h
  have key := invert_mulVec hinv !![0, g113 - g123; g211 + g221, g223 - g213] ![g, g]
    ![-0 * v34 / 2, -g211 * g] ![g, g] (by
      ext k
      fin_cases k <;> simp [Matrix.mulVec, Matrix.dotProduct, Fin.sum_univ_two] <;> ring)
  have k1 := congrFun key 1
  simp [Matrix.mulVec, Matrix.dotProduct, Fin.sum_univ_two, Matrix.mul_apply] at k1
  simp only [System.rowSum_addM, System.rowSum_addF, System.f_addF, System.f_addM]
  simp [umv, Matrix.mulVec, Matrix.dotProduct, Fin.sum_univ_two, Matrix.mul_apply]
  linear_combination (-(g121 + g221)) * k1

theorem neumannInteriorDirichlet_constant {n : Nat} {s s' : System n} {i j : Fin n}
    {g111 g121 g211 g221 g213 g223 v12 g : ℚ}
    (h : neumannInteriorDirichlet s i j g111 g121 g211 g221 g213 g223 0 g v12
      = Except.ok s') :
    g * (s'.rowSum i - s.rowSum i) = s'.f_ i - s.f_ i := by
  unfold neumannInteriorDirichlet at h
  simp only [Except.bind_eq_ok_iff] at h
  obtain ⟨Ainv, hinv, h⟩ := h
  cases h
  have key := invert_mulVec hinv !![g111 + g121, 0; g211 + g221, g223 - g213] ![g, g]
    ![-0 * v12 / 2, g213 * g] ![g, g] (by
      ext k
      fin_cases k <;> simp [Matrix.mulVec, Matrix.dotProduct, Fin.sum_univ_two] <;> ring)
  have k1 := congrFun key 1
  simp [Matrix.mulVec, Matrix.dotProduct, Fin.sum_univ_two, Matrix.mul_apply] at k1
  simp only [System.rowSum_addM, System.rowSum_subF, System.f_subF, System.f_addM]
  simp only [umv, Matrix.mulVec, Matrix.dotProduct, Fin.sum_univ_two, Matrix.mul_apply,
    Matrix.add_apply, Pi.add_apply]
  simp [Matrix.vecHead, Matrix.vecTail]
  linear_combination g223 * k1

theorem interiorNeumannNeumann_rowSum {n : Nat} {s s' : System n} {i j : Fin n}
    {g111 g121 g211 g221 g112 g122 g212 g222 v13 v24 : ℚ}
    (h : interiorNeumannNeumann s i j g111 g121 g211 g221 g112 g122 g212 g222 0 0 v13 v24
      = Except.ok s') : s'.rowSum i = s.rowSum i := by
  unfold interiorNeumannNeumann at h
  simp only [Except.bind_eq_ok_iff] at h
  obtain ⟨Ainv, hinv, h⟩ := h
  cases h
  have key := invert_mulVec hinv !![g111 + g121, g112 - g122; g211 + g221, 0; 0, g222 - g212]
    ![1, 1] 0 ![1, 1, 1] (by
      ext k
      fin_cases k <;>
        simp [Matrix.mulVec, Matrix.dotProduct, Fin.sum_univ_two, Fin.sum_univ_three] <;> ring)
  have k0 := congrFun key 0
  have k1 := congrFun key 1
  simp [Matrix.mulVec, Matrix.dotProduct, Fin.sum_univ_two, Fin.sum_univ_three,
    Matrix.mul_apply] at k0 k1
  simp only [System.rowSum_addM, System.rowSum_addF]
  simp [Matrix.mul_apply, Fin.sum_univ_three]
  linear_combination (-g111) * k0 + (-g121) * k1

theorem neumannInteriorNeumann_rowSum {n : Nat} {s s' : System n} {i j : Fin n}
    {g111 g121 g211 g221 g113 g123 g213 g223 v12 v34 : ℚ}
    (h : neumannInteriorNeumann s i j g111 g121 g211 g221 g113 g123 g213 g223 0 0 v12 v34
      = Except.ok s') : s'.rowSum i = s.rowSum i := by
  unfold neumannInteriorNeumann at h
  simp only [Except.bind_eq_ok_iff] at h
  obtain ⟨Ainv, hinv, h⟩ := h
  cases h
  have key := invert_mulVec hinv
    !![g111 + g121, 0; 0, g113 - g123; g211 + g221, g223 - g213]
    ![1, 1] 0 ![1, 1, 1] (by
      ext k
      fin_cases k <;>
        simp [Matrix.mulVec, Matrix.dotProduct, Fin.sum_univ_two, Fin.sum_univ_three] <;> ring)
  have k1 := congrFun key 1
  have k2 := congrFun key 2
  simp [Matrix.mulVec, Matrix.dotProduct, Fin.sum_univ_two, Fin.sum_univ_three,
    Matrix.mul_apply] at k1 k2
  simp only [System.rowSum_addM, System.rowSum_subF]
  simp only [Matrix.mul_apply, Fin.sum_univ_two, Fin.sum_univ_three, Matrix.add_apply]
  simp [Matrix.vecHead, Matrix.vecTail]
  linear_combination (-g213) * k1 + g223 * k2

theorem fourCellT_rowSum {g111 g121 g211 g221 g112 g122 g212 g222 g113 g123 g213 g223
    g114 g124 g214 g224 : ℚ} {T : Matrix (Fin 4) (Fin 4) ℚ}
    (h : fourCellT g111 g121 g211 g221 g112 g122 g212 g222 g113 g123 g213 g223
      g114 g124 g214 g224 = Except.ok T) :
    (T 0 0 + T 2 0) + (T 0 1 + T 2 1) + (T 0 2 + T 2 2) + (T 0 3 + T 2 3) = 0 := by
  unfold fourCellT at h
  simp only [Except.bind_eq_ok_iff] at h
  obtain ⟨Ainv, hinv, h⟩ := h
  cases h
  have key := invert_mulVec hinv
    !![g111 + g121, g112 - g122, 0, 0; 0, 0, g113 - g123, g114 + g124;
       g211 + g221, 0, -g213 + g223, 0; 0, -g212 + g222, 0, g214 + g224]
    ![1, 1, 1, 1] 0 ![1, 1, 1, 1] (by
      ext k
      fin_cases k <;>
        simp [Matrix.mulVec, Matrix.dotProduct, Fin.sum_univ_four] <;> ring)
  have k0 := congrFun key 0
  have k1 := congrFun key 1
  have k2 := congrFun key 2
  simp [Matrix.mulVec, Matrix.dotProduct, Fin.sum_univ_four, Matrix.mul_apply,
    Matrix.vecHead, Matrix.vecTail] at k0 k1 k2
  simp only [Matrix.mul_apply, Fin.sum_univ_four, Matrix.add_apply]
  simp [Matrix.vecHead, Matrix.vecTail]
  linear_combination (-g111) * k0 + (-g213) * k1 + (-g121 + g223) * k2

theorem fourCellScatter_rowSum {n : Nat} (s : System n) (i j k l : Fin n)
    (T : Matrix (Fin 4) (Fin 4) ℚ) :
    (fourCellScatter s i j k l T).rowSum i
      = s.rowSum i + ((T 0 0 + T 2 0) + (T 0 1 + T 2 1) + (T 0 2 + T 2 2) + (T 0 3 + T 2 3)) := by
  simp only [fourCellScatter, System.rowSum_addM]
  ring

theorem assembleInteriorInterior_rowSum {n : Nat} {P : Problem n} {d : FaceData n}
    {j k : Fin n} {s s' : System n}
    (h : assembleInteriorInterior P d j k s = Except.ok s') :
    s'.rowSum d.globalIdx1 = s.rowSum d.globalIdx1 := by
  unfold assembleInteriorInterior at h
  simp only [Except.bind_eq_ok_iff] at h
  obtain ⟨_, _, _, _, T, hT, h⟩ := h
  cases h
  unfold fourCellTransmissibility at hT
  rw [fourCellScatter_rowSum, fourCellT_rowSum hT, add_zero]

theorem interiorDirichletDirichlet_constant {n : Nat} {s s' : System n} {i j : Fin n}
    {g111 g121 g211 g221 g112 g122 g : ℚ}
    (h : interiorDirichletDirichlet s i j g111 g121 g211 g221 g112 g122 g g = Except.ok s') :
    g * (s'.rowSum i - s.rowSum i) = s'.f_ i - s.f_ i := by
  cases h
  simp only [System.rowSum_addM, System.rowSum_subF, System.f_subF, System.f_addM]
  simp
  ring

theorem dirichletInteriorDirichlet_constant {n : Nat} {s s' : System n} {i j : Fin n}
    {g111 g121 g211 g221 g213 g223 g : ℚ}
    (h : dirichletInteriorDirichlet s i j g111 g121 g211 g221 g213 g223 g g = Except.ok s') :
    g * (s'.rowSum i - s.rowSum i) = s'.f_ i - s.f_ i := by
  cases h
  simp only [System.rowSum_addM, System.rowSum_subF, System.f_subF, System.f_addM]
  simp
  ring

theorem neumannBoundaryDirichlet_constant {n : Nat} {s s' : System n} {i : Fin n}
    {g111 g121 g211 g221 v12 g : ℚ}
    (h : neumannBoundaryDirichlet s i g111 g121 g211 g221 g 0 v12 = Except.ok s') :
    g * (s'.rowSum i - s.rowSum i) = s'.f_ i - s.f_ i := by
  cases h
  simp only [System.rowSum_addM, System.rowSum_subF, System.f_subF, System.f_addM]
  simp
  ring

theorem dirichletBoundaryDirichlet_constant {n : Nat} {s s' : System n} {i : Fin n}
    {g111 g121 g211 g221 g : ℚ}
    (h : dirichletBoundaryDirichlet s i g111 g121 g211 g221 g g = Except.ok s') :
    g * (s'.rowSum i - s.rowSum i) = s'.f_ i - s.f_ i := by
  cases h
  simp only [System.rowSum_addM, System.rowSum_addF, System.f_addF, System.f_addM]
  ring

theorem dirichletBoundaryNeumann_constant {n : Nat} {s s' : System n} {i : Fin n}
    {g111 g121 g211 g221 v13 g : ℚ}
    (h : dirichletBoundaryNeumann s i g111 g121 g211 g221 g 0 v13 = Except.ok s') :
    g * (s'.rowSum i - s.rowSum i) = s'.f_ i - s.f_ i := by
  cases h
  simp only [System.rowSum_addM, System.rowSum_subF, System.f_subF, System.f_addM]
  simp
  ring

theorem System.subF_zero {n : Nat} (s : System n) (i : Fin n) : s.subF i 0 = s := by
  cases s
  simp [System.subF]

theorem assembleInteriorBoundary_constant {n : Nat} {P : Problem n} {g : ℚ}
    (hN : ∀ pos face, P.neumannPress pos face = ⟨0, 0⟩)
    (hD : ∀ pos face, P.dirichletPress pos face = g)
    {d : FaceData n} {j : Fin n} {s s' : System n}
    (h : assembleInteriorBoundary P d j s = Except.ok s') :
    g * (s'.rowSum d.globalIdx1 - s.rowSum d.globalIdx1)
      = s'.f_ d.globalIdx1 - s.f_ d.globalIdx1 := by
  unfold assembleInteriorBoundary at h
  simp only [Except.bind_eq_ok_iff] at h
  obtain ⟨_, _, h⟩ := h
  simp only [hN, hD, neumannFlux_zero] at h
  split_ifs at h
  · rw [interiorNeumannNeumann_rowSum h, interiorNeumannNeumann_f h, sub_self, sub_self,
      mul_zero]
  · exact interiorNeumannDirichlet_constant h
  · exact interiorDirichletNeumann_constant h
  · exact interiorDirichletDirichlet_constant h

theorem assembleNeumann_constant {n : Nat} {P : Problem n} {g : ℚ}
    (hN : ∀ pos face, P.neumannPress pos face = ⟨0, 0⟩)
    (hD : ∀ pos face, P.dirichletPress pos face = g)
    {d : FaceData n} {s s' : System n} (h : assembleNeumann P d s = Except.ok s') :
    g * (s'.rowSum d.globalIdx1 - s.rowSum d.globalIdx1)
      = s'.f_ d.globalIdx1 - s.f_ d.globalIdx1 := by
  unfold assembleNeumann at h
  simp only [hN, hD, neumannFlux_zero, mul_zero, System.subF_zero] at h
  split at h
  · split_ifs at h
    · exact neumannBoundaryDirichlet_constant h
    · cases h
      rw [sub_self, sub_self, mul_zero]
  · simp only [Except.bind_eq_ok_iff] at h
    obtain ⟨_, _, h⟩ := h
    split_ifs at h
    · rw [neumannInteriorNeumann_rowSum h, neumannInteriorNeumann_f h, sub_self, sub_self,
        mul_zero]
    · exact neumannInteriorDirichlet_constant h

theorem assembleDirichlet_constant {n : Nat} {P : Problem n} {g : ℚ}
    (hN : ∀ pos face, P.neumannPress pos face = ⟨0, 0⟩)
    (hD : ∀ pos face, P.dirichletPress pos face = g)
    {d : FaceData n} {s s' : System n} (h : assembleDirichlet P d s = Except.ok s') :
    g * (s'.rowSum d.globalIdx1 - s.rowSum d.globalIdx1)
      = s'.f_ d.globalIdx1 - s.f_ d.globalIdx1 := by
  unfold assembleDirichlet at h
  simp only [hN, hD, neumannFlux_zero] at h
  split at h
  · split_ifs at h
    · exact dirichletBoundaryDirichlet_constant h
    · exact dirichletBoundaryNeumann_constant h
  · simp only [Except.bind_eq_ok_iff] at h
    obtain ⟨_, _, h⟩ := h
    split_ifs at h
    · exact dirichletInteriorDirichlet_constant h
    · exact dirichletInteriorNeumann_constant h

theorem assembleFace_constant {n : Nat} {P : Problem n} {g : ℚ}
    (hN : ∀ pos face, P.neumannPress pos face = ⟨0, 0⟩)
    (hD : ∀ pos face, P.dirichletPress pos face = g)
    {i : Fin n} {p : Nat} {s s' : System n} (h : assembleFace P i s p = Except.ok s') :
    g * (s'.rowSum i - s.rowSum i) = s'.f_ i - s.f_ i := by
  unfold assembleFace at h
  simp only [Except.bind_eq_ok_iff] at h
  obtain ⟨d, hd, h⟩ := h
  rw [← (faceData_eq_ok hd).1]
  split at h
  · split at h
    · rw [assembleInteriorInterior_rowSum h, assembleInteriorInterior_f h, sub_self, sub_self,
        mul_zero]
    · exact assembleInteriorBoundary_constant hN hD h
  · split_ifs at h
    · exact assembleNeumann_constant hN hD h
    · exact assembleDirichlet_constant hN hD h

/-- Without a Dirichlet face (every boundary face carries the Neumann tag) and with zero
Neumann fluxes, a pass of the intersection loop adds a zero row sum and nothing to the
right-hand side. -/
theorem assembleFace_allNeumann {n : Nat} {P : Problem n}
    (hN : ∀ pos face, P.neumannPress pos face = ⟨0, 0⟩)
    (hall : ∀ pos face, P.bctypePress pos face = BoundaryConditions.neumann)
    {i : Fin n} {p : Nat} {s s' : System n} (h : assembleFace P i s p = Except.ok s') :
    s'.rowSum i = s.rowSum i ∧ s'.f_ i = s.f_ i := by
  unfold assembleFace at h
  simp only [Except.bind_eq_ok_iff] at h
  obtain ⟨d, hd, h⟩ := h
  rw [← (faceData_eq_ok hd).1]
  split at h
  · split at h
    · exact ⟨assembleInteriorInterior_rowSum h, by rw [assembleInteriorInterior_f h]⟩
    · unfold assembleInteriorBoundary at h
      simp only [Except.bind_eq_ok_iff] at h
      obtain ⟨_, _, h⟩ := h
      simp only [hN, hall, neumannFlux_zero, if_true] at h
      exact ⟨interiorNeumannNeumann_rowSum h, by rw [interiorNeumannNeumann_f h]⟩
  · simp only [hall, if_true] at h
    unfold assembleNeumann at h
    simp only [hN, hall, neumannFlux_zero, mul_zero, System.subF_zero, if_true] at h
    split at h
    · rw [if_neg (by decide)] at h
      cases h
      exact ⟨rfl, rfl⟩
    · simp only [Except.bind_eq_ok_iff] at h
      obtain ⟨_, _, h⟩ := h
      exact ⟨neumannInteriorNeumann_rowSum h, by rw [neumannInteriorNeumann_f h]⟩

/-- With zero Neumann fluxes and the constant Dirichlet value `g`, the pass of a cell of
nonzero permeability through the element loop keeps `g * rowSum - f_` apart from the source
term written at its start. -/
theorem assembleElement_constant {n : Nat} {P : Problem n} {g : ℚ}
    (hN : ∀ pos face, P.neumannPress pos face = ⟨0, 0⟩)
    (hD : ∀ pos face, P.dirichletPress pos face = g)
    {i : Fin n} {s s' : System n}
    (hK : ¬ ((P.intrinsicPermeability (P.element i).center i) 0 0 = 0
      ∧ (P.intrinsicPermeability (P.element i).center i) 0 1 = 0
      ∧ (P.intrinsicPermeability (P.element i).center i) 1 0 = 0
      ∧ (P.intrinsicPermeability (P.element i).center i) 1 1 = 0))
    (h : assembleElement P s i = Except.ok s') :
    g * s'.rowSum i - s'.f_ i
      = g * s.rowSum i - (P.element i).volume
        * ((P.source (P.element i).center i).wPhase
          + (P.source (P.element i).center i).nPhase) := by
  unfold assembleElement at h
  simp only at h
  rw [if_neg hK] at h
  refine foldlM_except_invariant (assembleFace P i)
    (fun t => g * t.rowSum i - t.f_ i
      = g * s.rowSum i - (P.element i).volume
        * ((P.source (P.element i).center i).wPhase
          + (P.source (P.element i).center i).nPhase)) _ ?_ _ _ ?_ h
  · intro p _ b b' hb hstep
    have := assembleFace_constant hN hD hstep
    linarith
  · show g * s.rowSum i - (s.setF i _).f_ i = _
    simp [System.setF]

/-- C24: constant pressure is reproduced by every assembly case.  If all Neumann fluxes are
zero and all Dirichlet values equal one constant `g`, then for every pass of the
intersection loop of `assemble` that returns (so the local matrix of its case was
inverted; in the closed-form cases the identity holds for the quotients as coded), `g` times
the sum of what the pass adds to row `globalIdx1` of `M_` equals what it adds to
`f_[globalIdx1]`: this covers the four-cell interior case and each of the boundary
combinations.  In the cases without a Dirichlet face the row contributions sum to zero and
`f_` is not changed: the four-cell case, the local systems with two Neumann faces, and
every pass when all boundary faces are Neumann faces.  For the whole of `assemble` it
follows that `g` times the sum of row `i` of `M_` is `f_[i]` minus the source term, for
every cell of nonzero permeability. -/
theorem assemble_constant_pressure {n : Nat} (P : Problem n) (g : ℚ)
    (hN : ∀ pos face, P.neumannPress pos face = ⟨0, 0⟩)
    (hD : ∀ pos face, P.dirichletPress pos face = g) :
    (∀ (i : Fin n) (p : Nat) (s s' : System n), assembleFace P i s p = Except.ok s' →
      g * (s'.rowSum i - s.rowSum i) = s'.f_ i - s.f_ i)
    ∧ (∀ (i : Fin n) (p : Nat) (s s' : System n) (d : FaceData n) (j k : Fin n),
        faceData P i p = Except.ok d → d.isIt.outside = some j → d.nextisIt.outside = some k →
        assembleFace P i s p = Except.ok s' →
        s'.rowSum i = s.rowSum i ∧ s'.f_ i = s.f_ i)
    ∧ (∀ (s s' : System n) (i j : Fin n)
        (g111 g121 g211 g221 g112 g122 g212 g222 face13vol face24vol : ℚ),
        interiorNeumannNeumann s i j g111 g121 g211 g221 g112 g122 g212 g222 0 0
          face13vol face24vol = Except.ok s' →
        s'.rowSum i = s.rowSum i ∧ s'.f_ i = s.f_ i)
    ∧ (∀ (s s' : System n) (i j : Fin n)
        (g111 g121 g211 g221 g113 g123 g213 g223 face12vol face34vol : ℚ),
        neumannInteriorNeumann s i j g111 g121 g211 g221 g113 g123 g213 g223 0 0
          face12vol face34vol = Except.ok s' →
        s'.rowSum i = s.rowSum i ∧ s'.f_ i = s.f_ i)
    ∧ ((∀ pos face, P.bctypePress pos face = BoundaryConditions.neumann) →
        ∀ (i : Fin n) (p : Nat) (s s' : System n), assembleFace P i s p = Except.ok s' →
          s'.rowSum i = s.rowSum i ∧ s'.f_ i = s.f_ i)
    ∧ (∀ (s s' : System n) (i : Fin n), assemble P s = Except.ok s' →
        ¬ ((P.intrinsicPermeability (P.element i).center i) 0 0 = 0
          ∧ (P.intrinsicPermeability (P.element i).center i) 0 1 = 0
          ∧ (P.intrinsicPermeability (P.element i).center i) 1 0 = 0
          ∧ (P.intrinsicPermeability (P.element i).center i) 1 1 = 0) →
        g * s'.rowSum i
          = s'.f_ i - (P.element i).volume
            * ((P.source (P.element i).center i).wPhase
              + (P.source (P.element i).center i).nPhase)) := by
  refine ⟨fun i p s s' h => assembleFace_constant hN hD h, ?_, ?_, ?_, ?_, ?_⟩
  · intro i p s s' d j k hd hj hk h
    unfold assembleFace at h
    simp only [hd, bind, Except.bind, hj, hk] at h
    rw [← (faceData_eq_ok hd).1]
    exact ⟨assembleInteriorInterior_rowSum h, by rw [assembleInteriorInterior_f h]⟩
  · intro s s' i j g111 g121 g211 g221 g112 g122 g212 g222 face13vol face24vol h
    exact ⟨interiorNeumannNeumann_rowSum h, by rw [interiorNeumannNeumann_f h]⟩
  · intro s s' i j g111 g121 g211 g221 g113 g123 g213 g223 face12vol face34vol h
    exact ⟨neumannInteriorNeumann_rowSum h, by rw [neumannInteriorNeumann_f h]⟩
  · intro hall i p s s' h
    exact assembleFace_allNeumann hN hall h
  · intro s s' i h hK
    obtain ⟨s1, s2, h1, h2, h3⟩ := assemble_row h i
    have e := assembleElement_constant hN hD hK h2
    have hs1 : s1.rowSum i = 0 := by
      simp only [System.rowSum, h1, Finset.sum_const_zero]
    have hs2 : s'.rowSum i = s2.rowSum i := by
      simp only [System.rowSum, h3.1]
    rw [hs2, h3.2]
    rw [hs1, mul_zero] at e
    linarith

/-- C24 on the 2x1 grid with one Dirichlet face: the pass of cell 1 at its top face (a
Dirichlet face followed by the interior face towards cell 0, whose neighbour has a Neumann
face through the shared corner) inverts a local matrix and adds `-1/2` and `3/2` to row 1
of `M_` and `3` to `f_[1]`. -/
theorem assemble_constant_pressure_witness :
    (∀ pos face, twoCellMixedProblem.neumannPress pos face = ⟨0, 0⟩)
    ∧ (∀ pos face, twoCellMixedProblem.dirichletPress pos face = 3)
    ∧ assembleFace twoCellMixedProblem 1 (zeroSystem 2) 3
        = Except.ok { M_ := !![0, 0; -1/2, 3/2], f_ := ![0, 3] }
    ∧ (3 : ℚ) * (System.rowSum { M_ := !![0, 0; -1/2, 3/2], f_ := ![0, 3] } 1
          - (zeroSystem 2).rowSum 1)
        = (![0, 3] : Fin 2 → ℚ) 1 - (zeroSystem 2).f_ 1 :=
  ⟨fun _ _ => rfl, fun _ _ => rfl, by decide!,
    (assemble_constant_pressure twoCellMixedProblem 3 (fun _ _ => rfl) (fun _ _ => rfl)).1
      1 3 (zeroSystem 2) { M_ := !![0, 0; -1/2, 3/2], f_ := ![0, 3] } (by decide!)⟩

end Dumux
